import Mathlib

/-! # CSCMotherboard: correlation of anode and cathode trigger primitives

A shallow embedding of `L1Trigger/CSCTriggerPrimitives/src/CSCMotherboard.cc`.

* C++ `int` values are Lean `Int`; `unsigned int` configuration words are `Nat`.
  The window bounds are C++ expressions that mix `int` and `unsigned int`; they
  are evaluated modulo 2^32 and stored in an `int`, which is the exact integer
  value whenever that value fits in 32 bits. Bin indices are below the buffer
  depths and the window size is a small configuration word, so the bounds are
  written here with exact integer arithmetic.
* The two primitive finders (`alctProc`, `clctProc`) are black boxes that answer
  `getBest...(bx)` and `getSecond...(bx)`; they are records of functions.
* The matching loops of `run` call `correlateLCTs` at most once per driving bin.
  The embedding of a loop returns, bin by bin, the call that was made (if any).
* The members written during a pass (`firstLCT`, `secondLCT`,
  `highMultiplicityBits_`) form a `MotherboardState`; `run` is `clear`, the two
  early returns, and the calls of the matching loop applied in order.
-/

namespace CSCMotherboard

/-! ## Data model -/

/-- Modelled from the spec: the anode primitive class `CSCALCTDigi` is declared
outside the source tree; it carries a validity bit, a quality, the accelerator
flag, the key wire group and the time bin. -/
structure CSCALCTDigi where
  isValid : Bool
  getQuality : Int
  getAccelerator : Bool
  getKeyWG : Int
  getBX : Int
deriving DecidableEq, Repr

/-- Modelled from the spec: the cathode primitive class `CSCCLCTDigi` is declared
outside the source tree; it carries a validity bit, a quality, the pattern
number, the bend, the key strip and the time bin. -/
structure CSCCLCTDigi where
  isValid : Bool
  getQuality : Int
  getPattern : Int
  getBend : Int
  getKeyStrip : Int
  getBX : Int
deriving DecidableEq, Repr

/-- Modelled from the spec: the provenance tags of `CSCCorrelatedLCTDigi` that the
source file names. -/
inductive LCTType where
  | CLCTALCT
  | ALCTCLCT
  | ALCTONLY
  | CLCTONLY
  | CLCT2GEM
deriving DecidableEq, Repr

/-- Modelled from the spec: the anode primitive finder, a black box answering
`getBestALCT(bx)` and `getSecondALCT(bx)`. -/
structure CSCAnodeLCTProcessor where
  getBestALCT : Int → CSCALCTDigi
  getSecondALCT : Int → CSCALCTDigi

/-- Modelled from the spec: the cathode primitive finder, a black box answering
`getBestCLCT(bx)` and `getSecondCLCT(bx)`. -/
structure CSCCathodeLCTProcessor where
  getBestCLCT : Int → CSCCLCTDigi
  getSecondCLCT : Int → CSCCLCTDigi

/-- Modelled from the spec: the buffer-depth constants of `CSCConstants`, which
is declared outside the source tree. They are parameters of the embedding. -/
structure CSCConstants where
  MAX_ALCT_TBINS : Nat
  MAX_CLCT_TBINS : Nat
  MAX_LCT_TBINS : Nat
  LCT_CENTRAL_BX : Int
  MAX_HALF_STRIP_ME1B : Int

/-- The configuration members of `CSCMotherboard` (and of its base class) that
the matching and candidate construction read. -/
structure Config where
  alct_trig_enable : Nat
  clct_trig_enable : Nat
  match_trig_enable : Nat
  match_trig_window_size : Nat
  tmb_l1a_window_size : Nat
  early_tbins : Int
  drop_used_alcts : Bool
  drop_used_clcts : Bool
  clct_to_alct : Bool
  alctClctOffset_ : Int
  mpc_block_me1a : Nat
  use_run3_patterns_ : Bool
  useHighMultiplicityBits_ : Bool
  isME11_ : Bool
  theTrigChamber : Nat
  readout_earliest_2 : Bool
  theStation : Nat
  theRing : Nat
  runME11ILT_ : Bool
  runME21ILT_ : Bool

/-! ## `findQuality` -/

/-- The 4-bit LCT quality number, `CSCMotherboard::findQuality`. The local
variable `quality` starts at 0 and is returned unchanged on the path that only
logs the unexpected pattern. -/
def findQuality (aLCT : CSCALCTDigi) (cLCT : CSCCLCTDigi) : Nat :=
  if !aLCT.isValid || !cLCT.isValid then
    if aLCT.isValid && !cLCT.isValid then 1
    else if !aLCT.isValid && cLCT.isValid then 2
    else 0
  else
    let pattern := cLCT.getPattern
    if pattern = 1 then 3
    else
      let a4 : Bool := decide (aLCT.getQuality ≥ 1)
      let c4 : Bool := decide (cLCT.getQuality ≥ 4)
      if !a4 && !c4 then 5
      else if a4 && !c4 then 6
      else if !a4 && c4 then 7
      else if a4 && c4 then
        if aLCT.getAccelerator then 8
        else
          if pattern = 2 ∨ pattern = 3 then 11
          else if pattern = 4 ∨ pattern = 5 then 12
          else if pattern = 6 ∨ pattern = 7 then 13
          else if pattern = 8 ∨ pattern = 9 then 14
          else if pattern = 10 then 15
          else 0
      else 0

/-! ## The matching loops of `run` -/

/-- One call of `correlateLCTs` made by `run`: the arguments are always
`getBestALCT(bx_alct)`, `getSecondALCT(bx_alct)`, `getBestCLCT(bx_clct)`,
`getSecondCLCT(bx_clct)` and the provenance tag `type`. -/
structure CorrelateCall where
  bx_alct : Int
  bx_clct : Int
  type : LCTType
deriving DecidableEq, Repr

/-- The local variables of a matching loop that live across driving bins: the
reuse counters (`used_alct_mask` or `used_clct_mask`, an `int[20]` filled with
zeros, read and written only at indices that passed the bin-range test) and the
last-matched marker (`bx_alct_matched` or `bx_clct_matched`). -/
structure LoopState where
  used_mask : Int → Int
  bx_matched : Int

/-- The loop state at the top of a matching loop: all counters 0, marker 0. -/
def LoopState.init : LoopState := ⟨fun _ => 0, 0⟩

/-- The statement `used_mask[bx] += 1`. -/
def bumpMask (used_mask : Int → Int) (bx : Int) : Int → Int :=
  fun i => if i = bx then used_mask i + 1 else used_mask i

/-- The bound `bx_alct_start` of the CLCT-centric branch,
`bx_clct - match_trig_window_size / 2 + alctClctOffset_` (the division is the
unsigned one, the sum is the exact integer). -/
def bx_alct_start (cfg : Config) (bx_clct : Int) : Int :=
  bx_clct - ((cfg.match_trig_window_size / 2 : Nat) : Int) + cfg.alctClctOffset_

/-- The bound `bx_alct_stop` of the CLCT-centric branch. -/
def bx_alct_stop (cfg : Config) (bx_clct : Int) : Int :=
  bx_clct + ((cfg.match_trig_window_size / 2 : Nat) : Int) + cfg.alctClctOffset_

/-- The bound `bx_clct_start` of the ALCT-centric branch. -/
def bx_clct_start (cfg : Config) (bx_alct : Int) : Int :=
  bx_alct - ((cfg.match_trig_window_size / 2 : Nat) : Int) - cfg.alctClctOffset_

/-- The bound `bx_clct_stop` of the ALCT-centric branch. -/
def bx_clct_stop (cfg : Config) (bx_alct : Int) : Int :=
  bx_alct + ((cfg.match_trig_window_size / 2 : Nat) : Int) - cfg.alctClctOffset_

/-- The inner loop of the CLCT-centric branch,
`for (bx_alct = ...; bx_alct <= bx_alct_stop; bx_alct++)`, with `n` iterations
left and the loop variable at `bx_alct`. The result is the bin at which the loop
breaks (the matched ALCT bin), or `none` when the loop runs to its end. -/
def scanAlctWindow (cfg : Config) (k : CSCConstants) (alctProc : CSCAnodeLCTProcessor)
    (used_alct_mask : Int → Int) : Nat → Int → Option Int
  | 0, _ => none
  | n + 1, bx_alct =>
    if bx_alct < 0 ∨ bx_alct ≥ (k.MAX_ALCT_TBINS : Int) then
      scanAlctWindow cfg k alctProc used_alct_mask n (bx_alct + 1)
    else if cfg.drop_used_alcts && decide (used_alct_mask bx_alct ≠ 0) then
      scanAlctWindow cfg k alctProc used_alct_mask n (bx_alct + 1)
    else if (alctProc.getBestALCT bx_alct).isValid then
      some bx_alct
    else
      scanAlctWindow cfg k alctProc used_alct_mask n (bx_alct + 1)

/-- The inner loop of the ALCT-centric branch,
`for (bx_clct = ...; bx_clct <= bx_clct_stop; bx_clct++)`, with `n` iterations
left and the loop variable at `bx_clct`. -/
def scanClctWindow (cfg : Config) (k : CSCConstants) (clctProc : CSCCathodeLCTProcessor)
    (used_clct_mask : Int → Int) : Nat → Int → Option Int
  | 0, _ => none
  | n + 1, bx_clct =>
    if bx_clct < 0 ∨ bx_clct ≥ (k.MAX_CLCT_TBINS : Int) then
      scanClctWindow cfg k clctProc used_clct_mask n (bx_clct + 1)
    else if cfg.drop_used_clcts && decide (used_clct_mask bx_clct ≠ 0) then
      scanClctWindow cfg k clctProc used_clct_mask n (bx_clct + 1)
    else if (clctProc.getBestCLCT bx_clct).isValid then
      some bx_clct
    else
      scanClctWindow cfg k clctProc used_clct_mask n (bx_clct + 1)

/-- The body of the CLCT-centric loop of `run` for the driving bin `bx_clct`:
the new loop state and the `correlateLCTs` call made in this iteration. -/
def clctCentricStep (cfg : Config) (k : CSCConstants) (alctProc : CSCAnodeLCTProcessor)
    (clctProc : CSCCathodeLCTProcessor) (st : LoopState) (bx_clct : Int) :
    LoopState × Option CorrelateCall :=
  if (clctProc.getBestCLCT bx_clct).isValid then
    match scanAlctWindow cfg k alctProc st.used_mask
        (bx_alct_stop cfg bx_clct - bx_alct_start cfg bx_clct + 1).toNat
        (bx_alct_start cfg bx_clct) with
    | some bx_alct =>
      (⟨bumpMask st.used_mask bx_alct, bx_alct⟩, some ⟨bx_alct, bx_clct, LCTType.CLCTALCT⟩)
    | none =>
      if cfg.clct_trig_enable ≠ 0 then (st, some ⟨bx_clct, bx_clct, LCTType.CLCTONLY⟩)
      else (st, none)
  else
    let bx_alct : Int := bx_clct - ((cfg.match_trig_window_size / 2 : Nat) : Int)
    if bx_alct ≥ 0 ∧ bx_alct > st.bx_matched then
      if (alctProc.getBestALCT bx_alct).isValid ∧ cfg.alct_trig_enable ≠ 0 then
        (st, some ⟨bx_alct, bx_clct, LCTType.ALCTONLY⟩)
      else (st, none)
    else (st, none)

/-- The body of the ALCT-centric loop of `run` for the driving bin `bx_alct`. -/
def alctCentricStep (cfg : Config) (k : CSCConstants) (alctProc : CSCAnodeLCTProcessor)
    (clctProc : CSCCathodeLCTProcessor) (st : LoopState) (bx_alct : Int) :
    LoopState × Option CorrelateCall :=
  if (alctProc.getBestALCT bx_alct).isValid then
    match scanClctWindow cfg k clctProc st.used_mask
        (bx_clct_stop cfg bx_alct - bx_clct_start cfg bx_alct + 1).toNat
        (bx_clct_start cfg bx_alct) with
    | some bx_clct =>
      (⟨bumpMask st.used_mask bx_clct, bx_clct⟩, some ⟨bx_alct, bx_clct, LCTType.ALCTCLCT⟩)
    | none =>
      if cfg.alct_trig_enable ≠ 0 then (st, some ⟨bx_alct, bx_alct, LCTType.ALCTONLY⟩)
      else (st, none)
  else
    let bx_clct : Int := bx_alct - ((cfg.match_trig_window_size / 2 : Nat) : Int)
    if bx_clct ≥ 0 ∧ bx_clct > st.bx_matched then
      if (clctProc.getBestCLCT bx_clct).isValid ∧ cfg.clct_trig_enable ≠ 0 then
        (st, some ⟨bx_alct, bx_clct, LCTType.CLCTONLY⟩)
      else (st, none)
    else (st, none)

/-- The loop state of the CLCT-centric branch on entry to the iteration for
driving bin `b` (after the iterations for the bins `0 .. b-1`). -/
def clctCentricState (cfg : Config) (k : CSCConstants) (alctProc : CSCAnodeLCTProcessor)
    (clctProc : CSCCathodeLCTProcessor) : Nat → LoopState
  | 0 => LoopState.init
  | b + 1 =>
    (clctCentricStep cfg k alctProc clctProc (clctCentricState cfg k alctProc clctProc b) b).1

/-- The loop state of the ALCT-centric branch on entry to the iteration for
driving bin `b`. -/
def alctCentricState (cfg : Config) (k : CSCConstants) (alctProc : CSCAnodeLCTProcessor)
    (clctProc : CSCCathodeLCTProcessor) : Nat → LoopState
  | 0 => LoopState.init
  | b + 1 =>
    (alctCentricStep cfg k alctProc clctProc (alctCentricState cfg k alctProc clctProc b) b).1

/-- The outer loop `for (bx_clct = ...; bx_clct < MAX_CLCT_TBINS; bx_clct++)`
with `n` iterations left: the calls made, one entry per driving bin. -/
def clctCentricLoop (cfg : Config) (k : CSCConstants) (alctProc : CSCAnodeLCTProcessor)
    (clctProc : CSCCathodeLCTProcessor) : Nat → Int → LoopState → List (Option CorrelateCall)
  | 0, _, _ => []
  | n + 1, bx_clct, st =>
    (clctCentricStep cfg k alctProc clctProc st bx_clct).2 ::
      clctCentricLoop cfg k alctProc clctProc n (bx_clct + 1)
        (clctCentricStep cfg k alctProc clctProc st bx_clct).1

/-- The outer loop `for (bx_alct = ...; bx_alct < MAX_ALCT_TBINS; bx_alct++)`
with `n` iterations left. -/
def alctCentricLoop (cfg : Config) (k : CSCConstants) (alctProc : CSCAnodeLCTProcessor)
    (clctProc : CSCCathodeLCTProcessor) : Nat → Int → LoopState → List (Option CorrelateCall)
  | 0, _, _ => []
  | n + 1, bx_alct, st =>
    (alctCentricStep cfg k alctProc clctProc st bx_alct).2 ::
      alctCentricLoop cfg k alctProc clctProc n (bx_alct + 1)
        (alctCentricStep cfg k alctProc clctProc st bx_alct).1

/-- The CLCT-centric matching block of `run` (taken when `clct_to_alct` is set):
entry `b` of the result is the `correlateLCTs` call of driving bin `b`. -/
def runClctCentric (cfg : Config) (k : CSCConstants) (alctProc : CSCAnodeLCTProcessor)
    (clctProc : CSCCathodeLCTProcessor) : List (Option CorrelateCall) :=
  clctCentricLoop cfg k alctProc clctProc k.MAX_CLCT_TBINS 0 LoopState.init

/-- The ALCT-centric matching block of `run` (taken when `clct_to_alct` is clear). -/
def runAlctCentric (cfg : Config) (k : CSCConstants) (alctProc : CSCAnodeLCTProcessor)
    (clctProc : CSCCathodeLCTProcessor) : List (Option CorrelateCall) :=
  alctCentricLoop cfg k alctProc clctProc k.MAX_ALCT_TBINS 0 LoopState.init

/-- The matching part of `run`: the branch is chosen by `clct_to_alct`. -/
def runMatching (cfg : Config) (k : CSCConstants) (alctProc : CSCAnodeLCTProcessor)
    (clctProc : CSCCathodeLCTProcessor) : List (Option CorrelateCall) :=
  if cfg.clct_to_alct then runClctCentric cfg k alctProc clctProc
  else runAlctCentric cfg k alctProc clctProc

/-! ## Test fixtures -/

/-- An invalid (empty) anode primitive. -/
def noALCT : CSCALCTDigi := ⟨false, 0, false, 0, 0⟩

/-- An invalid (empty) cathode primitive. -/
def noCLCT : CSCCLCTDigi := ⟨false, 0, 0, 0, 0, 0⟩

/-- An anode finder whose best primitive is valid exactly at the listed bins. -/
def alctAt (bins : List Int) : CSCAnodeLCTProcessor :=
  ⟨fun bx => if bx ∈ bins then ⟨true, 1, false, 10, bx⟩ else noALCT, fun _ => noALCT⟩

/-- A cathode finder whose best primitive is valid exactly at the listed bins. -/
def clctAt (bins : List Int) : CSCCathodeLCTProcessor :=
  ⟨fun bx => if bx ∈ bins then ⟨true, 4, 10, 0, 20, bx⟩ else noCLCT, fun _ => noCLCT⟩

/-- The buffer depths of the CSC trigger electronics. -/
def stdConstants : CSCConstants := ⟨16, 12, 16, 8, 127⟩

/-- The default configuration: match window 7, read-out window 7, offset 0, only
matched triggers enabled, used primitives dropped, no ME1/A blocking, Run-2
patterns, every read-out candidate kept, a chamber of ME3/2. -/
def stdConfig : Config :=
  { alct_trig_enable := 0, clct_trig_enable := 0, match_trig_enable := 1,
    match_trig_window_size := 7, tmb_l1a_window_size := 7, early_tbins := 4,
    drop_used_alcts := true, drop_used_clcts := true, clct_to_alct := true,
    alctClctOffset_ := 0, mpc_block_me1a := 0, use_run3_patterns_ := false,
    useHighMultiplicityBits_ := false, isME11_ := false, theTrigChamber := 1,
    readout_earliest_2 := false, theStation := 3, theRing := 2, runME11ILT_ := false,
    runME21ILT_ := false }

/-- An anode finder with a low-quality best primitive at bin 5 and a
high-quality one at bin 7. -/
def alctLowThenHigh : CSCAnodeLCTProcessor :=
  ⟨fun bx => if bx = 5 then ⟨true, 1, false, 10, 5⟩
             else if bx = 7 then ⟨true, 3, false, 11, 7⟩ else noALCT,
   fun _ => noALCT⟩

/-- A cathode finder with a low-quality best primitive at bin 5 and a
high-quality one at bin 7. -/
def clctLowThenHigh : CSCCathodeLCTProcessor :=
  ⟨fun bx => if bx = 5 then ⟨true, 4, 2, 0, 20, 5⟩
             else if bx = 7 then ⟨true, 6, 10, 0, 21, 7⟩ else noCLCT,
   fun _ => noCLCT⟩

/-! ## The direction-parameterised matcher

The spec describes the two branches of `run` as one algorithm that takes the
driving direction and a sign-flipped offset. `centricStep` is that algorithm,
written from the spec's words; the two branches embedded above are compared
with it below. -/

/-- What distinguishes the two driving directions: the bin range of the other
stream, the drop-used flag of the other stream, the single-sided enable flags of
the driving and of the opposite kind, the half window, the signed offset, and the
validity of the best primitive of the driving and of the other stream. -/
structure Direction where
  maxOther : Int
  dropUsed : Bool
  drivingEnable : Bool
  oppositeEnable : Bool
  half : Int
  offset : Int
  drivingValid : Int → Bool
  otherValid : Int → Bool

/-- The outcome of one driving bin in the parameterised matcher. -/
inductive Decision where
  | matched (x : Int)
  | drivingOnly
  | oppositeOnly (x : Int)
deriving DecidableEq, Repr

/-- Scan of the window in increasing bin order: bins outside the other stream's
range are skipped, used bins are skipped when the drop-used policy is active, and
the first bin with a valid best primitive is taken. -/
def windowScan (d : Direction) (used_mask : Int → Int) : Nat → Int → Option Int
  | 0, _ => none
  | n + 1, bx =>
    if bx < 0 ∨ bx ≥ d.maxOther then windowScan d used_mask n (bx + 1)
    else if d.dropUsed && decide (used_mask bx ≠ 0) then windowScan d used_mask n (bx + 1)
    else if d.otherValid bx then some bx
    else windowScan d used_mask n (bx + 1)

/-- One driving bin of the parameterised matcher. -/
def centricStep (d : Direction) (st : LoopState) (b : Int) : LoopState × Option Decision :=
  if d.drivingValid b then
    match windowScan d st.used_mask
        ((b + d.half + d.offset) - (b - d.half + d.offset) + 1).toNat
        (b - d.half + d.offset) with
    | some x => (⟨bumpMask st.used_mask x, x⟩, some (Decision.matched x))
    | none =>
      if d.drivingEnable then (st, some Decision.drivingOnly) else (st, none)
  else
    if b - d.half ≥ 0 ∧ b - d.half > st.bx_matched then
      if d.otherValid (b - d.half) ∧ d.oppositeEnable then
        (st, some (Decision.oppositeOnly (b - d.half)))
      else (st, none)
    else (st, none)

/-- The loop state of the parameterised matcher on entry to driving bin `b`. -/
def centricState (d : Direction) : Nat → LoopState
  | 0 => LoopState.init
  | b + 1 => (centricStep d (centricState d b) b).1

/-- The parameters of the CLCT-centric direction. -/
def clctDirection (cfg : Config) (k : CSCConstants) (alctProc : CSCAnodeLCTProcessor)
    (clctProc : CSCCathodeLCTProcessor) : Direction :=
  { maxOther := k.MAX_ALCT_TBINS
    dropUsed := cfg.drop_used_alcts
    drivingEnable := decide (cfg.clct_trig_enable ≠ 0)
    oppositeEnable := decide (cfg.alct_trig_enable ≠ 0)
    half := ((cfg.match_trig_window_size / 2 : Nat) : Int)
    offset := cfg.alctClctOffset_
    drivingValid := fun bx => (clctProc.getBestCLCT bx).isValid
    otherValid := fun bx => (alctProc.getBestALCT bx).isValid }

/-- The parameters of the ALCT-centric direction: the offset changes sign. -/
def alctDirection (cfg : Config) (k : CSCConstants) (alctProc : CSCAnodeLCTProcessor)
    (clctProc : CSCCathodeLCTProcessor) : Direction :=
  { maxOther := k.MAX_CLCT_TBINS
    dropUsed := cfg.drop_used_clcts
    drivingEnable := decide (cfg.alct_trig_enable ≠ 0)
    oppositeEnable := decide (cfg.clct_trig_enable ≠ 0)
    half := ((cfg.match_trig_window_size / 2 : Nat) : Int)
    offset := -cfg.alctClctOffset_
    drivingValid := fun bx => (alctProc.getBestALCT bx).isValid
    otherValid := fun bx => (clctProc.getBestCLCT bx).isValid }

/-- The `correlateLCTs` call that a decision stands for when CLCTs drive. -/
def clctCall (bx_clct : Int) : Decision → CorrelateCall
  | Decision.matched x => ⟨x, bx_clct, LCTType.CLCTALCT⟩
  | Decision.drivingOnly => ⟨bx_clct, bx_clct, LCTType.CLCTONLY⟩
  | Decision.oppositeOnly x => ⟨x, bx_clct, LCTType.ALCTONLY⟩

/-- The `correlateLCTs` call that a decision stands for when ALCTs drive. -/
def alctCall (bx_alct : Int) : Decision → CorrelateCall
  | Decision.matched x => ⟨bx_alct, x, LCTType.ALCTCLCT⟩
  | Decision.drivingOnly => ⟨bx_alct, bx_alct, LCTType.ALCTONLY⟩
  | Decision.oppositeOnly x => ⟨bx_alct, x, LCTType.CLCTONLY⟩

/-! ## Exchange of the two streams -/

/-- The configuration with the roles of the two kinds exchanged: enable flags
and drop-used flags swapped, offset negated. -/
def exchangeConfig (cfg : Config) : Config :=
  { cfg with
    alct_trig_enable := cfg.clct_trig_enable
    clct_trig_enable := cfg.alct_trig_enable
    drop_used_alcts := cfg.drop_used_clcts
    drop_used_clcts := cfg.drop_used_alcts
    alctClctOffset_ := -cfg.alctClctOffset_ }

/-- The constants with the two bin ranges exchanged. -/
def exchangeConstants (k : CSCConstants) : CSCConstants :=
  { k with MAX_ALCT_TBINS := k.MAX_CLCT_TBINS, MAX_CLCT_TBINS := k.MAX_ALCT_TBINS }

/-- The provenance tag with the two kinds exchanged. -/
def exchangeType : LCTType → LCTType
  | LCTType.CLCTALCT => LCTType.ALCTCLCT
  | LCTType.ALCTCLCT => LCTType.CLCTALCT
  | LCTType.ALCTONLY => LCTType.CLCTONLY
  | LCTType.CLCTONLY => LCTType.ALCTONLY
  | LCTType.CLCT2GEM => LCTType.CLCT2GEM

/-- A `correlateLCTs` call with the two kinds exchanged. -/
def exchangeCall (c : CorrelateCall) : CorrelateCall :=
  ⟨c.bx_clct, c.bx_alct, exchangeType c.type⟩

/-! ## Specification predicates -/

/-- The ALCT bin `x` can be taken for the driving CLCT bin `bx_clct` when the reuse
counters are `used_alct_mask`: it lies in the match window and in the ALCT bin
range, its best ALCT is valid, and it is unused if used ALCTs are dropped. -/
def AlctCandidate (cfg : Config) (k : CSCConstants) (alctProc : CSCAnodeLCTProcessor)
    (used_alct_mask : Int → Int) (bx_clct x : Int) : Prop :=
  bx_alct_start cfg bx_clct ≤ x ∧ x ≤ bx_alct_stop cfg bx_clct ∧
  0 ≤ x ∧ x < (k.MAX_ALCT_TBINS : Int) ∧
  (alctProc.getBestALCT x).isValid = true ∧
  (cfg.drop_used_alcts = true → used_alct_mask x = 0)

/-- The CLCT bin `x` can be taken for the driving ALCT bin `bx_alct` when the reuse
counters are `used_clct_mask`. -/
def ClctCandidate (cfg : Config) (k : CSCConstants) (clctProc : CSCCathodeLCTProcessor)
    (used_clct_mask : Int → Int) (bx_alct x : Int) : Prop :=
  bx_clct_start cfg bx_alct ≤ x ∧ x ≤ bx_clct_stop cfg bx_alct ∧
  0 ≤ x ∧ x < (k.MAX_CLCT_TBINS : Int) ∧
  (clctProc.getBestCLCT x).isValid = true ∧
  (cfg.drop_used_clcts = true → used_clct_mask x = 0)

/-- The bin `x` of the other stream can be taken by the parameterised matcher
when the reuse counters are `used_mask`: it is in the other stream's bin range,
its best primitive is valid, and it is unused if used primitives are dropped. -/
def Direction.Eligible (d : Direction) (used_mask : Int → Int) (x : Int) : Prop :=
  0 ≤ x ∧ x < d.maxOther ∧ d.otherValid x = true ∧ (d.dropUsed = true → used_mask x = 0)

/-! ## Matched pairs -/

/-- The matched (ALCT bin, CLCT bin) pairs among the `correlateLCTs` calls of a
pass: the calls tagged CLCTALCT or ALCTCLCT. -/
def matchedPairs : List (Option CorrelateCall) → List (Int × Int)
  | [] => []
  | none :: rest => matchedPairs rest
  | some c :: rest =>
    if c.type = LCTType.CLCTALCT ∨ c.type = LCTType.ALCTCLCT then
      (c.bx_alct, c.bx_clct) :: matchedPairs rest
    else matchedPairs rest

/-- The pairs (bin of the other stream, driving bin) that the parameterised
matcher matches over `n` driving bins starting at bin `b`, with the reuse
counters `used_mask` on entry. -/
def greedyPairs (d : Direction) : Nat → Int → (Int → Int) → List (Int × Int)
  | 0, _, _ => []
  | n + 1, b, used_mask =>
    if d.drivingValid b then
      match windowScan d used_mask
          ((b + d.half + d.offset) - (b - d.half + d.offset) + 1).toNat
          (b - d.half + d.offset) with
      | some x => (x, b) :: greedyPairs d n (b + 1) (bumpMask used_mask x)
      | none => greedyPairs d n (b + 1) used_mask
    else greedyPairs d n (b + 1) used_mask

/-- Reuse counters that mark exactly the bins below `p` as used. -/
def ptrMask (p : Int) : Int → Int := fun x => if x < p then 1 else 0

/-! ## Candidate construction -/

/-- Modelled from the spec: the output candidate class `CSCCorrelatedLCTDigi` is
declared outside the source tree. The fields are the twelve constructor
arguments used by `constructLCTs`, the provenance tag, the Run-3 flag, the
high-multiplicity bits and the embedded copies of the two primitives. -/
structure CSCCorrelatedLCTDigi where
  trknmb : Nat
  valid : Nat
  quality : Nat
  keywire : Int
  strip : Int
  pattern : Nat
  bend : Int
  bx : Int
  mpclink : Nat
  bx0 : Nat
  syncErr : Nat
  cscID : Nat
  type : LCTType
  run3 : Bool
  hmt : Nat
  alct : CSCALCTDigi
  clct : CSCCLCTDigi
deriving DecidableEq, Repr

/-- The accessor `isValid()` of a candidate. -/
def CSCCorrelatedLCTDigi.isValid (lct : CSCCorrelatedLCTDigi) : Bool := decide (lct.valid ≠ 0)

/-- The accessor `getBX()` of a candidate. -/
def CSCCorrelatedLCTDigi.getBX (lct : CSCCorrelatedLCTDigi) : Int := lct.bx

/-- The accessor `getStrip()` of a candidate (half-strip). -/
def CSCCorrelatedLCTDigi.getStrip (lct : CSCCorrelatedLCTDigi) : Int := lct.strip

/-- Modelled from the spec: a candidate after `clear()`, with every field reset and
in particular not valid. -/
def clearedLCT : CSCCorrelatedLCTDigi :=
  { trknmb := 0, valid := 0, quality := 0, keywire := 0, strip := 0, pattern := 0, bend := 0,
    bx := 0, mpclink := 0, bx0 := 0, syncErr := 0, cscID := 0, type := LCTType.ALCTCLCT,
    run3 := false, hmt := 0, alct := ⟨false, 0, false, 0, 0⟩, clct := ⟨false, 0, 0, 0, 0, 0⟩ }

/-- CLCT pattern number, `CSCMotherboard::encodePattern`: the low
`kPatternBitWidth` bits of the absolute value. -/
def encodePattern (ptn : Int) : Nat :=
  let kPatternBitWidth : Nat := 4
  (Int.natAbs ptn) &&& ((1 <<< kPatternBitWidth) - 1)

/-- The copy made by `CSCMotherboard::getBXShiftedALCT`. -/
def getBXShiftedALCT (cfg : Config) (k : CSCConstants) (aLCT : CSCALCTDigi) : CSCALCTDigi :=
  { aLCT with
    getBX := aLCT.getBX - (k.LCT_CENTRAL_BX - ((cfg.tmb_l1a_window_size / 2 : Nat) : Int)) }

/-- The copy made by `CSCMotherboard::getBXShiftedCLCT`. -/
def getBXShiftedCLCT (cfg : Config) (cLCT : CSCCLCTDigi) : CSCCLCTDigi :=
  { cLCT with getBX := cLCT.getBX - cfg.alctClctOffset_ }

/-- The candidate built by `CSCMotherboard::constructLCTs`; the member
`highMultiplicityBits_` is passed as an argument. -/
def constructLCTs (cfg : Config) (k : CSCConstants) (highMultiplicityBits_ : Nat)
    (aLCT : CSCALCTDigi) (cLCT : CSCCLCTDigi) (type : LCTType) (trknmb : Nat) :
    CSCCorrelatedLCTDigi :=
  let pattern : Nat := if cfg.use_run3_patterns_ then 0 else encodePattern cLCT.getPattern
  let quality : Nat := findQuality aLCT cLCT
  let bx : Int := if aLCT.isValid then aLCT.getBX else cLCT.getBX
  let syncErr : Nat := 0
  let thisLCT : CSCCorrelatedLCTDigi :=
    { clearedLCT with
      trknmb := trknmb, valid := 1, quality := quality, keywire := aLCT.getKeyWG,
      strip := cLCT.getKeyStrip, pattern := pattern, bend := cLCT.getBend, bx := bx,
      mpclink := 0, bx0 := 0, syncErr := syncErr, cscID := cfg.theTrigChamber }
  let thisLCT : CSCCorrelatedLCTDigi := { thisLCT with type := type }
  let thisLCT : CSCCorrelatedLCTDigi :=
    if cfg.use_run3_patterns_ then
      if cfg.useHighMultiplicityBits_ then
        { thisLCT with run3 := true, hmt := highMultiplicityBits_ }
      else { thisLCT with run3 := true }
    else thisLCT
  let thisLCT : CSCCorrelatedLCTDigi := { thisLCT with alct := getBXShiftedALCT cfg k aLCT }
  { thisLCT with clct := getBXShiftedCLCT cfg cLCT }

/-! ## The per-bin store and `correlateLCTs` -/

/-- The members of `CSCMotherboard` that a pass writes: the two per-bin arrays
`firstLCT` and `secondLCT` (entries `0 .. MAX_LCT_TBINS - 1`; the value of the
functions at other indices stands for nothing and is never read or written) and
`highMultiplicityBits_`. -/
structure MotherboardState where
  firstLCT : Int → CSCCorrelatedLCTDigi
  secondLCT : Int → CSCCorrelatedLCTDigi
  highMultiplicityBits_ : Nat

/-- The assignment `array[bx] = lct`. -/
def writeLCT (array : Int → CSCCorrelatedLCTDigi) (bx : Int) (lct : CSCCorrelatedLCTDigi) :
    Int → CSCCorrelatedLCTDigi :=
  fun i => if i = bx then lct else array i

/-- The two substitutions of `correlateLCTs` on the anode side: the pair
(`bestALCT`, `secondALCT`) after
`if (anodeBestValid && !anodeSecondValid) secondALCT = bestALCT;` and
`if (!anodeBestValid && anodeSecondValid) bestALCT = secondALCT;`. -/
def substituteALCT (bALCT sALCT : CSCALCTDigi) : CSCALCTDigi × CSCALCTDigi :=
  let anodeBestValid := bALCT.isValid
  let anodeSecondValid := sALCT.isValid
  let secondALCT := if anodeBestValid && !anodeSecondValid then bALCT else sALCT
  let bestALCT := if !anodeBestValid && anodeSecondValid then secondALCT else bALCT
  (bestALCT, secondALCT)

/-- The two substitutions of `correlateLCTs` on the cathode side. -/
def substituteCLCT (bCLCT sCLCT : CSCCLCTDigi) : CSCCLCTDigi × CSCCLCTDigi :=
  let cathodeBestValid := bCLCT.isValid
  let cathodeSecondValid := sCLCT.isValid
  let secondCLCT := if cathodeBestValid && !cathodeSecondValid then bCLCT else sCLCT
  let bestCLCT := if !cathodeBestValid && cathodeSecondValid then secondCLCT else bCLCT
  (bestCLCT, secondCLCT)

/-- The first-rank candidate that `correlateLCTs` constructs, if the enable
flags let it construct one. -/
def firstCandidate (cfg : Config) (k : CSCConstants) (highMultiplicityBits_ : Nat)
    (bALCT sALCT : CSCALCTDigi) (bCLCT sCLCT : CSCCLCTDigi) (type : LCTType) :
    Option CSCCorrelatedLCTDigi :=
  let bestALCT := (substituteALCT bALCT sALCT).1
  let bestCLCT := (substituteCLCT bCLCT sCLCT).1
  if (cfg.alct_trig_enable ≠ 0 ∧ bestALCT.isValid = true) ∨
      (cfg.clct_trig_enable ≠ 0 ∧ bestCLCT.isValid = true) ∨
      (cfg.match_trig_enable ≠ 0 ∧ bestALCT.isValid = true ∧ bestCLCT.isValid = true) then
    some (constructLCTs cfg k highMultiplicityBits_ bestALCT bestCLCT type 1)
  else none

/-- The second-rank candidate that `correlateLCTs` constructs, if any. -/
def secondCandidate (cfg : Config) (k : CSCConstants) (highMultiplicityBits_ : Nat)
    (bALCT sALCT : CSCALCTDigi) (bCLCT sCLCT : CSCCLCTDigi) (type : LCTType) :
    Option CSCCorrelatedLCTDigi :=
  let bestALCT := (substituteALCT bALCT sALCT).1
  let secondALCT := (substituteALCT bALCT sALCT).2
  let bestCLCT := (substituteCLCT bCLCT sCLCT).1
  let secondCLCT := (substituteCLCT bCLCT sCLCT).2
  if (secondALCT ≠ bestALCT ∨ secondCLCT ≠ bestCLCT) ∧
      ((cfg.alct_trig_enable ≠ 0 ∧ secondALCT.isValid = true) ∨
       (cfg.clct_trig_enable ≠ 0 ∧ secondCLCT.isValid = true) ∨
       (cfg.match_trig_enable ≠ 0 ∧ secondALCT.isValid = true ∧ secondCLCT.isValid = true)) then
    some (constructLCTs cfg k highMultiplicityBits_ secondALCT secondCLCT type 2)
  else none

/-- The store after `CSCMotherboard::correlateLCTs`: each constructed candidate
is written at its own bin if that bin is inside the buffer, and skipped
otherwise. -/
def correlateLCTs (cfg : Config) (k : CSCConstants) (st : MotherboardState)
    (bALCT sALCT : CSCALCTDigi) (bCLCT sCLCT : CSCCLCTDigi) (type : LCTType) :
    MotherboardState :=
  let st1 : MotherboardState :=
    match firstCandidate cfg k st.highMultiplicityBits_ bALCT sALCT bCLCT sCLCT type with
    | some lct =>
      let bx := lct.getBX
      if bx ≥ 0 ∧ bx < (k.MAX_LCT_TBINS : Int) then
        { st with firstLCT := writeLCT st.firstLCT bx lct }
      else st
    | none => st
  match secondCandidate cfg k st.highMultiplicityBits_ bALCT sALCT bCLCT sCLCT type with
  | some lct =>
    let bx := lct.getBX
    if bx ≥ 0 ∧ bx < (k.MAX_LCT_TBINS : Int) then
      { st1 with secondLCT := writeLCT st1.secondLCT bx lct }
    else st1
  | none => st1

/-! ## `clear`, `run` and `getLCTs` -/

/-- The store after `CSCMotherboard::clear`: every entry of the two arrays is
cleared. -/
def clear (k : CSCConstants) (st : MotherboardState) : MotherboardState :=
  { st with
    firstLCT := fun bx =>
      if 0 ≤ bx ∧ bx < (k.MAX_LCT_TBINS : Int) then clearedLCT else st.firstLCT bx
    secondLCT := fun bx =>
      if 0 ≤ bx ∧ bx < (k.MAX_LCT_TBINS : Int) then clearedLCT else st.secondLCT bx }

/-- The member written by `CSCMotherboard::encodeHighMultiplicityBits`. -/
def encodeHighMultiplicityBits (st : MotherboardState) (alctBits : Nat) : MotherboardState :=
  { st with highMultiplicityBits_ := alctBits }

/-- One `correlateLCTs` call of a matching loop, with the primitives looked up
in the two finders at the recorded bins. -/
def applyCall (cfg : Config) (k : CSCConstants) (alctProc : CSCAnodeLCTProcessor)
    (clctProc : CSCCathodeLCTProcessor) (st : MotherboardState) :
    Option CorrelateCall → MotherboardState
  | none => st
  | some call =>
    correlateLCTs cfg k st (alctProc.getBestALCT call.bx_alct)
      (alctProc.getSecondALCT call.bx_alct) (clctProc.getBestCLCT call.bx_clct)
      (clctProc.getSecondCLCT call.bx_clct) call.type

/-- The pass `CSCMotherboard::run`. The finders may be missing (null pointers);
`alctV` and `clctV` are the vectors returned by the finders for this pass and
`alctBits` the high-multiplicity bits of the anode finder. -/
def run (cfg : Config) (k : CSCConstants) (st : MotherboardState)
    (alctProc : Option CSCAnodeLCTProcessor) (clctProc : Option CSCCathodeLCTProcessor)
    (alctV : List CSCALCTDigi) (clctV : List CSCCLCTDigi) (alctBits : Nat) :
    MotherboardState :=
  let st := clear k st
  match alctProc, clctProc with
  | some a, some c =>
    if alctV.isEmpty ∧ clctV.isEmpty then st
    else
      let st := encodeHighMultiplicityBits st alctBits
      (runMatching cfg k a c).foldl (applyCall cfg k a c) st
  | _, _ => st

/-- The loop of `CSCMotherboard::getLCTs` with `n` bins left, the loop variable
at `bx` and the vector `tmpV` filled so far. -/
def getLCTsLoop (cfg : Config) (k : CSCConstants) (st : MotherboardState) :
    Nat → Int → List CSCCorrelatedLCTDigi → List CSCCorrelatedLCTDigi
  | 0, _, tmpV => tmpV
  | n + 1, bx, tmpV =>
    let tmpV1 :=
      if (st.firstLCT bx).isValid then
        if cfg.mpc_block_me1a = 0 ∨
            (cfg.isME11_ = false ∨ (st.firstLCT bx).getStrip ≤ k.MAX_HALF_STRIP_ME1B) then
          tmpV ++ [st.firstLCT bx]
        else tmpV
      else tmpV
    let tmpV2 :=
      if (st.secondLCT bx).isValid then
        if cfg.mpc_block_me1a = 0 ∨
            (cfg.isME11_ = false ∨ (st.secondLCT bx).getStrip ≤ k.MAX_HALF_STRIP_ME1B) then
          tmpV1 ++ [st.secondLCT bx]
        else tmpV1
      else tmpV1
    getLCTsLoop cfg k st n (bx + 1) tmpV2

/-- The vector returned by `CSCMotherboard::getLCTs`. -/
def getLCTs (cfg : Config) (k : CSCConstants) (st : MotherboardState) :
    List CSCCorrelatedLCTDigi :=
  getLCTsLoop cfg k st k.MAX_LCT_TBINS 0 []

/-- A store whose entries are all cleared. -/
def emptyState : MotherboardState := ⟨fun _ => clearedLCT, fun _ => clearedLCT, 0⟩

/-- The entries of the two arrays in the order of the loop of `getLCTs`: bin by
bin, `firstLCT[bx]` before `secondLCT[bx]`. -/
def storeEntries (k : CSCConstants) (st : MotherboardState) : List CSCCorrelatedLCTDigi :=
  (List.range k.MAX_LCT_TBINS).flatMap (fun i : Nat => [st.firstLCT i, st.secondLCT i])

/-- The store invariant: inside the buffer, a valid `firstLCT[i]` has rank 1 and
time bin `i`, and a valid `secondLCT[i]` has rank 2 and time bin `i`. -/
def StoreInvariant (k : CSCConstants) (st : MotherboardState) : Prop :=
  ∀ i : Int, 0 ≤ i → i < (k.MAX_LCT_TBINS : Int) →
    ((st.firstLCT i).isValid = true → (st.firstLCT i).trknmb = 1 ∧ (st.firstLCT i).getBX = i) ∧
    ((st.secondLCT i).isValid = true → (st.secondLCT i).trknmb = 2 ∧ (st.secondLCT i).getBX = i)

/-- The test of `getLCTs` on a store entry: valid, and not blocked as an ME1/A
candidate. -/
def getLCTsKeeps (cfg : Config) (k : CSCConstants) (lct : CSCCorrelatedLCTDigi) : Bool :=
  lct.isValid &&
    (decide (cfg.mpc_block_me1a = 0) ||
      (!cfg.isME11_ || decide (lct.getStrip ≤ k.MAX_HALF_STRIP_ME1B)))

/-- An anode finder valid at bin 5 only, as the optional member of the board. -/
def someAlct5 : Option CSCAnodeLCTProcessor := some (alctAt [5])

/-- A cathode finder valid at bin 6 only, as the optional member of the board. -/
def someClct6 : Option CSCCathodeLCTProcessor := some (clctAt [6])

/-- A store left over from an earlier pass: a valid first-rank candidate in
every bin. -/
def staleState : MotherboardState :=
  ⟨fun i => { clearedLCT with valid := 1, trknmb := 1, bx := i, strip := 200 },
   fun _ => clearedLCT, 3⟩

/-- Two states hold the same candidates in every entry of the two arrays. -/
def SameStore (k : CSCConstants) (s1 s2 : MotherboardState) : Prop :=
  ∀ i : Int, 0 ≤ i → i < (k.MAX_LCT_TBINS : Int) →
    s1.firstLCT i = s2.firstLCT i ∧ s1.secondLCT i = s2.secondLCT i

/-! ## `readoutLCTs` and the provenance checks of `checkValid` -/

/-- The local variable `late_tbins` of `readoutLCTs` after the clamp to the last
bin of the buffer. -/
def late_tbins (cfg : Config) (k : CSCConstants) : Int :=
  let lct_bins : Int := (cfg.tmb_l1a_window_size : Int)
  let late_tbins : Int := cfg.early_tbins + lct_bins
  if late_tbins > (k.MAX_LCT_TBINS : Int) - 1 then (k.MAX_LCT_TBINS : Int) - 1 else late_tbins

/-- The selection loop of `readoutLCTs` over the remaining candidates of
`all_lcts`, with the local variable `bx_readout` as first argument; the result
lists the candidates in the order in which the loop pushes them to `tmpV`. -/
def readoutLoop (cfg : Config) (late : Int) :
    Int → List CSCCorrelatedLCTDigi → List CSCCorrelatedLCTDigi
  | _, [] => []
  | bx_readout, plct :: rest =>
    if plct.isValid = false then readoutLoop cfg late bx_readout rest
    else if plct.getBX ≤ cfg.early_tbins then readoutLoop cfg late bx_readout rest
    else if plct.getBX > late then readoutLoop cfg late bx_readout rest
    else if cfg.readout_earliest_2 = true then
      if bx_readout = -1 ∨ plct.getBX = bx_readout then
        plct :: readoutLoop cfg late (if bx_readout = -1 then plct.getBX else bx_readout) rest
      else readoutLoop cfg late bx_readout rest
    else plct :: readoutLoop cfg late bx_readout rest

/-- The readout selection applied to a list of candidates. -/
def readoutSelect (cfg : Config) (k : CSCConstants) (all_lcts : List CSCCorrelatedLCTDigi) :
    List CSCCorrelatedLCTDigi :=
  readoutLoop cfg (late_tbins cfg k) (-1) all_lcts

/-- The vector returned by `CSCMotherboard::readoutLCTs`; the final `checkValid`
pass only logs. -/
def readoutLCTs (cfg : Config) (k : CSCConstants) (st : MotherboardState) :
    List CSCCorrelatedLCTDigi :=
  readoutSelect cfg k (getLCTs cfg k st)

/-- The number of errors that the three provenance-tag checks of `checkValid`
add to `errors` for one candidate: a simulation-only tag, a tag other than
ALCTCLCT on a station without GEM, and a tag other than ALCTCLCT on ring 1 with
the GEM-CSC trigger off. -/
def checkValidTypeErrors (cfg : Config) (lct : CSCCorrelatedLCTDigi) : Nat :=
  (if lct.type = LCTType.CLCTALCT ∨ lct.type = LCTType.CLCTONLY ∨ lct.type = LCTType.ALCTONLY
    then 1 else 0) +
  (if ¬ (cfg.theRing = 1 ∧ (cfg.theStation = 1 ∨ cfg.theStation = 2)) then
    (if lct.type ≠ LCTType.ALCTCLCT then 1 else 0)
   else 0) +
  (if cfg.theRing = 1 ∧ lct.type ≠ LCTType.ALCTCLCT then
    (if (cfg.theStation = 1 ∧ cfg.runME11ILT_ = false) ∨
        (cfg.theStation = 2 ∧ cfg.runME21ILT_ = false) then 1 else 0)
   else 0)

/-- The window test of `readoutLCTs` on one candidate: valid, later than
`early_tbins`, not later than the clamped `late_tbins`. -/
def inReadoutWindow (cfg : Config) (k : CSCConstants) (lct : CSCCorrelatedLCTDigi) : Bool :=
  lct.isValid && decide (cfg.early_tbins + 1 ≤ lct.getBX) &&
    decide (lct.getBX ≤ min (cfg.early_tbins + (cfg.tmb_l1a_window_size : Int))
      ((k.MAX_LCT_TBINS : Int) - 1))

/-- The three tests that a candidate must pass in the loop of `readoutLCTs`
before the earliest-bin rule is applied, for a given `late_tbins`. -/
def windowTest (cfg : Config) (late : Int) (lct : CSCCorrelatedLCTDigi) : Bool :=
  lct.isValid && decide (cfg.early_tbins < lct.getBX) && decide (lct.getBX ≤ late)

/-- A cathode finder valid at bin 6 only, with a key strip in the ME1/A range. -/
def clctWide6 : CSCCathodeLCTProcessor :=
  ⟨fun bx => if bx = 6 then ⟨true, 4, 10, 0, 200, 6⟩ else noCLCT, fun _ => noCLCT⟩

/-- The order of two candidates in the vector of `getLCTs` after a pass: an
earlier time bin first, and within one time bin the first-rank candidate before
the second-rank one. -/
def BinOrder (a b : CSCCorrelatedLCTDigi) : Prop :=
  a.getBX < b.getBX ∨ (a.getBX = b.getBX ∧ a.trknmb = 1 ∧ b.trknmb = 2)

/-- The default configuration with CLCT-only triggers enabled as well. -/
def clctOnlyConfig : Config := { stdConfig with clct_trig_enable := 1 }

/-- ALCTs driving with `alctClctOffset_ = 1`, matched and CLCT-only triggers
enabled. -/
def offsetConfig : Config :=
  { stdConfig with clct_to_alct := false, alctClctOffset_ := 1, clct_trig_enable := 1 }

/-- The default configuration with Run-3 patterns and the high-multiplicity bits
both enabled. -/
def hmtConfig : Config :=
  { stdConfig with use_run3_patterns_ := true, useHighMultiplicityBits_ := true }

/-- The default configuration with the high-multiplicity bits enabled and Run-2
patterns. -/
def hmtOnlyConfig : Config := { stdConfig with useHighMultiplicityBits_ := true }

/-- The default configuration with ALCT-only triggers enabled as well. -/
def alctOnlyConfig : Config := { stdConfig with alct_trig_enable := 1 }

/-! ## The window bounds in 32-bit arithmetic -/

/-- The conversion of an `int` to `unsigned int`: the value modulo 2^32. -/
def toU32 (x : Int) : Nat := (x % 4294967296).toNat

/-- The conversion of an `unsigned int` to `int` (two's complement): values from
2^31 on are read as negative. -/
def toI32 (u : Nat) : Int :=
  if u % 4294967296 < 2147483648 then ((u % 4294967296 : Nat) : Int)
  else ((u % 4294967296 : Nat) : Int) - 4294967296

/-- Addition of two `unsigned int`, modulo 2^32. -/
def addU32 (a b : Nat) : Nat := (a + b) % 4294967296

/-- Subtraction of two `unsigned int`, modulo 2^32. -/
def subU32 (a b : Nat) : Nat := (a % 4294967296 + 4294967296 - b % 4294967296) % 4294967296

/-- The subexpression `match_trig_window_size / 2`, an unsigned division. -/
def halfWindowU32 (cfg : Config) : Nat := cfg.match_trig_window_size % 4294967296 / 2

/-- The initialiser of `bx_alct_start` as the machine evaluates it,
`bx_clct - match_trig_window_size / 2 + alctClctOffset_`: the `int` operands are
converted to `unsigned int`, the difference and the sum are taken modulo 2^32,
and the result is converted to `int`. -/
def bx_alct_start32 (cfg : Config) (bx_clct : Int) : Int :=
  toI32 (addU32 (subU32 (toU32 bx_clct) (halfWindowU32 cfg)) (toU32 cfg.alctClctOffset_))

/-- The initialiser of `bx_alct_stop`,
`bx_clct + match_trig_window_size / 2 + alctClctOffset_`, in 32-bit arithmetic. -/
def bx_alct_stop32 (cfg : Config) (bx_clct : Int) : Int :=
  toI32 (addU32 (addU32 (toU32 bx_clct) (halfWindowU32 cfg)) (toU32 cfg.alctClctOffset_))

/-- The initialiser of `bx_clct_start`,
`bx_alct - match_trig_window_size / 2 - alctClctOffset_`, in 32-bit arithmetic. -/
def bx_clct_start32 (cfg : Config) (bx_alct : Int) : Int :=
  toI32 (subU32 (subU32 (toU32 bx_alct) (halfWindowU32 cfg)) (toU32 cfg.alctClctOffset_))

/-- The initialiser of `bx_clct_stop`,
`bx_alct + match_trig_window_size / 2 - alctClctOffset_`, in 32-bit arithmetic. -/
def bx_clct_stop32 (cfg : Config) (bx_alct : Int) : Int :=
  toI32 (subU32 (addU32 (toU32 bx_alct) (halfWindowU32 cfg)) (toU32 cfg.alctClctOffset_))

/-- The initialiser of the fallback bin of an invalid driving bin `bx`,
`bx - match_trig_window_size / 2`, in 32-bit arithmetic. -/
def fallback_bx32 (cfg : Config) (bx : Int) : Int :=
  toI32 (subU32 (toU32 bx) (halfWindowU32 cfg))

/-! ## The indexed accesses of `run` -/

/-- One indexed access made during `run`: a `getBestALCT(bx)` or
`getSecondALCT(bx)` lookup on the anode finder, a `getBestCLCT(bx)` or
`getSecondCLCT(bx)` lookup on the cathode finder, a read or write of
`used_alct_mask[bx]` or `used_clct_mask[bx]`, or a write of `firstLCT[bx]` or
`secondLCT[bx]`. -/
inductive Access where
  | alctLookup (bx : Int)
  | clctLookup (bx : Int)
  | maskAccess (bx : Int)
  | storeWrite (bx : Int)
deriving DecidableEq, Repr

/-- The index of an access lies in the given range of its kind: `maxA` bins for
the anode finder, `maxC` for the cathode finder, `maxMask` entries of a reuse
mask, `maxLct` entries of the store. -/
def Access.within (maxA maxC maxMask maxLct : Int) : Access → Bool
  | Access.alctLookup bx => decide (0 ≤ bx ∧ bx < maxA)
  | Access.clctLookup bx => decide (0 ≤ bx ∧ bx < maxC)
  | Access.maskAccess bx => decide (0 ≤ bx ∧ bx < maxMask)
  | Access.storeWrite bx => decide (0 ≤ bx ∧ bx < maxLct)

/-- The index of an access lies in the range of what is accessed: the bins of
the finder, the 20 entries of a reuse mask, the bins of the store. -/
def Access.inRange (k : CSCConstants) (a : Access) : Bool :=
  a.within (k.MAX_ALCT_TBINS : Int) (k.MAX_CLCT_TBINS : Int) 20 (k.MAX_LCT_TBINS : Int)

/-- The writes of one `correlateLCTs` call to `firstLCT` and `secondLCT`. -/
def correlateLCTsWrites (cfg : Config) (k : CSCConstants) (highMultiplicityBits_ : Nat)
    (bALCT sALCT : CSCALCTDigi) (bCLCT sCLCT : CSCCLCTDigi) (type : LCTType) : List Access :=
  (match firstCandidate cfg k highMultiplicityBits_ bALCT sALCT bCLCT sCLCT type with
    | some lct =>
      let bx := lct.getBX
      if bx ≥ 0 ∧ bx < (k.MAX_LCT_TBINS : Int) then [Access.storeWrite bx] else []
    | none => []) ++
  (match secondCandidate cfg k highMultiplicityBits_ bALCT sALCT bCLCT sCLCT type with
    | some lct =>
      let bx := lct.getBX
      if bx ≥ 0 ∧ bx < (k.MAX_LCT_TBINS : Int) then [Access.storeWrite bx] else []
    | none => [])

/-- The accesses of one `correlateLCTs(...)` statement of `run`: the four
lookups that build its arguments, then the writes of the call. -/
def callAccesses (cfg : Config) (k : CSCConstants) (highMultiplicityBits_ : Nat)
    (alctProc : CSCAnodeLCTProcessor) (clctProc : CSCCathodeLCTProcessor)
    (call : CorrelateCall) : List Access :=
  [Access.alctLookup call.bx_alct, Access.alctLookup call.bx_alct,
    Access.clctLookup call.bx_clct, Access.clctLookup call.bx_clct] ++
  correlateLCTsWrites cfg k highMultiplicityBits_ (alctProc.getBestALCT call.bx_alct)
    (alctProc.getSecondALCT call.bx_alct) (clctProc.getBestCLCT call.bx_clct)
    (clctProc.getSecondCLCT call.bx_clct) call.type

/-- The accesses of the inner loop of the CLCT-centric branch up to its break or
end, the statements of a match excluded: the read of `used_alct_mask[bx_alct]`
(made only when `drop_used_alcts` is set) and the lookup
`getBestALCT(bx_alct).isValid()`. -/
def scanAlctWindowAccesses (cfg : Config) (k : CSCConstants) (alctProc : CSCAnodeLCTProcessor)
    (used_alct_mask : Int → Int) : Nat → Int → List Access
  | 0, _ => []
  | n + 1, bx_alct =>
    if bx_alct < 0 ∨ bx_alct ≥ (k.MAX_ALCT_TBINS : Int) then
      scanAlctWindowAccesses cfg k alctProc used_alct_mask n (bx_alct + 1)
    else
      (if cfg.drop_used_alcts then [Access.maskAccess bx_alct] else []) ++
      (if cfg.drop_used_alcts && decide (used_alct_mask bx_alct ≠ 0) then
        scanAlctWindowAccesses cfg k alctProc used_alct_mask n (bx_alct + 1)
      else if (alctProc.getBestALCT bx_alct).isValid then
        [Access.alctLookup bx_alct]
      else
        Access.alctLookup bx_alct ::
          scanAlctWindowAccesses cfg k alctProc used_alct_mask n (bx_alct + 1))

/-- The accesses of the inner loop of the ALCT-centric branch up to its break or
end, the statements of a match excluded. -/
def scanClctWindowAccesses (cfg : Config) (k : CSCConstants) (clctProc : CSCCathodeLCTProcessor)
    (used_clct_mask : Int → Int) : Nat → Int → List Access
  | 0, _ => []
  | n + 1, bx_clct =>
    if bx_clct < 0 ∨ bx_clct ≥ (k.MAX_CLCT_TBINS : Int) then
      scanClctWindowAccesses cfg k clctProc used_clct_mask n (bx_clct + 1)
    else
      (if cfg.drop_used_clcts then [Access.maskAccess bx_clct] else []) ++
      (if cfg.drop_used_clcts && decide (used_clct_mask bx_clct ≠ 0) then
        scanClctWindowAccesses cfg k clctProc used_clct_mask n (bx_clct + 1)
      else if (clctProc.getBestCLCT bx_clct).isValid then
        [Access.clctLookup bx_clct]
      else
        Access.clctLookup bx_clct ::
          scanClctWindowAccesses cfg k clctProc used_clct_mask n (bx_clct + 1))

/-- The accesses of the body of the CLCT-centric loop for the driving bin
`bx_clct` (the lookups made only to print a log message are left out). -/
def clctCentricAccesses (cfg : Config) (k : CSCConstants) (highMultiplicityBits_ : Nat)
    (alctProc : CSCAnodeLCTProcessor) (clctProc : CSCCathodeLCTProcessor) (st : LoopState)
    (bx_clct : Int) : List Access :=
  Access.clctLookup bx_clct ::
  (if (clctProc.getBestCLCT bx_clct).isValid then
    scanAlctWindowAccesses cfg k alctProc st.used_mask
        (bx_alct_stop cfg bx_clct - bx_alct_start cfg bx_clct + 1).toNat
        (bx_alct_start cfg bx_clct) ++
    (match scanAlctWindow cfg k alctProc st.used_mask
        (bx_alct_stop cfg bx_clct - bx_alct_start cfg bx_clct + 1).toNat
        (bx_alct_start cfg bx_clct) with
    | some bx_alct =>
      callAccesses cfg k highMultiplicityBits_ alctProc clctProc
          ⟨bx_alct, bx_clct, LCTType.CLCTALCT⟩ ++ [Access.maskAccess bx_alct]
    | none =>
      if cfg.clct_trig_enable ≠ 0 then
        callAccesses cfg k highMultiplicityBits_ alctProc clctProc
          ⟨bx_clct, bx_clct, LCTType.CLCTONLY⟩
      else [])
  else
    let bx_alct : Int := bx_clct - ((cfg.match_trig_window_size / 2 : Nat) : Int)
    if bx_alct ≥ 0 ∧ bx_alct > st.bx_matched then
      Access.alctLookup bx_alct ::
        (if (alctProc.getBestALCT bx_alct).isValid ∧ cfg.alct_trig_enable ≠ 0 then
          callAccesses cfg k highMultiplicityBits_ alctProc clctProc
            ⟨bx_alct, bx_clct, LCTType.ALCTONLY⟩
        else [])
    else [])

/-- The accesses of the body of the ALCT-centric loop for the driving bin
`bx_alct`. -/
def alctCentricAccesses (cfg : Config) (k : CSCConstants) (highMultiplicityBits_ : Nat)
    (alctProc : CSCAnodeLCTProcessor) (clctProc : CSCCathodeLCTProcessor) (st : LoopState)
    (bx_alct : Int) : List Access :=
  Access.alctLookup bx_alct ::
  (if (alctProc.getBestALCT bx_alct).isValid then
    scanClctWindowAccesses cfg k clctProc st.used_mask
        (bx_clct_stop cfg bx_alct - bx_clct_start cfg bx_alct + 1).toNat
        (bx_clct_start cfg bx_alct) ++
    (match scanClctWindow cfg k clctProc st.used_mask
        (bx_clct_stop cfg bx_alct - bx_clct_start cfg bx_alct + 1).toNat
        (bx_clct_start cfg bx_alct) with
    | some bx_clct =>
      callAccesses cfg k highMultiplicityBits_ alctProc clctProc
          ⟨bx_alct, bx_clct, LCTType.ALCTCLCT⟩ ++ [Access.maskAccess bx_clct]
    | none =>
      if cfg.alct_trig_enable ≠ 0 then
        callAccesses cfg k highMultiplicityBits_ alctProc clctProc
          ⟨bx_alct, bx_alct, LCTType.ALCTONLY⟩
      else [])
  else
    let bx_clct : Int := bx_alct - ((cfg.match_trig_window_size / 2 : Nat) : Int)
    if bx_clct ≥ 0 ∧ bx_clct > st.bx_matched then
      Access.clctLookup bx_clct ::
        (if (clctProc.getBestCLCT bx_clct).isValid ∧ cfg.clct_trig_enable ≠ 0 then
          callAccesses cfg k highMultiplicityBits_ alctProc clctProc
            ⟨bx_alct, bx_clct, LCTType.CLCTONLY⟩
        else [])
    else [])

/-- The initialisation loop of a reuse mask, `for (int a = 0; a < 20; ++a)`. -/
def maskInitAccesses : List Access :=
  (List.range' 0 20).map (fun a : Nat => Access.maskAccess a)

/-- The accesses of the CLCT-centric block of `run`, driving bin by driving bin. -/
def runClctCentricAccesses (cfg : Config) (k : CSCConstants) (highMultiplicityBits_ : Nat)
    (alctProc : CSCAnodeLCTProcessor) (clctProc : CSCCathodeLCTProcessor) : List Access :=
  maskInitAccesses ++
  (List.range' 0 k.MAX_CLCT_TBINS).flatMap (fun bx_clct : Nat =>
    clctCentricAccesses cfg k highMultiplicityBits_ alctProc clctProc
      (clctCentricState cfg k alctProc clctProc bx_clct) bx_clct)

/-- The accesses of the ALCT-centric block of `run`, driving bin by driving bin. -/
def runAlctCentricAccesses (cfg : Config) (k : CSCConstants) (highMultiplicityBits_ : Nat)
    (alctProc : CSCAnodeLCTProcessor) (clctProc : CSCCathodeLCTProcessor) : List Access :=
  maskInitAccesses ++
  (List.range' 0 k.MAX_ALCT_TBINS).flatMap (fun bx_alct : Nat =>
    alctCentricAccesses cfg k highMultiplicityBits_ alctProc clctProc
      (alctCentricState cfg k alctProc clctProc bx_alct) bx_alct)

/-- The accesses of `clear()`: every entry of `firstLCT` and of `secondLCT`. -/
def clearAccesses (k : CSCConstants) : List Access :=
  (List.range' 0 k.MAX_LCT_TBINS).flatMap (fun bx : Nat =>
    [Access.storeWrite bx, Access.storeWrite bx])

/-- The indexed accesses of one pass of `run`, in program order. -/
def runAccesses (cfg : Config) (k : CSCConstants)
    (alctProc : Option CSCAnodeLCTProcessor) (clctProc : Option CSCCathodeLCTProcessor)
    (alctV : List CSCALCTDigi) (clctV : List CSCCLCTDigi) (alctBits : Nat) : List Access :=
  clearAccesses k ++
  (match alctProc, clctProc with
  | some a, some c =>
    if alctV.isEmpty ∧ clctV.isEmpty then []
    else if cfg.clct_to_alct then runClctCentricAccesses cfg k alctBits a c
    else runAlctCentricAccesses cfg k alctBits a c
  | _, _ => [])

/-- The default configuration with ALCTs driving. -/
def alctDrivingConfig : Config := { stdConfig with clct_to_alct := false }

/-- ALCTs driving with ALCT-only triggers enabled as well. -/
def alctDrivingOnlyConfig : Config :=
  { stdConfig with clct_to_alct := false, alct_trig_enable := 1 }

/-! ## Theorems on `findQuality` -/

/-- C1: the single-sided rows of the quality table. Whatever the other fields
of the two primitives are, the quality is 0 when neither is valid, 1 when only
the anode primitive is valid and 2 when only the cathode primitive is valid. -/
theorem findQuality_single_sided (qa wg bxa qc pat bend strip bxc : Int) (acc : Bool) :
    findQuality ⟨false, qa, acc, wg, bxa⟩ ⟨false, qc, pat, bend, strip, bxc⟩ = 0 ∧
    findQuality ⟨true, qa, acc, wg, bxa⟩ ⟨false, qc, pat, bend, strip, bxc⟩ = 1 ∧
    findQuality ⟨false, qa, acc, wg, bxa⟩ ⟨true, qc, pat, bend, strip, bxc⟩ = 2 := by
  simp [findQuality]

/-- C2: both primitives valid. A cathode pattern 1 gives quality 3 whatever the
qualities and the accelerator flag are; otherwise, with a4 = (anode quality >= 1)
and c4 = (cathode quality >= 4), the quality is 5 for neither, 6 for a4 alone and
7 for c4 alone. -/
theorem findQuality_both_valid (a : CSCALCTDigi) (c : CSCCLCTDigi)
    (ha : a.isValid = true) (hc : c.isValid = true) :
    (c.getPattern = 1 → findQuality a c = 3) ∧
    (c.getPattern ≠ 1 → ¬ a.getQuality ≥ 1 → ¬ c.getQuality ≥ 4 → findQuality a c = 5) ∧
    (c.getPattern ≠ 1 → a.getQuality ≥ 1 → ¬ c.getQuality ≥ 4 → findQuality a c = 6) ∧
    (c.getPattern ≠ 1 → ¬ a.getQuality ≥ 1 → c.getQuality ≥ 4 → findQuality a c = 7) := by
  refine ⟨?_, ?_, ?_, ?_⟩ <;> intros <;> simp_all [findQuality]

/-- Witness of C2: one concrete pair of valid primitives for each of the four rows. -/
theorem findQuality_both_valid_witness :
    findQuality ⟨true, 3, true, 7, 5⟩ ⟨true, 6, 1, 0, 20, 6⟩ = 3 ∧
    findQuality ⟨true, 0, false, 7, 5⟩ ⟨true, 3, 8, 0, 20, 6⟩ = 5 ∧
    findQuality ⟨true, 1, false, 7, 5⟩ ⟨true, 3, 8, 0, 20, 6⟩ = 6 ∧
    findQuality ⟨true, 0, false, 7, 5⟩ ⟨true, 4, 8, 0, 20, 6⟩ = 7 :=
  ⟨(findQuality_both_valid ⟨true, 3, true, 7, 5⟩ ⟨true, 6, 1, 0, 20, 6⟩ rfl rfl).1 rfl,
   (findQuality_both_valid ⟨true, 0, false, 7, 5⟩ ⟨true, 3, 8, 0, 20, 6⟩ rfl rfl).2.1
      (by decide) (by decide) (by decide),
   (findQuality_both_valid ⟨true, 1, false, 7, 5⟩ ⟨true, 3, 8, 0, 20, 6⟩ rfl rfl).2.2.1
      (by decide) (by decide) (by decide),
   (findQuality_both_valid ⟨true, 0, false, 7, 5⟩ ⟨true, 4, 8, 0, 20, 6⟩ rfl rfl).2.2.2
      (by decide) (by decide) (by decide)⟩

/-- C3: both primitives valid, cathode pattern not 1, anode quality >= 1 and
cathode quality >= 4. An accelerator anode primitive gives quality 8 whatever the
pattern is; otherwise patterns 2,3 give 11, 4,5 give 12, 6,7 give 13, 8,9 give
14, 10 gives 15, and every other pattern leaves the initial value 0. -/
theorem findQuality_high_quality (a : CSCALCTDigi) (c : CSCCLCTDigi)
    (ha : a.isValid = true) (hc : c.isValid = true) (hp : c.getPattern ≠ 1)
    (ha4 : a.getQuality ≥ 1) (hc4 : c.getQuality ≥ 4) :
    (a.getAccelerator = true → findQuality a c = 8) ∧
    (a.getAccelerator = false →
      ((c.getPattern = 2 ∨ c.getPattern = 3) → findQuality a c = 11) ∧
      ((c.getPattern = 4 ∨ c.getPattern = 5) → findQuality a c = 12) ∧
      ((c.getPattern = 6 ∨ c.getPattern = 7) → findQuality a c = 13) ∧
      ((c.getPattern = 8 ∨ c.getPattern = 9) → findQuality a c = 14) ∧
      (c.getPattern = 10 → findQuality a c = 15) ∧
      ((c.getPattern < 1 ∨ c.getPattern > 10) → findQuality a c = 0)) := by
  refine ⟨?_, fun hacc => ⟨?_, ?_, ?_, ?_, ?_, ?_⟩⟩
  · intro hacc
    simp [findQuality, ha, hc, hp, ha4, hc4, hacc]
  · rintro (h | h) <;> simp [findQuality, ha, hc, ha4, hc4, hacc, h]
  · rintro (h | h) <;> simp [findQuality, ha, hc, ha4, hc4, hacc, h]
  · rintro (h | h) <;> simp [findQuality, ha, hc, ha4, hc4, hacc, h]
  · rintro (h | h) <;> simp [findQuality, ha, hc, ha4, hc4, hacc, h]
  · intro h
    simp [findQuality, ha, hc, ha4, hc4, hacc, h]
  · intro h
    have h1 : c.getPattern ≠ 2 := by omega
    have h2 : c.getPattern ≠ 3 := by omega
    have h3 : c.getPattern ≠ 4 := by omega
    have h4 : c.getPattern ≠ 5 := by omega
    have h5 : c.getPattern ≠ 6 := by omega
    have h6 : c.getPattern ≠ 7 := by omega
    have h7 : c.getPattern ≠ 8 := by omega
    have h8 : c.getPattern ≠ 9 := by omega
    have h9 : c.getPattern ≠ 10 := by omega
    simp [findQuality, ha, hc, hp, ha4, hc4, hacc, h1, h2, h3, h4, h5, h6, h7, h8, h9]

/-- Witness of C3: an accelerator pair, one pair per pattern row, and the
patterns 0, 11 and -3 that fall through to the default 0. -/
theorem findQuality_high_quality_witness :
    findQuality ⟨true, 1, true, 7, 5⟩ ⟨true, 4, 0, 0, 20, 6⟩ = 8 ∧
    findQuality ⟨true, 1, false, 7, 5⟩ ⟨true, 4, 3, 0, 20, 6⟩ = 11 ∧
    findQuality ⟨true, 2, false, 7, 5⟩ ⟨true, 5, 4, 0, 20, 6⟩ = 12 ∧
    findQuality ⟨true, 3, false, 7, 5⟩ ⟨true, 6, 7, 0, 20, 6⟩ = 13 ∧
    findQuality ⟨true, 1, false, 7, 5⟩ ⟨true, 4, 8, 0, 20, 6⟩ = 14 ∧
    findQuality ⟨true, 1, false, 7, 5⟩ ⟨true, 4, 10, 0, 20, 6⟩ = 15 ∧
    findQuality ⟨true, 1, false, 7, 5⟩ ⟨true, 4, 0, 0, 20, 6⟩ = 0 ∧
    findQuality ⟨true, 1, false, 7, 5⟩ ⟨true, 4, 11, 0, 20, 6⟩ = 0 ∧
    findQuality ⟨true, 1, false, 7, 5⟩ ⟨true, 4, -3, 0, 20, 6⟩ = 0 :=
  ⟨(findQuality_high_quality ⟨true, 1, true, 7, 5⟩ ⟨true, 4, 0, 0, 20, 6⟩ rfl rfl
      (by decide) (by decide) (by decide)).1 rfl,
   ((findQuality_high_quality ⟨true, 1, false, 7, 5⟩ ⟨true, 4, 3, 0, 20, 6⟩ rfl rfl
      (by decide) (by decide) (by decide)).2 rfl).1 (Or.inr rfl),
   ((findQuality_high_quality ⟨true, 2, false, 7, 5⟩ ⟨true, 5, 4, 0, 20, 6⟩ rfl rfl
      (by decide) (by decide) (by decide)).2 rfl).2.1 (Or.inl rfl),
   ((findQuality_high_quality ⟨true, 3, false, 7, 5⟩ ⟨true, 6, 7, 0, 20, 6⟩ rfl rfl
      (by decide) (by decide) (by decide)).2 rfl).2.2.1 (Or.inr rfl),
   ((findQuality_high_quality ⟨true, 1, false, 7, 5⟩ ⟨true, 4, 8, 0, 20, 6⟩ rfl rfl
      (by decide) (by decide) (by decide)).2 rfl).2.2.2.1 (Or.inl rfl),
   ((findQuality_high_quality ⟨true, 1, false, 7, 5⟩ ⟨true, 4, 10, 0, 20, 6⟩ rfl rfl
      (by decide) (by decide) (by decide)).2 rfl).2.2.2.2.1 rfl,
   ((findQuality_high_quality ⟨true, 1, false, 7, 5⟩ ⟨true, 4, 0, 0, 20, 6⟩ rfl rfl
      (by decide) (by decide) (by decide)).2 rfl).2.2.2.2.2 (Or.inl (by decide)),
   ((findQuality_high_quality ⟨true, 1, false, 7, 5⟩ ⟨true, 4, 11, 0, 20, 6⟩ rfl rfl
      (by decide) (by decide) (by decide)).2 rfl).2.2.2.2.2 (Or.inr (by decide)),
   ((findQuality_high_quality ⟨true, 1, false, 7, 5⟩ ⟨true, 4, -3, 0, 20, 6⟩ rfl rfl
      (by decide) (by decide) (by decide)).2 rfl).2.2.2.2.2 (Or.inl (by decide))⟩

/-- C4: the quality table is exhaustive and 4-bit. For every pair of
primitives the quality is one of 0,1,2,3,5,6,7,8,11,12,13,14,15; it is never one
of the reserved codes 4, 9, 10 and never above 15. -/
theorem findQuality_range (a : CSCALCTDigi) (c : CSCCLCTDigi) :
    findQuality a c ∈ [0, 1, 2, 3, 5, 6, 7, 8, 11, 12, 13, 14, 15] ∧
    findQuality a c ≠ 4 ∧ findQuality a c ≠ 9 ∧ findQuality a c ≠ 10 ∧
    findQuality a c ≤ 15 := by
  have key : findQuality a c = 0 ∨ findQuality a c = 1 ∨ findQuality a c = 2 ∨
      findQuality a c = 3 ∨ findQuality a c = 5 ∨ findQuality a c = 6 ∨
      findQuality a c = 7 ∨ findQuality a c = 8 ∨ findQuality a c = 11 ∨
      findQuality a c = 12 ∨ findQuality a c = 13 ∨ findQuality a c = 14 ∨
      findQuality a c = 15 := by
    obtain ⟨av, qa, acc, wg, bxa⟩ := a
    obtain ⟨cv, qc, pat, bend, strip, bxc⟩ := c
    cases av <;> cases cv <;> try (simp [findQuality]; done)
    by_cases hp : pat = 1
    · simp [findQuality, hp]
    by_cases ha4 : qa ≥ 1 <;> by_cases hc4 : qc ≥ 4 <;>
      try (simp [findQuality, hp, ha4, hc4]; done)
    cases acc
    · have hcases : pat = 2 ∨ pat = 3 ∨ pat = 4 ∨ pat = 5 ∨ pat = 6 ∨ pat = 7 ∨ pat = 8 ∨
          pat = 9 ∨ pat = 10 ∨ (pat < 1 ∨ pat > 10) := by omega
      rcases hcases with h | h | h | h | h | h | h | h | h | h
      all_goals first
        | (subst h; simp [findQuality, ha4, hc4])
        | (have h1 : pat ≠ 2 := by omega
           have h2 : pat ≠ 3 := by omega
           have h3 : pat ≠ 4 := by omega
           have h4 : pat ≠ 5 := by omega
           have h5 : pat ≠ 6 := by omega
           have h6 : pat ≠ 7 := by omega
           have h7 : pat ≠ 8 := by omega
           have h8 : pat ≠ 9 := by omega
           have h9 : pat ≠ 10 := by omega
           simp [findQuality, hp, ha4, hc4, h1, h2, h3, h4, h5, h6, h7, h8, h9])
    · simp [findQuality, hp, ha4, hc4]
  generalize findQuality a c = q at key
  rcases key with h | h | h | h | h | h | h | h | h | h | h | h | h <;> subst h <;> decide

/-! ## The two branches of `run` are instances of the parameterised matcher -/

theorem scanAlctWindow_eq (cfg : Config) (k : CSCConstants) (alctProc : CSCAnodeLCTProcessor)
    (clctProc : CSCCathodeLCTProcessor) (mask : Int → Int) (n : Nat) (bx : Int) :
    scanAlctWindow cfg k alctProc mask n bx
      = windowScan (clctDirection cfg k alctProc clctProc) mask n bx := by
  induction n generalizing bx with
  | zero => rfl
  | succ n ih => simp only [scanAlctWindow, windowScan, ih, clctDirection]

theorem scanClctWindow_eq (cfg : Config) (k : CSCConstants) (alctProc : CSCAnodeLCTProcessor)
    (clctProc : CSCCathodeLCTProcessor) (mask : Int → Int) (n : Nat) (bx : Int) :
    scanClctWindow cfg k clctProc mask n bx
      = windowScan (alctDirection cfg k alctProc clctProc) mask n bx := by
  induction n generalizing bx with
  | zero => rfl
  | succ n ih => simp only [scanClctWindow, windowScan, ih, alctDirection]

theorem clctCentricStep_eq (cfg : Config) (k : CSCConstants) (alctProc : CSCAnodeLCTProcessor)
    (clctProc : CSCCathodeLCTProcessor) (st : LoopState) (b : Int) :
    clctCentricStep cfg k alctProc clctProc st b
      = ((centricStep (clctDirection cfg k alctProc clctProc) st b).1,
         Option.map (clctCall b) (centricStep (clctDirection cfg k alctProc clctProc) st b).2) := by
  unfold clctCentricStep centricStep
  rw [scanAlctWindow_eq cfg k alctProc clctProc]
  simp only [bx_alct_start, bx_alct_stop, clctDirection]
  split_ifs <;> first | rfl | (split <;> simp_all [clctCall]) | simp_all [clctCall]

theorem alctCentricStep_eq (cfg : Config) (k : CSCConstants) (alctProc : CSCAnodeLCTProcessor)
    (clctProc : CSCCathodeLCTProcessor) (st : LoopState) (b : Int) :
    alctCentricStep cfg k alctProc clctProc st b
      = ((centricStep (alctDirection cfg k alctProc clctProc) st b).1,
         Option.map (alctCall b) (centricStep (alctDirection cfg k alctProc clctProc) st b).2) := by
  unfold alctCentricStep centricStep
  rw [scanClctWindow_eq cfg k alctProc clctProc]
  simp only [bx_clct_start, bx_clct_stop, alctDirection, sub_eq_add_neg]
  split_ifs <;> first | rfl | (split <;> simp_all [alctCall]) | simp_all [alctCall]

theorem clctCentricState_eq (cfg : Config) (k : CSCConstants) (alctProc : CSCAnodeLCTProcessor)
    (clctProc : CSCCathodeLCTProcessor) (b : Nat) :
    clctCentricState cfg k alctProc clctProc b
      = centricState (clctDirection cfg k alctProc clctProc) b := by
  induction b with
  | zero => rfl
  | succ b ih => simp only [clctCentricState, centricState, ih, clctCentricStep_eq]

theorem alctCentricState_eq (cfg : Config) (k : CSCConstants) (alctProc : CSCAnodeLCTProcessor)
    (clctProc : CSCCathodeLCTProcessor) (b : Nat) :
    alctCentricState cfg k alctProc clctProc b
      = centricState (alctDirection cfg k alctProc clctProc) b := by
  induction b with
  | zero => rfl
  | succ b ih => simp only [alctCentricState, centricState, ih, alctCentricStep_eq]

theorem clctCentricLoop_eq (cfg : Config) (k : CSCConstants) (alctProc : CSCAnodeLCTProcessor)
    (clctProc : CSCCathodeLCTProcessor) (n b : Nat) :
    clctCentricLoop cfg k alctProc clctProc n (b : Int) (clctCentricState cfg k alctProc clctProc b)
      = (List.range' b n).map (fun i : Nat =>
          (clctCentricStep cfg k alctProc clctProc
            (clctCentricState cfg k alctProc clctProc i) (i : Int)).2) := by
  induction n generalizing b with
  | zero => rfl
  | succ n ih =>
    have h := ih (b + 1)
    simp only [clctCentricState, Nat.cast_add, Nat.cast_one] at h
    simp only [clctCentricLoop, List.range'_succ, List.map_cons, h]

theorem alctCentricLoop_eq (cfg : Config) (k : CSCConstants) (alctProc : CSCAnodeLCTProcessor)
    (clctProc : CSCCathodeLCTProcessor) (n b : Nat) :
    alctCentricLoop cfg k alctProc clctProc n (b : Int) (alctCentricState cfg k alctProc clctProc b)
      = (List.range' b n).map (fun i : Nat =>
          (alctCentricStep cfg k alctProc clctProc
            (alctCentricState cfg k alctProc clctProc i) (i : Int)).2) := by
  induction n generalizing b with
  | zero => rfl
  | succ n ih =>
    have h := ih (b + 1)
    simp only [alctCentricState, Nat.cast_add, Nat.cast_one] at h
    simp only [alctCentricLoop, List.range'_succ, List.map_cons, h]

/-- Entry `b` of the CLCT-centric result is the call made by the loop body at
driving bin `b`, run from the loop state on entry to that bin. -/
theorem runClctCentric_entry (cfg : Config) (k : CSCConstants)
    (alctProc : CSCAnodeLCTProcessor) (clctProc : CSCCathodeLCTProcessor) (b : Nat)
    (hb : b < k.MAX_CLCT_TBINS) :
    (runClctCentric cfg k alctProc clctProc)[b]?
      = some (Option.map (clctCall b) (centricStep (clctDirection cfg k alctProc clctProc)
          (centricState (clctDirection cfg k alctProc clctProc) b) b).2) := by
  have h := clctCentricLoop_eq cfg k alctProc clctProc k.MAX_CLCT_TBINS 0
  simp only [clctCentricState, Nat.cast_zero] at h
  unfold runClctCentric
  rw [h, List.getElem?_map, List.getElem?_range' _ _ hb]
  simp [clctCentricStep_eq, clctCentricState_eq]

/-- Entry `b` of the ALCT-centric result is the call made by the loop body at
driving bin `b`, run from the loop state on entry to that bin. -/
theorem runAlctCentric_entry (cfg : Config) (k : CSCConstants)
    (alctProc : CSCAnodeLCTProcessor) (clctProc : CSCCathodeLCTProcessor) (b : Nat)
    (hb : b < k.MAX_ALCT_TBINS) :
    (runAlctCentric cfg k alctProc clctProc)[b]?
      = some (Option.map (alctCall b) (centricStep (alctDirection cfg k alctProc clctProc)
          (centricState (alctDirection cfg k alctProc clctProc) b) b).2) := by
  have h := alctCentricLoop_eq cfg k alctProc clctProc k.MAX_ALCT_TBINS 0
  simp only [alctCentricState, Nat.cast_zero] at h
  unfold runAlctCentric
  rw [h, List.getElem?_map, List.getElem?_range' _ _ hb]
  simp [alctCentricStep_eq, alctCentricState_eq]

/-! ## The window scan takes the first eligible bin -/

theorem windowScan_succ_eligible (d : Direction) (mask : Int → Int) (n : Nat) (s : Int)
    (h : d.Eligible mask s) : windowScan d mask (n + 1) s = some s := by
  obtain ⟨h0, h1, h2, h3⟩ := h
  unfold windowScan
  have hr : ¬ (s < 0 ∨ s ≥ d.maxOther) := by omega
  rw [if_neg hr]
  cases hd : d.dropUsed with
  | false => simp [h2]
  | true => simp [h3 hd, h2]

theorem windowScan_succ_not_eligible (d : Direction) (mask : Int → Int) (n : Nat) (s : Int)
    (h : ¬ d.Eligible mask s) : windowScan d mask (n + 1) s = windowScan d mask n (s + 1) := by
  rw [windowScan]
  by_cases hr : s < 0 ∨ s ≥ d.maxOther
  · rw [if_pos hr]
  · rw [if_neg hr]
    by_cases hu : (d.dropUsed && decide (mask s ≠ 0)) = true
    · rw [if_pos hu]
    · rw [if_neg hu]
      by_cases hv : d.otherValid s = true
      · exfalso
        apply h
        refine ⟨by omega, by omega, hv, fun hd => ?_⟩
        by_contra hm
        exact hu (by simp [hd, hm])
      · rw [if_neg hv]

theorem windowScan_eq_some_iff (d : Direction) (mask : Int → Int) (n : Nat) (s x : Int) :
    windowScan d mask n s = some x ↔
      s ≤ x ∧ x < s + n ∧ d.Eligible mask x ∧ ∀ y, s ≤ y → y < x → ¬ d.Eligible mask y := by
  induction n generalizing s with
  | zero =>
    simp only [windowScan, Nat.cast_zero, add_zero]
    constructor
    · intro h; cases h
    · rintro ⟨h1, h2, -⟩; omega
  | succ n ih =>
    by_cases he : d.Eligible mask s
    · rw [windowScan_succ_eligible d mask n s he]
      constructor
      · intro h
        have hx : s = x := by simpa using h
        subst hx
        refine ⟨le_refl _, by push_cast; omega, he, fun y h1 h2 => by omega⟩
      · rintro ⟨h1, -, -, hmin⟩
        by_cases hsx : s = x
        · rw [hsx]
        · exact absurd he (hmin s (le_refl _) (by omega))
    · rw [windowScan_succ_not_eligible d mask n s he, ih (s + 1)]
      constructor
      · rintro ⟨h1, h2, h3, hmin⟩
        refine ⟨by omega, by push_cast; omega, h3, fun y hy1 hy2 => ?_⟩
        by_cases hys : y = s
        · rw [hys]; exact he
        · exact hmin y (by omega) hy2
      · rintro ⟨h1, h2, h3, hmin⟩
        have hne : s ≠ x := fun hsx => he (hsx ▸ h3)
        refine ⟨by omega, by push_cast at h2; omega, h3, fun y hy1 hy2 => hmin y (by omega) hy2⟩

theorem windowScan_eq_none_iff (d : Direction) (mask : Int → Int) (n : Nat) (s : Int) :
    windowScan d mask n s = none ↔ ∀ y, s ≤ y → y < s + n → ¬ d.Eligible mask y := by
  constructor
  · intro h y hy1 hy2 hel
    -- the least eligible bin of the window would be returned
    have hex : ∃ m : Nat, d.Eligible mask (s + m) := ⟨(y - s).toNat, by
      have : s + ((y - s).toNat : Int) = y := by omega
      rw [this]; exact hel⟩
    classical
    let m := Nat.find hex
    have hm : d.Eligible mask (s + m) := Nat.find_spec hex
    have hmle : m ≤ (y - s).toNat := Nat.find_min' hex (by
      have : s + ((y - s).toNat : Int) = y := by omega
      rw [this]; exact hel)
    have : windowScan d mask n s = some (s + m) := by
      rw [windowScan_eq_some_iff]
      refine ⟨by omega, by omega, hm, fun z hz1 hz2 hz => ?_⟩
      have hlt : (z - s).toNat < m := by omega
      apply Nat.find_min hex hlt
      have : s + ((z - s).toNat : Int) = z := by omega
      rw [this]; exact hz
    rw [h] at this
    cases this
  · intro h
    cases hs : windowScan d mask n s with
    | none => rfl
    | some x =>
      rw [windowScan_eq_some_iff] at hs
      exact absurd hs.2.2.1 (h x hs.1 hs.2.1)

/-! ## One driving bin of the parameterised matcher -/

theorem centricStep_of_scan_some (d : Direction) (st : LoopState) (b x : Int)
    (hv : d.drivingValid b = true)
    (hs : windowScan d st.used_mask
      ((b + d.half + d.offset) - (b - d.half + d.offset) + 1).toNat
      (b - d.half + d.offset) = some x) :
    centricStep d st b = (⟨bumpMask st.used_mask x, x⟩, some (Decision.matched x)) := by
  unfold centricStep
  rw [if_pos hv, hs]

theorem centricStep_of_scan_none (d : Direction) (st : LoopState) (b : Int)
    (hv : d.drivingValid b = true)
    (hs : windowScan d st.used_mask
      ((b + d.half + d.offset) - (b - d.half + d.offset) + 1).toNat
      (b - d.half + d.offset) = none) :
    centricStep d st b = (st, if d.drivingEnable = true then some Decision.drivingOnly else none) := by
  unfold centricStep
  rw [if_pos hv, hs]
  by_cases he : d.drivingEnable = true <;> simp [he]

theorem centricStep_of_invalid (d : Direction) (st : LoopState) (b : Int)
    (hv : d.drivingValid b = false) :
    centricStep d st b = (st,
      if b - d.half ≥ 0 ∧ b - d.half > st.bx_matched ∧ d.otherValid (b - d.half) = true ∧
          d.oppositeEnable = true
      then some (Decision.oppositeOnly (b - d.half)) else none) := by
  unfold centricStep
  rw [if_neg (by simp [hv])]
  by_cases h1 : b - d.half ≥ 0 ∧ b - d.half > st.bx_matched
  · rw [if_pos h1]
    by_cases h2 : d.otherValid (b - d.half) = true ∧ d.oppositeEnable = true
    · rw [if_pos h2, if_pos ⟨h1.1, h1.2, h2.1, h2.2⟩]
    · rw [if_neg h2, if_neg (fun h => h2 ⟨h.2.2.1, h.2.2.2⟩)]
  · rw [if_neg h1, if_neg (fun h => h1 ⟨h.1, h.2.1⟩)]

/-- The matched bin of a valid driving bin is the first eligible bin of the window. -/
theorem centricStep_matched_iff (d : Direction) (st : LoopState) (b x : Int)
    (hv : d.drivingValid b = true) :
    (centricStep d st b).2 = some (Decision.matched x) ↔
      (b - d.half + d.offset ≤ x ∧ x ≤ b + d.half + d.offset ∧ d.Eligible st.used_mask x ∧
        ∀ y, b - d.half + d.offset ≤ y → y < x → ¬ d.Eligible st.used_mask y) := by
  cases hs : windowScan d st.used_mask
      ((b + d.half + d.offset) - (b - d.half + d.offset) + 1).toNat
      (b - d.half + d.offset) with
  | none =>
    rw [centricStep_of_scan_none d st b hv hs]
    rw [windowScan_eq_none_iff] at hs
    constructor
    · intro h
      by_cases he : d.drivingEnable = true <;> simp [he] at h
    · rintro ⟨h1, h2, h3, -⟩
      exact absurd h3 (hs x h1 (by omega))
  | some x' =>
    rw [centricStep_of_scan_some d st b x' hv hs]
    rw [windowScan_eq_some_iff] at hs
    obtain ⟨a1, a2, a3, a4⟩ := hs
    constructor
    · intro h
      have hx : x' = x := by simpa using h
      subst hx
      exact ⟨a1, by omega, a3, a4⟩
    · rintro ⟨h1, h2, h3, h4⟩
      have hx : x' = x := by
        rcases lt_trichotomy x' x with hlt | heq | hgt
        · exact absurd a3 (h4 x' a1 hlt)
        · exact heq
        · exact absurd h3 (a4 x h1 hgt)
      rw [hx]

/-- A valid driving bin with no eligible bin in its window falls back to the
single-sided decision of the driving kind, gated by its enable flag; the loop
state is unchanged. -/
theorem centricStep_unmatched (d : Direction) (st : LoopState) (b : Int)
    (hv : d.drivingValid b = true)
    (hno : ∀ y, b - d.half + d.offset ≤ y → y ≤ b + d.half + d.offset →
      ¬ d.Eligible st.used_mask y) :
    centricStep d st b = (st, if d.drivingEnable = true then some Decision.drivingOnly else none) := by
  apply centricStep_of_scan_none d st b hv
  rw [windowScan_eq_none_iff]
  intro y h1 h2
  exact hno y h1 (by omega)

/-! ## Reading the result of a branch -/

theorem runClctCentric_eq_map (cfg : Config) (k : CSCConstants)
    (alctProc : CSCAnodeLCTProcessor) (clctProc : CSCCathodeLCTProcessor) :
    runClctCentric cfg k alctProc clctProc
      = (List.range' 0 k.MAX_CLCT_TBINS).map (fun i : Nat =>
          Option.map (clctCall i) (centricStep (clctDirection cfg k alctProc clctProc)
            (centricState (clctDirection cfg k alctProc clctProc) i) i).2) := by
  have h := clctCentricLoop_eq cfg k alctProc clctProc k.MAX_CLCT_TBINS 0
  simp only [clctCentricState, Nat.cast_zero] at h
  unfold runClctCentric
  rw [h]
  simp [clctCentricStep_eq, clctCentricState_eq]

theorem runAlctCentric_eq_map (cfg : Config) (k : CSCConstants)
    (alctProc : CSCAnodeLCTProcessor) (clctProc : CSCCathodeLCTProcessor) :
    runAlctCentric cfg k alctProc clctProc
      = (List.range' 0 k.MAX_ALCT_TBINS).map (fun i : Nat =>
          Option.map (alctCall i) (centricStep (alctDirection cfg k alctProc clctProc)
            (centricState (alctDirection cfg k alctProc clctProc) i) i).2) := by
  have h := alctCentricLoop_eq cfg k alctProc clctProc k.MAX_ALCT_TBINS 0
  simp only [alctCentricState, Nat.cast_zero] at h
  unfold runAlctCentric
  rw [h]
  simp [alctCentricStep_eq, alctCentricState_eq]

theorem clctCall_matched_iff (b x : Int) (r : Option Decision) :
    Option.map (clctCall b) r = some ⟨x, b, LCTType.CLCTALCT⟩ ↔ r = some (Decision.matched x) := by
  rcases r with _ | (y | _ | y) <;> simp [clctCall]

theorem alctCall_matched_iff (b x : Int) (r : Option Decision) :
    Option.map (alctCall b) r = some ⟨b, x, LCTType.ALCTCLCT⟩ ↔ r = some (Decision.matched x) := by
  rcases r with _ | (y | _ | y) <;> simp [alctCall]

theorem alctCandidate_iff (cfg : Config) (k : CSCConstants) (alctProc : CSCAnodeLCTProcessor)
    (clctProc : CSCCathodeLCTProcessor) (mask : Int → Int) (b x : Int) :
    AlctCandidate cfg k alctProc mask b x ↔
      (b - (clctDirection cfg k alctProc clctProc).half
          + (clctDirection cfg k alctProc clctProc).offset ≤ x ∧
       x ≤ b + (clctDirection cfg k alctProc clctProc).half
          + (clctDirection cfg k alctProc clctProc).offset ∧
       (clctDirection cfg k alctProc clctProc).Eligible mask x) := by
  simp only [AlctCandidate, Direction.Eligible, clctDirection, bx_alct_start, bx_alct_stop]

theorem clctCandidate_iff (cfg : Config) (k : CSCConstants) (alctProc : CSCAnodeLCTProcessor)
    (clctProc : CSCCathodeLCTProcessor) (mask : Int → Int) (b x : Int) :
    ClctCandidate cfg k clctProc mask b x ↔
      (b - (alctDirection cfg k alctProc clctProc).half
          + (alctDirection cfg k alctProc clctProc).offset ≤ x ∧
       x ≤ b + (alctDirection cfg k alctProc clctProc).half
          + (alctDirection cfg k alctProc clctProc).offset ∧
       (alctDirection cfg k alctProc clctProc).Eligible mask x) := by
  simp only [ClctCandidate, Direction.Eligible, alctDirection, bx_clct_start, bx_clct_stop,
    sub_eq_add_neg]

/-- First-found-wins for the parameterised matcher, with the minimality written
over the candidates of the window. -/
theorem centricStep_matched_iff_least (d : Direction) (st : LoopState) (b x : Int)
    (hv : d.drivingValid b = true) :
    (centricStep d st b).2 = some (Decision.matched x) ↔
      ((b - d.half + d.offset ≤ x ∧ x ≤ b + d.half + d.offset ∧ d.Eligible st.used_mask x) ∧
        ∀ y, (b - d.half + d.offset ≤ y ∧ y ≤ b + d.half + d.offset ∧
          d.Eligible st.used_mask y) → x ≤ y) := by
  rw [centricStep_matched_iff d st b x hv]
  constructor
  · rintro ⟨h1, h2, h3, h4⟩
    refine ⟨⟨h1, h2, h3⟩, fun y hy => ?_⟩
    by_contra hlt
    exact h4 y hy.1 (by omega) hy.2.2
  · rintro ⟨⟨h1, h2, h3⟩, h4⟩
    refine ⟨h1, h2, h3, fun y hy1 hy2 hel => ?_⟩
    have := h4 y ⟨hy1, by omega, hel⟩
    omega

/-! ## Theorems on the matching loops -/

/-- C5: first-found-wins. In either branch of `run`, a driving bin `b` whose
best primitive is valid is matched to the bin `x` of the other stream exactly
when `x` is the smallest bin that lies in the match window and in the other
stream's bin range, has a valid best primitive and (when the drop-used flag of
that stream is set) has reuse counter zero on entry to the iteration for `b`; if
there is no such bin the call made for `b` is not a matched one. Only the
validity of the primitives enters the condition, not their quality. -/
theorem first_found_wins (cfg : Config) (k : CSCConstants) (alctProc : CSCAnodeLCTProcessor)
    (clctProc : CSCCathodeLCTProcessor) (b : Nat) :
    (b < k.MAX_CLCT_TBINS → (clctProc.getBestCLCT b).isValid = true →
      (∀ x : Int,
        (runClctCentric cfg k alctProc clctProc)[b]? = some (some ⟨x, b, LCTType.CLCTALCT⟩) ↔
          (AlctCandidate cfg k alctProc
              (clctCentricState cfg k alctProc clctProc b).used_mask b x ∧
            ∀ y, AlctCandidate cfg k alctProc
              (clctCentricState cfg k alctProc clctProc b).used_mask b y → x ≤ y)) ∧
      ((∀ y, ¬ AlctCandidate cfg k alctProc
              (clctCentricState cfg k alctProc clctProc b).used_mask b y) →
        ∀ c, (runClctCentric cfg k alctProc clctProc)[b]? = some (some c) →
          c.type ≠ LCTType.CLCTALCT)) ∧
    (b < k.MAX_ALCT_TBINS → (alctProc.getBestALCT b).isValid = true →
      (∀ x : Int,
        (runAlctCentric cfg k alctProc clctProc)[b]? = some (some ⟨b, x, LCTType.ALCTCLCT⟩) ↔
          (ClctCandidate cfg k clctProc
              (alctCentricState cfg k alctProc clctProc b).used_mask b x ∧
            ∀ y, ClctCandidate cfg k clctProc
              (alctCentricState cfg k alctProc clctProc b).used_mask b y → x ≤ y)) ∧
      ((∀ y, ¬ ClctCandidate cfg k clctProc
              (alctCentricState cfg k alctProc clctProc b).used_mask b y) →
        ∀ c, (runAlctCentric cfg k alctProc clctProc)[b]? = some (some c) →
          c.type ≠ LCTType.ALCTCLCT)) := by
  constructor
  · intro hb hv
    have hv' : (clctDirection cfg k alctProc clctProc).drivingValid b = true := hv
    rw [runClctCentric_entry cfg k alctProc clctProc b hb, clctCentricState_eq]
    constructor
    · intro x
      rw [Option.some_inj, clctCall_matched_iff, centricStep_matched_iff_least _ _ _ _ hv']
      simp only [alctCandidate_iff cfg k alctProc clctProc]
    · intro hno c hc
      rw [centricStep_unmatched _ _ _ hv' (fun y h1 h2 hel =>
        hno y ((alctCandidate_iff cfg k alctProc clctProc _ _ _).2 ⟨h1, h2, hel⟩))] at hc
      by_cases he : (clctDirection cfg k alctProc clctProc).drivingEnable = true
      · simp only [he, if_true, Option.map_some', Option.some_inj, clctCall] at hc
        rw [← hc]; simp
      · simp [he] at hc
  · intro hb hv
    have hv' : (alctDirection cfg k alctProc clctProc).drivingValid b = true := hv
    rw [runAlctCentric_entry cfg k alctProc clctProc b hb, alctCentricState_eq]
    constructor
    · intro x
      rw [Option.some_inj, alctCall_matched_iff, centricStep_matched_iff_least _ _ _ _ hv']
      simp only [clctCandidate_iff cfg k alctProc clctProc]
    · intro hno c hc
      rw [centricStep_unmatched _ _ _ hv' (fun y h1 h2 hel =>
        hno y ((clctCandidate_iff cfg k alctProc clctProc _ _ _).2 ⟨h1, h2, hel⟩))] at hc
      by_cases he : (alctDirection cfg k alctProc clctProc).drivingEnable = true
      · simp only [he, if_true, Option.map_some', Option.some_inj, alctCall] at hc
        rw [← hc]; simp
      · simp [he] at hc

/-- Witness of C5: window size 7, offset 0. With CLCTs driving, bin 6 is valid and
the ALCTs at bins 5 (quality 1) and 7 (quality 3) are both in its window: bin 5 is
taken. With no ALCT at all the call for bin 6 is not a matched one. The same with
ALCTs driving. -/
theorem first_found_wins_witness :
    ((6 < stdConstants.MAX_CLCT_TBINS ∧ ((clctAt [6]).getBestCLCT (6 : Nat)).isValid = true) ∧
      (AlctCandidate stdConfig stdConstants alctLowThenHigh
          (clctCentricState stdConfig stdConstants alctLowThenHigh (clctAt [6]) 6).used_mask
          (6 : Nat) 5 ∧
        ∀ y, AlctCandidate stdConfig stdConstants alctLowThenHigh
          (clctCentricState stdConfig stdConstants alctLowThenHigh (clctAt [6]) 6).used_mask
          (6 : Nat) y → 5 ≤ y) ∧
      (∀ c, (runClctCentric stdConfig stdConstants (alctAt []) (clctAt [6]))[6]? = some (some c) →
        c.type ≠ LCTType.CLCTALCT)) ∧
    ((6 < stdConstants.MAX_ALCT_TBINS ∧ ((alctAt [6]).getBestALCT (6 : Nat)).isValid = true) ∧
      (ClctCandidate stdConfig stdConstants clctLowThenHigh
          (alctCentricState stdConfig stdConstants (alctAt [6]) clctLowThenHigh 6).used_mask
          (6 : Nat) 5 ∧
        ∀ y, ClctCandidate stdConfig stdConstants clctLowThenHigh
          (alctCentricState stdConfig stdConstants (alctAt [6]) clctLowThenHigh 6).used_mask
          (6 : Nat) y → 5 ≤ y) ∧
      (∀ c, (runAlctCentric stdConfig stdConstants (alctAt [6]) (clctAt []))[6]? = some (some c) →
        c.type ≠ LCTType.ALCTCLCT)) :=
  ⟨⟨⟨by decide, by decide⟩,
      (((first_found_wins stdConfig stdConstants alctLowThenHigh (clctAt [6]) 6).1
        (by decide) (by decide)).1 5).mp (by decide),
      ((first_found_wins stdConfig stdConstants (alctAt []) (clctAt [6]) 6).1
        (by decide) (by decide)).2
        (fun y h => by simp [AlctCandidate, alctAt, noALCT] at h)⟩,
   ⟨⟨by decide, by decide⟩,
      (((first_found_wins stdConfig stdConstants (alctAt [6]) clctLowThenHigh 6).2
        (by decide) (by decide)).1 5).mp (by decide),
      ((first_found_wins stdConfig stdConstants (alctAt [6]) (clctAt []) 6).2
        (by decide) (by decide)).2
        (fun y h => by simp [ClctCandidate, clctAt, noCLCT] at h)⟩⟩

/-! ## Invariants of the loop state -/

theorem runClctCentric_length (cfg : Config) (k : CSCConstants)
    (alctProc : CSCAnodeLCTProcessor) (clctProc : CSCCathodeLCTProcessor) :
    (runClctCentric cfg k alctProc clctProc).length = k.MAX_CLCT_TBINS := by
  rw [runClctCentric_eq_map, List.length_map, List.length_range']

theorem runAlctCentric_length (cfg : Config) (k : CSCConstants)
    (alctProc : CSCAnodeLCTProcessor) (clctProc : CSCCathodeLCTProcessor) :
    (runAlctCentric cfg k alctProc clctProc).length = k.MAX_ALCT_TBINS := by
  rw [runAlctCentric_eq_map, List.length_map, List.length_range']

theorem lt_length_of_getElem?_eq_some {α : Type} (l : List α) (i : Nat) (a : α)
    (h : l[i]? = some a) : i < l.length := by
  by_contra hn
  rw [List.getElem?_eq_none (by omega)] at h
  cases h

/-- A matched decision comes from a valid driving bin whose scan stopped at `x`;
the counter of `x` is incremented and the marker is set to `x`. -/
theorem centricStep_matched_inv (d : Direction) (st : LoopState) (b x : Int)
    (h : (centricStep d st b).2 = some (Decision.matched x)) :
    d.drivingValid b = true ∧ d.Eligible st.used_mask x ∧
      (centricStep d st b).1 = ⟨bumpMask st.used_mask x, x⟩ := by
  cases hv : d.drivingValid b with
  | false =>
    rw [centricStep_of_invalid d st b hv] at h
    (split_ifs at h; simp at h)
  | true =>
    refine ⟨rfl, ((centricStep_matched_iff d st b x hv).1 h).2.2.1, ?_⟩
    cases hs : windowScan d st.used_mask
        ((b + d.half + d.offset) - (b - d.half + d.offset) + 1).toNat
        (b - d.half + d.offset) with
    | none =>
      rw [centricStep_of_scan_none d st b hv hs] at h
      (split_ifs at h; simp at h)
    | some x' =>
      rw [centricStep_of_scan_some d st b x' hv hs] at h ⊢
      have hx : x' = x := by simpa using h
      rw [hx]

/-- A driving bin either leaves the loop state unchanged or is matched. -/
theorem centricStep_state_cases (d : Direction) (st : LoopState) (b : Int) :
    (centricStep d st b).1 = st ∨
      ∃ x, (centricStep d st b).2 = some (Decision.matched x) := by
  cases hv : d.drivingValid b with
  | false => left; rw [centricStep_of_invalid d st b hv]
  | true =>
    cases hs : windowScan d st.used_mask
        ((b + d.half + d.offset) - (b - d.half + d.offset) + 1).toNat
        (b - d.half + d.offset) with
    | none => left; rw [centricStep_of_scan_none d st b hv hs]
    | some x' => right; exact ⟨x', by rw [centricStep_of_scan_some d st b x' hv hs]⟩

theorem centricStep_mask_mono (d : Direction) (st : LoopState) (b x : Int) :
    st.used_mask x ≤ (centricStep d st b).1.used_mask x := by
  rcases centricStep_state_cases d st b with h | ⟨x', h⟩
  · rw [h]
  · rw [(centricStep_matched_inv d st b x' h).2.2]
    simp only [bumpMask]
    split_ifs <;> omega

theorem centricState_mask_mono (d : Direction) (x : Int) (b1 b2 : Nat) (h : b1 ≤ b2) :
    (centricState d b1).used_mask x ≤ (centricState d b2).used_mask x := by
  induction b2 with
  | zero =>
    have : b1 = 0 := by omega
    rw [this]
  | succ n ih =>
    by_cases hb : b1 = n + 1
    · rw [hb]
    · exact le_trans (ih (by omega)) (centricStep_mask_mono d (centricState d n) n x)

/-- With the drop-used policy every reuse counter stays in {0, 1}. -/
theorem centricState_mask_le_one (d : Direction) (hd : d.dropUsed = true) (b : Nat) (x : Int) :
    0 ≤ (centricState d b).used_mask x ∧ (centricState d b).used_mask x ≤ 1 := by
  induction b with
  | zero => simp [centricState, LoopState.init]
  | succ n ih =>
    simp only [centricState]
    rcases centricStep_state_cases d (centricState d n) n with h | ⟨x', h⟩
    · rw [h]; exact ih
    · obtain ⟨-, hel, hst⟩ := centricStep_matched_inv d (centricState d n) n x' h
      rw [hst]
      simp only [bumpMask]
      have h0 := hel.2.2.2 hd
      split_ifs with hx
      · rw [hx, h0]; omega
      · exact ih

/-- With the drop-used policy a bin of the other stream is matched at most once. -/
theorem centricStep_matched_unique (d : Direction) (hd : d.dropUsed = true) (b1 b2 : Nat)
    (x : Int)
    (h1 : (centricStep d (centricState d b1) b1).2 = some (Decision.matched x))
    (h2 : (centricStep d (centricState d b2) b2).2 = some (Decision.matched x)) :
    b1 = b2 := by
  have key : ∀ c1 c2 : Nat, c1 < c2 →
      (centricStep d (centricState d c1) c1).2 = some (Decision.matched x) →
      (centricStep d (centricState d c2) c2).2 = some (Decision.matched x) → False := by
    intro c1 c2 hlt g1 g2
    obtain ⟨-, -, hst⟩ := centricStep_matched_inv d _ _ x g1
    obtain ⟨-, hel, -⟩ := centricStep_matched_inv d _ _ x g2
    have hzero := hel.2.2.2 hd
    have hmono := centricState_mask_mono d x (c1 + 1) c2 (by omega)
    have hnn := (centricState_mask_le_one d hd c1 x).1
    have hbump : (centricState d (c1 + 1)).used_mask x = (centricState d c1).used_mask x + 1 := by
      simp only [centricState]
      rw [hst]
      simp [bumpMask]
    omega
  rcases lt_trichotomy b1 b2 with hlt | heq | hgt
  · exact absurd (key b1 b2 hlt h1 h2) id
  · exact heq
  · exact absurd (key b2 b1 hgt h2 h1) id

/-- As long as no driving bin was valid the loop state is the initial one. -/
theorem centricState_init_of_invalid (d : Direction) (b : Nat)
    (h : ∀ i : Nat, i < b → d.drivingValid i = false) :
    centricState d b = LoopState.init := by
  induction b with
  | zero => rfl
  | succ n ih =>
    simp only [centricState]
    rw [centricStep_of_invalid d _ _ (h n (by omega))]
    exact ih (fun i hi => h i (by omega))

theorem alctAt_valid_iff (x bx : Int) :
    ((alctAt [x]).getBestALCT bx).isValid = true ↔ bx = x := by
  by_cases h : bx = x <;> simp [alctAt, noALCT, h]

theorem clctAt_valid_iff (x bx : Int) :
    ((clctAt [x]).getBestCLCT bx).isValid = true ↔ bx = x := by
  by_cases h : bx = x <;> simp [clctAt, noCLCT, h]

/-- In the parameterised matcher, a lone valid driving bin `b` takes a lone
valid bin `x` of the other stream whenever `x` is in the window and in range. -/
theorem centricStep_lone_pair (d : Direction) (b : Nat) (x : Int)
    (hdrv : ∀ i : Int, d.drivingValid i = true ↔ i = b)
    (hoth : ∀ i : Int, d.otherValid i = true ↔ i = x)
    (h1 : (b : Int) - d.half + d.offset ≤ x) (h2 : x ≤ (b : Int) + d.half + d.offset)
    (h3 : 0 ≤ x) (h4 : x < d.maxOther) :
    (centricStep d (centricState d b) b).2 = some (Decision.matched x) := by
  have hinit : centricState d b = LoopState.init := by
    apply centricState_init_of_invalid
    intro i hi
    cases hv : d.drivingValid i with
    | false => rfl
    | true =>
      have := (hdrv i).1 hv
      omega
  rw [hinit, centricStep_matched_iff d _ _ _ ((hdrv b).2 rfl)]
  refine ⟨h1, h2, ⟨h3, h4, (hoth x).2 rfl, fun _ => rfl⟩, fun y _ hy2 hel => ?_⟩
  have := (hoth y).1 hel.2.2.1
  omega

/-- C6: the match window. With h = match_trig_window_size / 2 and
o = alctClctOffset_: when CLCTs drive, the ALCT bins that some input matches to
the driving bin `b` are exactly the bins `x` with b - h + o <= x <= b + h + o and
0 <= x < MAX_ALCT_TBINS; when ALCTs drive, the CLCT bins that some input matches
to the driving bin `b` are exactly the bins `x` with b - h - o <= x <= b + h - o
and 0 <= x < MAX_CLCT_TBINS. -/
theorem match_window (cfg : Config) (k : CSCConstants) (b : Nat) (x : Int) :
    (b < k.MAX_CLCT_TBINS →
      ((∃ (alctProc : CSCAnodeLCTProcessor) (clctProc : CSCCathodeLCTProcessor),
          (runClctCentric cfg k alctProc clctProc)[b]? = some (some ⟨x, b, LCTType.CLCTALCT⟩)) ↔
        ((b : Int) - ((cfg.match_trig_window_size / 2 : Nat) : Int) + cfg.alctClctOffset_ ≤ x ∧
          x ≤ (b : Int) + ((cfg.match_trig_window_size / 2 : Nat) : Int) + cfg.alctClctOffset_ ∧
          0 ≤ x ∧ x < (k.MAX_ALCT_TBINS : Int)))) ∧
    (b < k.MAX_ALCT_TBINS →
      ((∃ (alctProc : CSCAnodeLCTProcessor) (clctProc : CSCCathodeLCTProcessor),
          (runAlctCentric cfg k alctProc clctProc)[b]? = some (some ⟨b, x, LCTType.ALCTCLCT⟩)) ↔
        ((b : Int) - ((cfg.match_trig_window_size / 2 : Nat) : Int) - cfg.alctClctOffset_ ≤ x ∧
          x ≤ (b : Int) + ((cfg.match_trig_window_size / 2 : Nat) : Int) - cfg.alctClctOffset_ ∧
          0 ≤ x ∧ x < (k.MAX_CLCT_TBINS : Int)))) := by
  constructor
  · intro hb
    constructor
    · rintro ⟨alctProc, clctProc, h⟩
      rw [runClctCentric_entry cfg k alctProc clctProc b hb, Option.some_inj,
        clctCall_matched_iff] at h
      obtain ⟨hv, -, -⟩ := centricStep_matched_inv _ _ _ _ h
      obtain ⟨h1, h2, hel, -⟩ := (centricStep_matched_iff _ _ _ _ hv).1 h
      exact ⟨h1, h2, hel.1, hel.2.1⟩
    · rintro ⟨h1, h2, h3, h4⟩
      refine ⟨alctAt [x], clctAt [(b : Int)], ?_⟩
      rw [runClctCentric_entry cfg k _ _ b hb, Option.some_inj, clctCall_matched_iff]
      exact centricStep_lone_pair _ b x (fun i => clctAt_valid_iff b i)
        (fun i => alctAt_valid_iff x i) h1 h2 h3 h4
  · intro hb
    constructor
    · rintro ⟨alctProc, clctProc, h⟩
      rw [runAlctCentric_entry cfg k alctProc clctProc b hb, Option.some_inj,
        alctCall_matched_iff] at h
      obtain ⟨hv, -, -⟩ := centricStep_matched_inv _ _ _ _ h
      obtain ⟨h1, h2, hel, -⟩ := (centricStep_matched_iff _ _ _ _ hv).1 h
      simp only [alctDirection] at h1 h2
      exact ⟨by omega, by omega, hel.1, hel.2.1⟩
    · rintro ⟨h1, h2, h3, h4⟩
      refine ⟨alctAt [(b : Int)], clctAt [x], ?_⟩
      rw [runAlctCentric_entry cfg k _ _ b hb, Option.some_inj, alctCall_matched_iff]
      exact centricStep_lone_pair _ b x (fun i => alctAt_valid_iff b i)
        (fun i => clctAt_valid_iff x i) (by simp only [alctDirection]; omega)
        (by simp only [alctDirection]; omega) h3 h4

/-- Witness of C6: window size 7 and offset 0. The ALCT bin 5 can be matched to
the driving CLCT bin 6, and the CLCT bin 9 to the driving ALCT bin 6. -/
theorem match_window_witness :
    (6 < stdConstants.MAX_CLCT_TBINS ∧
      ∃ (alctProc : CSCAnodeLCTProcessor) (clctProc : CSCCathodeLCTProcessor),
        (runClctCentric stdConfig stdConstants alctProc clctProc)[6]?
          = some (some ⟨5, (6 : Nat), LCTType.CLCTALCT⟩)) ∧
    (6 < stdConstants.MAX_ALCT_TBINS ∧
      ∃ (alctProc : CSCAnodeLCTProcessor) (clctProc : CSCCathodeLCTProcessor),
        (runAlctCentric stdConfig stdConstants alctProc clctProc)[6]?
          = some (some ⟨(6 : Nat), 9, LCTType.ALCTCLCT⟩)) :=
  ⟨⟨by decide, ((match_window stdConfig stdConstants 6 5).1 (by decide)).2 (by decide)⟩,
   ⟨by decide, ((match_window stdConfig stdConstants 6 9).2 (by decide)).2 (by decide)⟩⟩

/-- C7: the reuse policy. With the drop-used flag of the matched-against stream
set, every reuse counter is at most 1 throughout the pass and no bin of that
stream is matched to two different driving bins; with the flag cleared there is
an input on which one bin of the other stream is matched to two different
driving bins of the same pass. Both driving directions. -/
theorem reuse_policy (cfg : Config) (k : CSCConstants) (alctProc : CSCAnodeLCTProcessor)
    (clctProc : CSCCathodeLCTProcessor) :
    (cfg.drop_used_alcts = true →
      (∀ (b : Nat) (x : Int), (clctCentricState cfg k alctProc clctProc b).used_mask x ≤ 1) ∧
      (∀ (b1 b2 : Nat) (x : Int),
        (runClctCentric cfg k alctProc clctProc)[b1]? = some (some ⟨x, b1, LCTType.CLCTALCT⟩) →
        (runClctCentric cfg k alctProc clctProc)[b2]? = some (some ⟨x, b2, LCTType.CLCTALCT⟩) →
        b1 = b2)) ∧
    (cfg.drop_used_clcts = true →
      (∀ (b : Nat) (x : Int), (alctCentricState cfg k alctProc clctProc b).used_mask x ≤ 1) ∧
      (∀ (b1 b2 : Nat) (x : Int),
        (runAlctCentric cfg k alctProc clctProc)[b1]? = some (some ⟨b1, x, LCTType.ALCTCLCT⟩) →
        (runAlctCentric cfg k alctProc clctProc)[b2]? = some (some ⟨b2, x, LCTType.ALCTCLCT⟩) →
        b1 = b2)) ∧
    (∃ (cfg0 : Config) (k0 : CSCConstants) (a0 : CSCAnodeLCTProcessor)
        (c0 : CSCCathodeLCTProcessor) (b1 b2 : Nat) (x : Int),
      cfg0.drop_used_alcts = false ∧ b1 ≠ b2 ∧
      (runClctCentric cfg0 k0 a0 c0)[b1]? = some (some ⟨x, b1, LCTType.CLCTALCT⟩) ∧
      (runClctCentric cfg0 k0 a0 c0)[b2]? = some (some ⟨x, b2, LCTType.CLCTALCT⟩)) ∧
    (∃ (cfg0 : Config) (k0 : CSCConstants) (a0 : CSCAnodeLCTProcessor)
        (c0 : CSCCathodeLCTProcessor) (b1 b2 : Nat) (x : Int),
      cfg0.drop_used_clcts = false ∧ b1 ≠ b2 ∧
      (runAlctCentric cfg0 k0 a0 c0)[b1]? = some (some ⟨b1, x, LCTType.ALCTCLCT⟩) ∧
      (runAlctCentric cfg0 k0 a0 c0)[b2]? = some (some ⟨b2, x, LCTType.ALCTCLCT⟩)) := by
  refine ⟨fun hd => ⟨fun b x => ?_, fun b1 b2 x h1 h2 => ?_⟩,
    fun hd => ⟨fun b x => ?_, fun b1 b2 x h1 h2 => ?_⟩, ?_, ?_⟩
  · rw [clctCentricState_eq]
    exact (centricState_mask_le_one _ hd b x).2
  · have hb1 := lt_length_of_getElem?_eq_some _ _ _ h1
    have hb2 := lt_length_of_getElem?_eq_some _ _ _ h2
    rw [runClctCentric_length] at hb1 hb2
    rw [runClctCentric_entry cfg k alctProc clctProc b1 hb1, Option.some_inj,
      clctCall_matched_iff] at h1
    rw [runClctCentric_entry cfg k alctProc clctProc b2 hb2, Option.some_inj,
      clctCall_matched_iff] at h2
    exact centricStep_matched_unique _ hd b1 b2 x h1 h2
  · rw [alctCentricState_eq]
    exact (centricState_mask_le_one _ hd b x).2
  · have hb1 := lt_length_of_getElem?_eq_some _ _ _ h1
    have hb2 := lt_length_of_getElem?_eq_some _ _ _ h2
    rw [runAlctCentric_length] at hb1 hb2
    rw [runAlctCentric_entry cfg k alctProc clctProc b1 hb1, Option.some_inj,
      alctCall_matched_iff] at h1
    rw [runAlctCentric_entry cfg k alctProc clctProc b2 hb2, Option.some_inj,
      alctCall_matched_iff] at h2
    exact centricStep_matched_unique _ hd b1 b2 x h1 h2
  · exact ⟨{ stdConfig with drop_used_alcts := false }, stdConstants, alctAt [5],
      clctAt [5, 6], 5, 6, 5, by decide, by decide, by decide, by decide⟩
  · exact ⟨{ stdConfig with drop_used_clcts := false }, stdConstants, alctAt [5, 6],
      clctAt [5], 5, 6, 5, by decide, by decide, by decide, by decide⟩

/-- Witness of C7: with both drop-used flags set (the default configuration),
ALCT at bin 5 and CLCTs at bins 5 and 6: when CLCTs drive, the ALCT bin 5 is
matched to the CLCT bin 5 only, so any driving bin matched to it is bin 5. -/
theorem reuse_policy_witness :
    (stdConfig.drop_used_alcts = true ∧
      (clctCentricState stdConfig stdConstants (alctAt [5]) (clctAt [5, 6]) 12).used_mask 5 ≤ 1 ∧
      (∀ b2 : Nat,
        (runClctCentric stdConfig stdConstants (alctAt [5]) (clctAt [5, 6]))[b2]?
          = some (some ⟨5, b2, LCTType.CLCTALCT⟩) → 5 = b2)) ∧
    (stdConfig.drop_used_clcts = true ∧
      (alctCentricState stdConfig stdConstants (alctAt [5, 6]) (clctAt [5]) 16).used_mask 5 ≤ 1 ∧
      (∀ b2 : Nat,
        (runAlctCentric stdConfig stdConstants (alctAt [5, 6]) (clctAt [5]))[b2]?
          = some (some ⟨b2, 5, LCTType.ALCTCLCT⟩) → 5 = b2)) :=
  ⟨⟨rfl,
      ((reuse_policy stdConfig stdConstants (alctAt [5]) (clctAt [5, 6])).1 rfl).1 12 5,
      fun b2 => ((reuse_policy stdConfig stdConstants (alctAt [5]) (clctAt [5, 6])).1 rfl).2
        5 b2 5 (by decide)⟩,
   ⟨rfl,
      ((reuse_policy stdConfig stdConstants (alctAt [5, 6]) (clctAt [5])).2.1 rfl).1 16 5,
      fun b2 => ((reuse_policy stdConfig stdConstants (alctAt [5, 6]) (clctAt [5])).2.1 rfl).2
        5 b2 5 (by decide)⟩⟩

/-- C8: the no-match fallback. For a driving bin `b` with a valid best primitive
and no candidate in its window, `correlateLCTs` is called exactly when the enable
flag of the driving kind is set, with both streams looked up at the index `b`
and the tag CLCTONLY when CLCTs drive, ALCTONLY when ALCTs drive; with the flag
clear no call is made for that bin. -/
theorem no_match_fallback (cfg : Config) (k : CSCConstants) (alctProc : CSCAnodeLCTProcessor)
    (clctProc : CSCCathodeLCTProcessor) (b : Nat) :
    (b < k.MAX_CLCT_TBINS → (clctProc.getBestCLCT b).isValid = true →
      (∀ y, ¬ AlctCandidate cfg k alctProc
        (clctCentricState cfg k alctProc clctProc b).used_mask b y) →
      (cfg.clct_trig_enable ≠ 0 →
        (runClctCentric cfg k alctProc clctProc)[b]? = some (some ⟨b, b, LCTType.CLCTONLY⟩)) ∧
      (cfg.clct_trig_enable = 0 →
        (runClctCentric cfg k alctProc clctProc)[b]? = some none)) ∧
    (b < k.MAX_ALCT_TBINS → (alctProc.getBestALCT b).isValid = true →
      (∀ y, ¬ ClctCandidate cfg k clctProc
        (alctCentricState cfg k alctProc clctProc b).used_mask b y) →
      (cfg.alct_trig_enable ≠ 0 →
        (runAlctCentric cfg k alctProc clctProc)[b]? = some (some ⟨b, b, LCTType.ALCTONLY⟩)) ∧
      (cfg.alct_trig_enable = 0 →
        (runAlctCentric cfg k alctProc clctProc)[b]? = some none)) := by
  constructor
  · intro hb hv hno
    have hv' : (clctDirection cfg k alctProc clctProc).drivingValid b = true := hv
    rw [runClctCentric_entry cfg k alctProc clctProc b hb]
    rw [clctCentricState_eq] at hno
    rw [centricStep_unmatched _ _ _ hv' (fun y h1 h2 hel =>
      hno y ((alctCandidate_iff cfg k alctProc clctProc _ _ _).2 ⟨h1, h2, hel⟩))]
    constructor
    · intro he
      simp [clctDirection, he, clctCall]
    · intro he
      simp [clctDirection, he]
  · intro hb hv hno
    have hv' : (alctDirection cfg k alctProc clctProc).drivingValid b = true := hv
    rw [runAlctCentric_entry cfg k alctProc clctProc b hb]
    rw [alctCentricState_eq] at hno
    rw [centricStep_unmatched _ _ _ hv' (fun y h1 h2 hel =>
      hno y ((clctCandidate_iff cfg k alctProc clctProc _ _ _).2 ⟨h1, h2, hel⟩))]
    constructor
    · intro he
      simp [alctDirection, he, alctCall]
    · intro he
      simp [alctDirection, he]

/-- Witness of C8: a lone valid CLCT at bin 6 and no ALCT (CLCTs driving), and a
lone valid ALCT at bin 6 and no CLCT (ALCTs driving), each with the enable flag
of the driving kind set and clear. -/
theorem no_match_fallback_witness :
    ((runClctCentric { stdConfig with clct_trig_enable := 1 } stdConstants (alctAt [])
        (clctAt [6]))[6]? = some (some ⟨(6 : Nat), (6 : Nat), LCTType.CLCTONLY⟩) ∧
      (runClctCentric stdConfig stdConstants (alctAt []) (clctAt [6]))[6]? = some none) ∧
    ((runAlctCentric { stdConfig with alct_trig_enable := 1 } stdConstants (alctAt [6])
        (clctAt []))[6]? = some (some ⟨(6 : Nat), (6 : Nat), LCTType.ALCTONLY⟩) ∧
      (runAlctCentric stdConfig stdConstants (alctAt [6]) (clctAt []))[6]? = some none) :=
  ⟨⟨((no_match_fallback { stdConfig with clct_trig_enable := 1 } stdConstants (alctAt [])
        (clctAt [6]) 6).1 (by decide) (by decide)
        (fun y h => by simp [AlctCandidate, alctAt, noALCT] at h)).1 (by decide),
      ((no_match_fallback stdConfig stdConstants (alctAt []) (clctAt [6]) 6).1
        (by decide) (by decide)
        (fun y h => by simp [AlctCandidate, alctAt, noALCT] at h)).2 rfl⟩,
   ⟨((no_match_fallback { stdConfig with alct_trig_enable := 1 } stdConstants (alctAt [6])
        (clctAt []) 6).2 (by decide) (by decide)
        (fun y h => by simp [ClctCandidate, clctAt, noCLCT] at h)).1 (by decide),
      ((no_match_fallback stdConfig stdConstants (alctAt [6]) (clctAt []) 6).2
        (by decide) (by decide)
        (fun y h => by simp [ClctCandidate, clctAt, noCLCT] at h)).2 rfl⟩⟩

/-- C9: the invalid-driving-bin fallback. For a driving bin `b` whose best
primitive is not valid, with x = b - match_trig_window_size / 2 (no offset), a
single-sided call of the opposite kind is made (opposite stream looked up at `x`,
tag ALCTONLY when CLCTs drive, CLCTONLY when ALCTs drive) if and only if x >= 0,
x is strictly greater than the last-matched marker, the opposite stream's best
primitive at x is valid and the opposite kind's enable flag is set; otherwise no
call is made for that bin. -/
theorem invalid_driving_fallback (cfg : Config) (k : CSCConstants)
    (alctProc : CSCAnodeLCTProcessor) (clctProc : CSCCathodeLCTProcessor) (b : Nat) :
    (b < k.MAX_CLCT_TBINS → (clctProc.getBestCLCT b).isValid = false →
      (((b : Int) - ((cfg.match_trig_window_size / 2 : Nat) : Int) ≥ 0 ∧
          (b : Int) - ((cfg.match_trig_window_size / 2 : Nat) : Int)
            > (clctCentricState cfg k alctProc clctProc b).bx_matched ∧
          (alctProc.getBestALCT
            ((b : Int) - ((cfg.match_trig_window_size / 2 : Nat) : Int))).isValid = true ∧
          cfg.alct_trig_enable ≠ 0) →
        (runClctCentric cfg k alctProc clctProc)[b]? = some (some
          ⟨(b : Int) - ((cfg.match_trig_window_size / 2 : Nat) : Int), b, LCTType.ALCTONLY⟩)) ∧
      (¬ ((b : Int) - ((cfg.match_trig_window_size / 2 : Nat) : Int) ≥ 0 ∧
          (b : Int) - ((cfg.match_trig_window_size / 2 : Nat) : Int)
            > (clctCentricState cfg k alctProc clctProc b).bx_matched ∧
          (alctProc.getBestALCT
            ((b : Int) - ((cfg.match_trig_window_size / 2 : Nat) : Int))).isValid = true ∧
          cfg.alct_trig_enable ≠ 0) →
        (runClctCentric cfg k alctProc clctProc)[b]? = some none)) ∧
    (b < k.MAX_ALCT_TBINS → (alctProc.getBestALCT b).isValid = false →
      (((b : Int) - ((cfg.match_trig_window_size / 2 : Nat) : Int) ≥ 0 ∧
          (b : Int) - ((cfg.match_trig_window_size / 2 : Nat) : Int)
            > (alctCentricState cfg k alctProc clctProc b).bx_matched ∧
          (clctProc.getBestCLCT
            ((b : Int) - ((cfg.match_trig_window_size / 2 : Nat) : Int))).isValid = true ∧
          cfg.clct_trig_enable ≠ 0) →
        (runAlctCentric cfg k alctProc clctProc)[b]? = some (some
          ⟨b, (b : Int) - ((cfg.match_trig_window_size / 2 : Nat) : Int), LCTType.CLCTONLY⟩)) ∧
      (¬ ((b : Int) - ((cfg.match_trig_window_size / 2 : Nat) : Int) ≥ 0 ∧
          (b : Int) - ((cfg.match_trig_window_size / 2 : Nat) : Int)
            > (alctCentricState cfg k alctProc clctProc b).bx_matched ∧
          (clctProc.getBestCLCT
            ((b : Int) - ((cfg.match_trig_window_size / 2 : Nat) : Int))).isValid = true ∧
          cfg.clct_trig_enable ≠ 0) →
        (runAlctCentric cfg k alctProc clctProc)[b]? = some none)) := by
  constructor
  · intro hb hv
    have hv' : (clctDirection cfg k alctProc clctProc).drivingValid b = false := hv
    rw [runClctCentric_entry cfg k alctProc clctProc b hb, clctCentricState_eq,
      centricStep_of_invalid _ _ _ hv']
    constructor
    · intro h
      rw [if_pos (by simpa [clctDirection] using h)]
      simp [clctCall, clctDirection]
    · intro h
      rw [if_neg (by simpa [clctDirection] using h)]
      rfl
  · intro hb hv
    have hv' : (alctDirection cfg k alctProc clctProc).drivingValid b = false := hv
    rw [runAlctCentric_entry cfg k alctProc clctProc b hb, alctCentricState_eq,
      centricStep_of_invalid _ _ _ hv']
    constructor
    · intro h
      rw [if_pos (by simpa [alctDirection] using h)]
      simp [alctCall, alctDirection]
    · intro h
      rw [if_neg (by simpa [alctDirection] using h)]
      rfl

/-- Witness of C9: window size 7, so x = b - 3. With CLCTs driving, ALCT-only
triggers enabled and a lone ALCT at bin 2, the invalid driving bin 5 makes the
ALCTONLY call for ALCT bin 2, and the invalid driving bin 6 makes no call. The
same with ALCTs driving and a lone CLCT at bin 2. -/
theorem invalid_driving_fallback_witness :
    ((runClctCentric { stdConfig with alct_trig_enable := 1 } stdConstants (alctAt [2])
        (clctAt []))[5]? = some (some ⟨(5 : Nat) - ((7 / 2 : Nat) : Int), (5 : Nat),
          LCTType.ALCTONLY⟩) ∧
      (runClctCentric { stdConfig with alct_trig_enable := 1 } stdConstants (alctAt [2])
        (clctAt []))[6]? = some none) ∧
    ((runAlctCentric { stdConfig with clct_trig_enable := 1 } stdConstants (alctAt [])
        (clctAt [2]))[5]? = some (some ⟨(5 : Nat), (5 : Nat) - ((7 / 2 : Nat) : Int),
          LCTType.CLCTONLY⟩) ∧
      (runAlctCentric { stdConfig with clct_trig_enable := 1 } stdConstants (alctAt [])
        (clctAt [2]))[6]? = some none) :=
  ⟨⟨((invalid_driving_fallback { stdConfig with alct_trig_enable := 1 } stdConstants
        (alctAt [2]) (clctAt []) 5).1 (by decide) (by decide)).1 (by decide),
      ((invalid_driving_fallback { stdConfig with alct_trig_enable := 1 } stdConstants
        (alctAt [2]) (clctAt []) 6).1 (by decide) (by decide)).2 (by decide)⟩,
   ⟨((invalid_driving_fallback { stdConfig with clct_trig_enable := 1 } stdConstants
        (alctAt []) (clctAt [2]) 5).2 (by decide) (by decide)).1 (by decide),
      ((invalid_driving_fallback { stdConfig with clct_trig_enable := 1 } stdConstants
        (alctAt []) (clctAt [2]) 6).2 (by decide) (by decide)).2 (by decide)⟩⟩

theorem exchangeCall_clctCall (b : Int) (r : Option Decision) :
    Option.map exchangeCall (Option.map (clctCall b) r) = Option.map (alctCall b) r := by
  rcases r with _ | (y | _ | y) <;> rfl

/-- The ALCT-centric parameters are the CLCT-centric parameters of the exchanged
configuration, constants and streams. -/
theorem alctDirection_eq_exchange (cfg : Config) (k : CSCConstants)
    (alctProc : CSCAnodeLCTProcessor) (clctProc : CSCCathodeLCTProcessor)
    (alctProc' : CSCAnodeLCTProcessor) (clctProc' : CSCCathodeLCTProcessor)
    (hA : ∀ bx, (alctProc'.getBestALCT bx).isValid = (clctProc.getBestCLCT bx).isValid)
    (hC : ∀ bx, (clctProc'.getBestCLCT bx).isValid = (alctProc.getBestALCT bx).isValid) :
    alctDirection cfg k alctProc clctProc
      = clctDirection (exchangeConfig cfg) (exchangeConstants k) alctProc' clctProc' := by
  have h1 : (fun bx => (alctProc.getBestALCT bx).isValid)
      = (fun bx => (clctProc'.getBestCLCT bx).isValid) := funext (fun bx => (hC bx).symm)
  have h2 : (fun bx => (clctProc.getBestCLCT bx).isValid)
      = (fun bx => (alctProc'.getBestALCT bx).isValid) := funext (fun bx => (hA bx).symm)
  simp only [alctDirection, clctDirection, exchangeConfig, exchangeConstants, h1, h2]

/-- C10: direction symmetry. The ALCT-centric branch run on the streams (A, C)
makes, driving bin by driving bin, the calls that the CLCT-centric branch makes
on the exchanged streams (the anode slot holding a stream valid where C is, the
cathode slot one valid where A is) with the offset negated, the enable flags and
the drop-used flags exchanged and the two bin ranges exchanged, once the two bin
arguments and the provenance tag of each call are exchanged; the reuse counters
and the last-matched marker agree at every driving bin. -/
theorem direction_symmetry (cfg : Config) (k : CSCConstants)
    (alctProc : CSCAnodeLCTProcessor) (clctProc : CSCCathodeLCTProcessor)
    (alctProc' : CSCAnodeLCTProcessor) (clctProc' : CSCCathodeLCTProcessor)
    (hA : ∀ bx, (alctProc'.getBestALCT bx).isValid = (clctProc.getBestCLCT bx).isValid)
    (hC : ∀ bx, (clctProc'.getBestCLCT bx).isValid = (alctProc.getBestALCT bx).isValid) :
    runAlctCentric cfg k alctProc clctProc
      = (runClctCentric (exchangeConfig cfg) (exchangeConstants k) alctProc' clctProc').map
          (Option.map exchangeCall) ∧
    ∀ b : Nat, alctCentricState cfg k alctProc clctProc b
      = clctCentricState (exchangeConfig cfg) (exchangeConstants k) alctProc' clctProc' b := by
  have hd := alctDirection_eq_exchange cfg k alctProc clctProc alctProc' clctProc' hA hC
  constructor
  · rw [runAlctCentric_eq_map, runClctCentric_eq_map, List.map_map, hd]
    have hk : (exchangeConstants k).MAX_CLCT_TBINS = k.MAX_ALCT_TBINS := rfl
    rw [hk]
    apply List.map_congr_left
    intro i _
    simp only [Function.comp_apply, exchangeCall_clctCall]
  · intro b
    rw [alctCentricState_eq, clctCentricState_eq, hd]

/-- Witness of C10: ALCT at bin 5 and CLCT at bin 6 with ALCTs driving, against
ALCT at bin 6 and CLCT at bin 5 with CLCTs driving on the exchanged default
configuration. -/
theorem direction_symmetry_witness :
    runAlctCentric stdConfig stdConstants (alctAt [5]) (clctAt [6])
      = (runClctCentric (exchangeConfig stdConfig) (exchangeConstants stdConstants)
          (alctAt [6]) (clctAt [5])).map (Option.map exchangeCall) ∧
    ∀ b : Nat, alctCentricState stdConfig stdConstants (alctAt [5]) (clctAt [6]) b
      = clctCentricState (exchangeConfig stdConfig) (exchangeConstants stdConstants)
          (alctAt [6]) (clctAt [5]) b :=
  direction_symmetry stdConfig stdConstants (alctAt [5]) (clctAt [6]) (alctAt [6]) (clctAt [5])
    (fun bx => by by_cases h : bx = 6 <;> simp [alctAt, clctAt, noALCT, noCLCT, h])
    (fun bx => by by_cases h : bx = 5 <;> simp [alctAt, clctAt, noALCT, noCLCT, h])

/-! ## Matched pairs of the two driving directions -/

theorem windowScan_congr (d : Direction) (m1 m2 : Int → Int) (n : Nat) (s : Int)
    (h : ∀ y, s ≤ y → (d.Eligible m1 y ↔ d.Eligible m2 y)) :
    windowScan d m1 n s = windowScan d m2 n s := by
  induction n generalizing s with
  | zero => rfl
  | succ n ih =>
    by_cases he : d.Eligible m1 s
    · rw [windowScan_succ_eligible d m1 n s he,
        windowScan_succ_eligible d m2 n s ((h s (le_refl _)).1 he)]
    · rw [windowScan_succ_not_eligible d m1 n s he,
        windowScan_succ_not_eligible d m2 n s (fun h2 => he ((h s (le_refl _)).2 h2))]
      exact ih (s + 1) (fun y hy => h y (by omega))

theorem eligible_bumpMask (d : Direction) (hd : d.dropUsed = true) (m : Int → Int) (x y : Int)
    (hx : d.Eligible m x) :
    d.Eligible (bumpMask m x) y ↔ (d.Eligible m y ∧ y ≠ x) := by
  have h0 : m x = 0 := hx.2.2.2 hd
  unfold Direction.Eligible bumpMask
  by_cases hyx : y = x
  · subst hyx
    simp [hd, h0]
  · simp [hyx]

theorem greedyPairs_succ_invalid (d : Direction) (n : Nat) (b : Int) (m : Int → Int)
    (hv : d.drivingValid b = false) :
    greedyPairs d (n + 1) b m = greedyPairs d n (b + 1) m := by
  rw [greedyPairs]
  simp [hv]

theorem greedyPairs_succ_some (d : Direction) (n : Nat) (b x : Int) (m : Int → Int)
    (hv : d.drivingValid b = true)
    (hs : windowScan d m ((b + d.half + d.offset) - (b - d.half + d.offset) + 1).toNat
      (b - d.half + d.offset) = some x) :
    greedyPairs d (n + 1) b m = (x, b) :: greedyPairs d n (b + 1) (bumpMask m x) := by
  rw [greedyPairs, if_pos hv, hs]

theorem greedyPairs_succ_none (d : Direction) (n : Nat) (b : Int) (m : Int → Int)
    (hs : windowScan d m ((b + d.half + d.offset) - (b - d.half + d.offset) + 1).toNat
      (b - d.half + d.offset) = none) :
    greedyPairs d (n + 1) b m = greedyPairs d n (b + 1) m := by
  rw [greedyPairs, hs]
  simp

/-- Two sets of reuse counters that make the same bins eligible, except possibly
a bin that lies before every remaining window, give the same matched pairs. -/
theorem greedyPairs_congr (d : Direction) (hd : d.dropUsed = true) (x0 : Int) (n : Nat) (b : Int)
    (m1 m2 : Int → Int) (hx0 : x0 < b - d.half + d.offset)
    (h : ∀ y, y ≠ x0 → (d.Eligible m1 y ↔ d.Eligible m2 y)) :
    greedyPairs d n b m1 = greedyPairs d n b m2 := by
  induction n generalizing b m1 m2 with
  | zero => rfl
  | succ n ih =>
    have hs : windowScan d m1 ((b + d.half + d.offset) - (b - d.half + d.offset) + 1).toNat
        (b - d.half + d.offset)
        = windowScan d m2 ((b + d.half + d.offset) - (b - d.half + d.offset) + 1).toNat
        (b - d.half + d.offset) :=
      windowScan_congr d m1 m2 _ _ (fun y hy => h y (by omega))
    cases hv : d.drivingValid b with
    | false =>
      rw [greedyPairs_succ_invalid d n b m1 hv, greedyPairs_succ_invalid d n b m2 hv]
      exact ih (b + 1) m1 m2 (by omega) h
    | true =>
      cases hs2 : windowScan d m2 ((b + d.half + d.offset) - (b - d.half + d.offset) + 1).toNat
          (b - d.half + d.offset) with
      | none =>
        rw [greedyPairs_succ_none d n b m1 (hs.trans hs2), greedyPairs_succ_none d n b m2 hs2]
        exact ih (b + 1) m1 m2 (by omega) h
      | some x =>
        rw [greedyPairs_succ_some d n b x m1 hv (hs.trans hs2),
          greedyPairs_succ_some d n b x m2 hv hs2]
        have hx := (windowScan_eq_some_iff d m2 _ _ x).1 hs2
        have hx2 : d.Eligible m2 x := hx.2.2.1
        have hne : x ≠ x0 := by omega
        have hx1 : d.Eligible m1 x := (h x hne).2 hx2
        congr 1
        apply ih (b + 1) _ _ (by omega)
        intro y hy
        rw [eligible_bumpMask d hd m1 x y hx1, eligible_bumpMask d hd m2 x y hx2, h y hy]

theorem eligible_ptrMask (d : Direction) (hd : d.dropUsed = true) (p y : Int) :
    d.Eligible (ptrMask p) y ↔ (0 ≤ y ∧ y < d.maxOther ∧ d.otherValid y = true ∧ p ≤ y) := by
  unfold Direction.Eligible ptrMask
  by_cases hy : y < p
  · simp [hd, hy]
  · simp only [hy, if_false, implies_true]
    constructor
    · rintro ⟨h1, h2, h3, -⟩; exact ⟨h1, h2, h3, by omega⟩
    · rintro ⟨h1, h2, h3, -⟩; exact ⟨h1, h2, h3, trivial⟩

theorem bumpMask_ptrMask (p : Int) : bumpMask (ptrMask p) p = ptrMask (p + 1) := by
  funext y
  unfold bumpMask ptrMask
  by_cases h1 : y = p
  · subst h1; simp
  · by_cases h2 : y < p
    · have : y < p + 1 := by omega
      simp [h1, h2, this]
    · have : ¬ y < p + 1 := by omega
      simp [h1, h2, this]

/-- When every bin of the other stream is used, nothing is matched. -/
theorem greedyPairs_ptr_exhausted (d : Direction) (hd : d.dropUsed = true) (p : Int)
    (hp : d.maxOther ≤ p) (n : Nat) (b : Int) : greedyPairs d n b (ptrMask p) = [] := by
  induction n generalizing b with
  | zero => rfl
  | succ n ih =>
    rw [greedyPairs_succ_none d n b _ ?_]
    · exact ih (b + 1)
    · rw [windowScan_eq_none_iff]
      intro y _ _ hel
      have := (eligible_ptrMask d hd p y).1 hel
      omega

/-- The pointer moves over a bin whose best primitive is not valid. -/
theorem greedyPairs_ptr_skip (d : Direction) (hd : d.dropUsed = true) (p : Int)
    (hinv : d.otherValid p = false) (n : Nat) (b : Int) :
    greedyPairs d n b (ptrMask p) = greedyPairs d n b (ptrMask (p + 1)) := by
  apply greedyPairs_congr d hd (b - d.half + d.offset - 1) n b _ _ (by omega)
  intro y _
  rw [eligible_ptrMask d hd, eligible_ptrMask d hd]
  constructor
  · rintro ⟨h1, h2, h3, h4⟩
    have : y ≠ p := fun h => by rw [h, hinv] at h3; cases h3
    exact ⟨h1, h2, h3, by omega⟩
  · rintro ⟨h1, h2, h3, h4⟩
    exact ⟨h1, h2, h3, by omega⟩

/-- The pointer moves over a bin that lies before every remaining window. -/
theorem greedyPairs_ptr_dead (d : Direction) (hd : d.dropUsed = true) (p : Int) (n : Nat)
    (b : Int) (hdead : p < b - d.half + d.offset) :
    greedyPairs d n b (ptrMask p) = greedyPairs d n b (ptrMask (p + 1)) := by
  apply greedyPairs_congr d hd p n b _ _ hdead
  intro y hy
  rw [eligible_ptrMask d hd, eligible_ptrMask d hd]
  constructor
  · rintro ⟨h1, h2, h3, h4⟩; exact ⟨h1, h2, h3, by omega⟩
  · rintro ⟨h1, h2, h3, h4⟩; exact ⟨h1, h2, h3, by omega⟩

/-- A valid driving bin whose window holds the pointer bin, valid and in range,
takes it. -/
theorem greedyPairs_ptr_match (d : Direction) (hd : d.dropUsed = true) (p : Int) (n : Nat)
    (b : Int) (hv : d.drivingValid b = true) (hp : d.otherValid p = true)
    (h0 : 0 ≤ p) (h1 : p < d.maxOther)
    (hw1 : b - d.half + d.offset ≤ p) (hw2 : p ≤ b + d.half + d.offset) :
    greedyPairs d (n + 1) b (ptrMask p) = (p, b) :: greedyPairs d n (b + 1) (ptrMask (p + 1)) := by
  rw [greedyPairs_succ_some d n b p _ hv ?_, bumpMask_ptrMask]
  rw [windowScan_eq_some_iff]
  refine ⟨hw1, by omega, (eligible_ptrMask d hd p p).2 ⟨h0, h1, hp, le_refl _⟩, ?_⟩
  intro y _ hy2 hel
  have := (eligible_ptrMask d hd p y).1 hel
  omega

/-- A driving bin whose window ends before the pointer is not matched. -/
theorem greedyPairs_ptr_late (d : Direction) (hd : d.dropUsed = true) (p : Int) (n : Nat)
    (b : Int) (hlate : b + d.half + d.offset < p) :
    greedyPairs d (n + 1) b (ptrMask p) = greedyPairs d n (b + 1) (ptrMask p) := by
  apply greedyPairs_succ_none
  rw [windowScan_eq_none_iff]
  intro y _ hy2 hel
  have := (eligible_ptrMask d hd p y).1 hel
  omega

/-- The initial counters and the pointer at bin 0 make the same bins eligible. -/
theorem greedyPairs_init (d : Direction) (hd : d.dropUsed = true) (n : Nat) (b : Int) :
    greedyPairs d n b LoopState.init.used_mask = greedyPairs d n b (ptrMask 0) := by
  apply greedyPairs_congr d hd (b - d.half + d.offset - 1) n b _ _ (by omega)
  intro y _
  rw [eligible_ptrMask d hd]
  unfold Direction.Eligible LoopState.init
  simp only [implies_true, and_true]
  constructor
  · rintro ⟨h1, h2, h3⟩; exact ⟨h1, h2, h3, h1⟩
  · rintro ⟨h1, h2, h3, -⟩; exact ⟨h1, h2, h3⟩

/-- With used primitives dropped in both directions, the matcher driven by one
stream and the matcher driven by the other stream (offset negated) pair the same
bins: both advance two pointers over the two streams in step. -/
theorem greedyPairs_symm (d1 d2 : Direction) (hd1 : d1.dropUsed = true)
    (hd2 : d2.dropUsed = true) (N1 N2 : Nat)
    (hm1 : d1.maxOther = N2) (hm2 : d2.maxOther = N1)
    (hh : d2.half = d1.half) (ho : d2.offset = -d1.offset)
    (hv1 : ∀ y, d2.otherValid y = d1.drivingValid y)
    (hv2 : ∀ y, d2.drivingValid y = d1.otherValid y) (m : Nat) :
    ∀ i j : Nat, (N2 - i) + (N1 - j) ≤ m → ∀ x y : Int,
      ((x, y) ∈ greedyPairs d1 (N1 - j) j (ptrMask i) ↔
        (y, x) ∈ greedyPairs d2 (N2 - i) i (ptrMask j)) := by
  induction m with
  | zero =>
    intro i j hm x y
    have h1 : N1 - j = 0 := by omega
    have h2 : N2 - i = 0 := by omega
    rw [h1, h2]
    simp [greedyPairs]
  | succ m ih =>
    intro i j hm x y
    by_cases hj : N1 ≤ j
    · have h1 : N1 - j = 0 := by omega
      rw [h1, greedyPairs_ptr_exhausted d2 hd2 j (by rw [hm2]; exact_mod_cast hj)]
      simp [greedyPairs]
    by_cases hi : N2 ≤ i
    · have h2 : N2 - i = 0 := by omega
      rw [h2, greedyPairs_ptr_exhausted d1 hd1 i (by rw [hm1]; exact_mod_cast hi)]
      simp [greedyPairs]
    have e1 : N1 - j = (N1 - (j + 1)) + 1 := by omega
    have e2 : N2 - i = (N2 - (i + 1)) + 1 := by omega
    have c1 : ((j : Int) + 1) = ((j + 1 : Nat) : Int) := by push_cast; rfl
    have c2 : ((i : Int) + 1) = ((i + 1 : Nat) : Int) := by push_cast; rfl
    cases hvj : d1.drivingValid j with
    | false =>
      rw [e1, greedyPairs_succ_invalid d1 _ j _ hvj,
        greedyPairs_ptr_skip d2 hd2 j (by rw [hv1, hvj]), c1]
      exact ih i (j + 1) (by omega) x y
    | true =>
      cases hvi : d1.otherValid i with
      | false =>
        rw [e2, greedyPairs_succ_invalid d2 _ i _ (by rw [hv2, hvi]),
          greedyPairs_ptr_skip d1 hd1 i hvi, c2]
        exact ih (i + 1) j (by omega) x y
      | true =>
        by_cases hearly : (i : Int) < j - d1.half + d1.offset
        · rw [greedyPairs_ptr_dead d1 hd1 i _ j hearly, e2,
            greedyPairs_ptr_late d2 hd2 j _ i (by rw [hh, ho]; omega), c2]
          exact ih (i + 1) j (by omega) x y
        by_cases hlate : (j : Int) + d1.half + d1.offset < i
        · rw [e1, greedyPairs_ptr_late d1 hd1 i _ j hlate,
            greedyPairs_ptr_dead d2 hd2 j _ i (by rw [hh, ho]; omega), c1]
          exact ih i (j + 1) (by omega) x y
        rw [e1, greedyPairs_ptr_match d1 hd1 i _ j hvj hvi (by omega)
            (by rw [hm1]; exact_mod_cast (by omega : i < N2)) (by omega) (by omega),
          e2, greedyPairs_ptr_match d2 hd2 j _ i (by rw [hv2, hvi]) (by rw [hv1, hvj]) (by omega)
            (by rw [hm2]; exact_mod_cast (by omega : j < N1)) (by rw [hh, ho]; omega)
            (by rw [hh, ho]; omega),
          c1, c2, List.mem_cons, List.mem_cons, ih (i + 1) (j + 1) (by omega) x y]
        constructor
        · rintro (h | h)
          · left; cases h; rfl
          · right; exact h
        · rintro (h | h)
          · left; cases h; rfl
          · right; exact h

theorem mem_matchedPairs (l : List (Option CorrelateCall)) (p : Int × Int) :
    p ∈ matchedPairs l ↔
      ∃ c, some c ∈ l ∧ (c.type = LCTType.CLCTALCT ∨ c.type = LCTType.ALCTCLCT) ∧
        p = (c.bx_alct, c.bx_clct) := by
  induction l with
  | nil => simp [matchedPairs]
  | cons a rest ih =>
    cases a with
    | none =>
      simp only [matchedPairs, ih, List.mem_cons]
      constructor
      · rintro ⟨c, h1, h2⟩; exact ⟨c, Or.inr h1, h2⟩
      · rintro ⟨c, h1 | h1, h2⟩
        · cases h1
        · exact ⟨c, h1, h2⟩
    | some c0 =>
      by_cases ht : c0.type = LCTType.CLCTALCT ∨ c0.type = LCTType.ALCTCLCT
      · simp only [matchedPairs, if_pos ht, List.mem_cons, ih]
        constructor
        · rintro (h | ⟨c, h1, h2⟩)
          · exact ⟨c0, Or.inl rfl, ht, h⟩
          · exact ⟨c, Or.inr h1, h2⟩
        · rintro ⟨c, h1 | h1, h2, h3⟩
          · left
            have : c = c0 := by simpa using h1
            rw [← this]; exact h3
          · exact Or.inr ⟨c, h1, h2, h3⟩
      · simp only [matchedPairs, if_neg ht, List.mem_cons, ih]
        constructor
        · rintro ⟨c, h1, h2⟩; exact ⟨c, Or.inr h1, h2⟩
        · rintro ⟨c, h1 | h1, h2, h3⟩
          · have : c = c0 := by simpa using h1
            rw [this] at h2
            exact absurd h2 ht
          · exact ⟨c, h1, h2, h3⟩

/-- The pairs of `greedyPairs`, started from the loop state of a driving bin, are
the matched decisions of the following driving bins. -/
theorem mem_greedyPairs_centricState (d : Direction) (n b0 : Nat) (x y : Int) :
    (x, y) ∈ greedyPairs d n b0 (centricState d b0).used_mask ↔
      ∃ b : Nat, y = b ∧ b0 ≤ b ∧ b < b0 + n ∧
        (centricStep d (centricState d b) b).2 = some (Decision.matched x) := by
  induction n generalizing b0 with
  | zero =>
    simp only [greedyPairs, List.not_mem_nil, false_iff]
    rintro ⟨b, -, h1, h2, -⟩
    omega
  | succ n ih =>
    have c1 : ((b0 : Int) + 1) = ((b0 + 1 : Nat) : Int) := by push_cast; rfl
    have key : ∀ (rest : Prop),
        (rest ↔ ∃ b : Nat, y = b ∧ b0 + 1 ≤ b ∧ b < b0 + 1 + n ∧
          (centricStep d (centricState d b) b).2 = some (Decision.matched x)) →
        (((centricStep d (centricState d b0) b0).2 = some (Decision.matched x) ∧ y = b0) ∨ rest ↔
          ∃ b : Nat, y = b ∧ b0 ≤ b ∧ b < b0 + (n + 1) ∧
            (centricStep d (centricState d b) b).2 = some (Decision.matched x)) := by
      intro rest hrest
      rw [hrest]
      constructor
      · rintro (⟨h1, h2⟩ | ⟨b, h1, h2, h3, h4⟩)
        · exact ⟨b0, h2, le_refl _, by omega, h1⟩
        · exact ⟨b, h1, by omega, by omega, h4⟩
      · rintro ⟨b, h1, h2, h3, h4⟩
        by_cases hb : b = b0
        · left; subst hb; exact ⟨h4, h1⟩
        · right; exact ⟨b, h1, by omega, by omega, h4⟩
    cases hv : d.drivingValid b0 with
    | false =>
      rw [greedyPairs_succ_invalid d n b0 _ hv, c1]
      have hst : centricState d (b0 + 1) = centricState d b0 := by
        simp only [centricState]
        rw [centricStep_of_invalid d _ _ hv]
      rw [← hst, ← key _ (ih (b0 + 1))]
      constructor
      · intro h; exact Or.inr h
      · rintro (⟨h1, -⟩ | h)
        · rw [centricStep_of_invalid d _ _ hv] at h1
          split_ifs at h1
          cases h1
        · exact h
    | true =>
      cases hs : windowScan d (centricState d b0).used_mask
          (((b0 : Int) + d.half + d.offset) - ((b0 : Int) - d.half + d.offset) + 1).toNat
          ((b0 : Int) - d.half + d.offset) with
      | none =>
        rw [greedyPairs_succ_none d n b0 _ hs, c1]
        have hst : centricState d (b0 + 1) = centricState d b0 := by
          simp only [centricState]
          rw [centricStep_of_scan_none d _ _ hv hs]
        rw [← hst, ← key _ (ih (b0 + 1))]
        constructor
        · intro h; exact Or.inr h
        · rintro (⟨h1, -⟩ | h)
          · rw [centricStep_of_scan_none d _ _ hv hs] at h1
            split_ifs at h1
            cases h1
          · exact h
      | some x' =>
        rw [greedyPairs_succ_some d n b0 x' _ hv hs, c1]
        have hst : (centricState d (b0 + 1)).used_mask
            = bumpMask (centricState d b0).used_mask x' := by
          simp only [centricState]
          rw [centricStep_of_scan_some d _ _ x' hv hs]
        rw [← hst, List.mem_cons, ← key _ (ih (b0 + 1)),
          centricStep_of_scan_some d _ _ x' hv hs]
        constructor
        · rintro (h | h)
          · left
            cases h
            exact ⟨rfl, rfl⟩
          · exact Or.inr h
        · rintro (⟨h1, h2⟩ | h)
          · left
            have : x' = x := by simpa using h1
            rw [this, h2]
          · exact Or.inr h

theorem clctCall_type_matched (b : Int) (dec : Decision) (c : CorrelateCall)
    (h : clctCall b dec = c) (ht : c.type = LCTType.CLCTALCT ∨ c.type = LCTType.ALCTCLCT) :
    dec = Decision.matched c.bx_alct ∧ c.bx_clct = b := by
  subst h
  cases dec <;> simp [clctCall] at ht ⊢

theorem alctCall_type_matched (b : Int) (dec : Decision) (c : CorrelateCall)
    (h : alctCall b dec = c) (ht : c.type = LCTType.CLCTALCT ∨ c.type = LCTType.ALCTCLCT) :
    dec = Decision.matched c.bx_clct ∧ c.bx_alct = b := by
  subst h
  cases dec <;> simp [alctCall] at ht ⊢

/-- The matched pairs of the CLCT-centric branch are the pairs of the
parameterised matcher. -/
theorem mem_matchedPairs_runClctCentric (cfg : Config) (k : CSCConstants)
    (alctProc : CSCAnodeLCTProcessor) (clctProc : CSCCathodeLCTProcessor) (a c : Int) :
    (a, c) ∈ matchedPairs (runClctCentric cfg k alctProc clctProc) ↔
      (a, c) ∈ greedyPairs (clctDirection cfg k alctProc clctProc) k.MAX_CLCT_TBINS (0 : Nat)
        (centricState (clctDirection cfg k alctProc clctProc) 0).used_mask := by
  rw [mem_greedyPairs_centricState, mem_matchedPairs, runClctCentric_eq_map]
  constructor
  · rintro ⟨call, hmem, ht, hp⟩
    rw [List.mem_map] at hmem
    obtain ⟨i, hi, hcall⟩ := hmem
    rw [List.mem_range'_1] at hi
    rw [Option.map_eq_some'] at hcall
    obtain ⟨dec, hdec, hc⟩ := hcall
    obtain ⟨h1, h2⟩ := clctCall_type_matched i dec call hc ht
    cases hp
    exact ⟨i, h2, by omega, by omega, by rw [hdec, h1]⟩
  · rintro ⟨b, h1, h2, h3, h4⟩
    refine ⟨⟨a, b, LCTType.CLCTALCT⟩, ?_, Or.inl rfl, by rw [h1]⟩
    rw [List.mem_map]
    exact ⟨b, by rw [List.mem_range'_1]; omega, by rw [h4]; rfl⟩

/-- The matched pairs of the ALCT-centric branch are the pairs of the
parameterised matcher, which lists the driving bin second. -/
theorem mem_matchedPairs_runAlctCentric (cfg : Config) (k : CSCConstants)
    (alctProc : CSCAnodeLCTProcessor) (clctProc : CSCCathodeLCTProcessor) (a c : Int) :
    (a, c) ∈ matchedPairs (runAlctCentric cfg k alctProc clctProc) ↔
      (c, a) ∈ greedyPairs (alctDirection cfg k alctProc clctProc) k.MAX_ALCT_TBINS (0 : Nat)
        (centricState (alctDirection cfg k alctProc clctProc) 0).used_mask := by
  rw [mem_greedyPairs_centricState, mem_matchedPairs, runAlctCentric_eq_map]
  constructor
  · rintro ⟨call, hmem, ht, hp⟩
    rw [List.mem_map] at hmem
    obtain ⟨i, hi, hcall⟩ := hmem
    rw [List.mem_range'_1] at hi
    rw [Option.map_eq_some'] at hcall
    obtain ⟨dec, hdec, hc⟩ := hcall
    obtain ⟨h1, h2⟩ := alctCall_type_matched i dec call hc ht
    cases hp
    exact ⟨i, h2, by omega, by omega, by rw [hdec, h1]⟩
  · rintro ⟨b, h1, h2, h3, h4⟩
    refine ⟨⟨b, c, LCTType.ALCTCLCT⟩, ?_, Or.inr rfl, by rw [h1]⟩
    rw [List.mem_map]
    exact ⟨b, by rw [List.mem_range'_1]; omega, by rw [h4]; rfl⟩

/-- C11 (as stated, refuted): window size 7, offset 0. With both drop-used flags
cleared, or with only `drop_used_clcts` cleared, ALCTs at bins 5 and 7 and a CLCT
at bin 6: the ALCT-centric branch matches the pair (7, 6), the CLCT-centric
branch does not. With only `drop_used_alcts` cleared, an ALCT at bin 6 and CLCTs
at bins 5 and 7: the CLCT-centric branch matches the pair (6, 7), the
ALCT-centric branch does not. -/
theorem outcome_symmetry_counterexample :
    (((7 : Int), (6 : Int)) ∈ matchedPairs (runAlctCentric
        { stdConfig with drop_used_alcts := false, drop_used_clcts := false }
        stdConstants (alctAt [5, 7]) (clctAt [6])) ∧
      ((7 : Int), (6 : Int)) ∉ matchedPairs (runClctCentric
        { stdConfig with drop_used_alcts := false, drop_used_clcts := false }
        stdConstants (alctAt [5, 7]) (clctAt [6]))) ∧
    (((7 : Int), (6 : Int)) ∈ matchedPairs (runAlctCentric
        { stdConfig with drop_used_clcts := false }
        stdConstants (alctAt [5, 7]) (clctAt [6])) ∧
      ((7 : Int), (6 : Int)) ∉ matchedPairs (runClctCentric
        { stdConfig with drop_used_clcts := false }
        stdConstants (alctAt [5, 7]) (clctAt [6]))) ∧
    (((6 : Int), (7 : Int)) ∈ matchedPairs (runClctCentric
        { stdConfig with drop_used_alcts := false }
        stdConstants (alctAt [6]) (clctAt [5, 7])) ∧
      ((6 : Int), (7 : Int)) ∉ matchedPairs (runAlctCentric
        { stdConfig with drop_used_alcts := false }
        stdConstants (alctAt [6]) (clctAt [5, 7]))) := by
  refine ⟨⟨?_, ?_⟩, ⟨?_, ?_⟩, ⟨?_, ?_⟩⟩ <;> decide

/-- C11 (amended): when both drop-used flags are set, for every input, window
size and offset, a pair (ALCT bin, CLCT bin) is matched by the CLCT-centric
branch of `run` if and only if it is matched by the ALCT-centric branch on the
same input and configuration. -/
theorem outcome_symmetry (cfg : Config) (k : CSCConstants) (alctProc : CSCAnodeLCTProcessor)
    (clctProc : CSCCathodeLCTProcessor)
    (hA : cfg.drop_used_alcts = true) (hC : cfg.drop_used_clcts = true) (p : Int × Int) :
    p ∈ matchedPairs (runClctCentric cfg k alctProc clctProc) ↔
      p ∈ matchedPairs (runAlctCentric cfg k alctProc clctProc) := by
  obtain ⟨a, c⟩ := p
  rw [mem_matchedPairs_runClctCentric, mem_matchedPairs_runAlctCentric]
  have h1 := greedyPairs_init (clctDirection cfg k alctProc clctProc) hA k.MAX_CLCT_TBINS (0 : Nat)
  have h2 := greedyPairs_init (alctDirection cfg k alctProc clctProc) hC k.MAX_ALCT_TBINS (0 : Nat)
  simp only [centricState]
  rw [h1, h2]
  have key := greedyPairs_symm (clctDirection cfg k alctProc clctProc)
    (alctDirection cfg k alctProc clctProc) hA hC k.MAX_CLCT_TBINS k.MAX_ALCT_TBINS
    rfl rfl rfl rfl (fun _ => rfl) (fun _ => rfl)
    (k.MAX_ALCT_TBINS + k.MAX_CLCT_TBINS) 0 0 (by omega) a c
  simpa using key

/-- Witness of C11 (amended): the default configuration has both drop-used flags
set; with ALCTs at bins 5 and 7 and a CLCT at bin 6 both branches match exactly
the pair (5, 6). -/
theorem outcome_symmetry_witness :
    (stdConfig.drop_used_alcts = true ∧ stdConfig.drop_used_clcts = true) ∧
    (((5 : Int), (6 : Int)) ∈ matchedPairs
        (runAlctCentric stdConfig stdConstants (alctAt [5, 7]) (clctAt [6]))) ∧
    (((7 : Int), (6 : Int)) ∈ matchedPairs
        (runClctCentric stdConfig stdConstants (alctAt [5, 7]) (clctAt [6])) ↔
      ((7 : Int), (6 : Int)) ∈ matchedPairs
        (runAlctCentric stdConfig stdConstants (alctAt [5, 7]) (clctAt [6]))) :=
  ⟨⟨rfl, rfl⟩,
   (outcome_symmetry stdConfig stdConstants (alctAt [5, 7]) (clctAt [6]) rfl rfl (5, 6)).1
     (by decide),
   outcome_symmetry stdConfig stdConstants (alctAt [5, 7]) (clctAt [6]) rfl rfl (7, 6)⟩

/-! ## Theorems on `correlateLCTs` and `constructLCTs` -/

theorem substituteALCT_cases (bA sA : CSCALCTDigi) :
    (bA.isValid = false → sA.isValid = true → substituteALCT bA sA = (sA, sA)) ∧
    (bA.isValid = true → sA.isValid = false → substituteALCT bA sA = (bA, bA)) ∧
    (bA.isValid = sA.isValid → substituteALCT bA sA = (bA, sA)) := by
  refine ⟨?_, ?_, ?_⟩
  · intro h1 h2; simp [substituteALCT, h1, h2]
  · intro h1 h2; simp [substituteALCT, h1, h2]
  · intro h; cases hs : sA.isValid <;> simp [substituteALCT, h, hs]

theorem substituteCLCT_cases (bC sC : CSCCLCTDigi) :
    (bC.isValid = false → sC.isValid = true → substituteCLCT bC sC = (sC, sC)) ∧
    (bC.isValid = true → sC.isValid = false → substituteCLCT bC sC = (bC, bC)) ∧
    (bC.isValid = sC.isValid → substituteCLCT bC sC = (bC, sC)) := by
  refine ⟨?_, ?_, ?_⟩
  · intro h1 h2; simp [substituteCLCT, h1, h2]
  · intro h1 h2; simp [substituteCLCT, h1, h2]
  · intro h; cases hs : sC.isValid <;> simp [substituteCLCT, h, hs]

/-- The store after `correlateLCTs`, array by array. -/
theorem correlateLCTs_store (cfg : Config) (k : CSCConstants) (st : MotherboardState)
    (bA sA : CSCALCTDigi) (bC sC : CSCCLCTDigi) (type : LCTType) :
    (correlateLCTs cfg k st bA sA bC sC type).firstLCT =
      (match firstCandidate cfg k st.highMultiplicityBits_ bA sA bC sC type with
        | some lct =>
          if lct.bx ≥ 0 ∧ lct.bx < (k.MAX_LCT_TBINS : Int) then writeLCT st.firstLCT lct.bx lct
          else st.firstLCT
        | none => st.firstLCT) ∧
    (correlateLCTs cfg k st bA sA bC sC type).secondLCT =
      (match secondCandidate cfg k st.highMultiplicityBits_ bA sA bC sC type with
        | some lct =>
          if lct.bx ≥ 0 ∧ lct.bx < (k.MAX_LCT_TBINS : Int) then writeLCT st.secondLCT lct.bx lct
          else st.secondLCT
        | none => st.secondLCT) ∧
    (correlateLCTs cfg k st bA sA bC sC type).highMultiplicityBits_ = st.highMultiplicityBits_ := by
  unfold correlateLCTs
  cases h1 : firstCandidate cfg k st.highMultiplicityBits_ bA sA bC sC type with
  | none =>
    cases h2 : secondCandidate cfg k st.highMultiplicityBits_ bA sA bC sC type with
    | none => simp
    | some l2 =>
      by_cases r2 : l2.bx ≥ 0 ∧ l2.bx < (k.MAX_LCT_TBINS : Int)
      · simp [CSCCorrelatedLCTDigi.getBX, r2]
      · simp [CSCCorrelatedLCTDigi.getBX, r2]
  | some l1 =>
    by_cases r1 : l1.bx ≥ 0 ∧ l1.bx < (k.MAX_LCT_TBINS : Int)
    · cases h2 : secondCandidate cfg k st.highMultiplicityBits_ bA sA bC sC type with
      | none => simp [CSCCorrelatedLCTDigi.getBX, r1]
      | some l2 =>
        by_cases r2 : l2.bx ≥ 0 ∧ l2.bx < (k.MAX_LCT_TBINS : Int)
        · simp [CSCCorrelatedLCTDigi.getBX, r1, r2]
        · simp [CSCCorrelatedLCTDigi.getBX, r1, r2]
    · cases h2 : secondCandidate cfg k st.highMultiplicityBits_ bA sA bC sC type with
      | none => simp [CSCCorrelatedLCTDigi.getBX, r1]
      | some l2 =>
        by_cases r2 : l2.bx ≥ 0 ∧ l2.bx < (k.MAX_LCT_TBINS : Int)
        · simp [CSCCorrelatedLCTDigi.getBX, r1, r2]
        · simp [CSCCorrelatedLCTDigi.getBX, r1, r2]

/-- C12 (as stated, refuted): ALCT-only triggers enabled, a valid best ALCT at
bin 5, and both second-best primitives invalid; the invalid best CLCT and the
invalid second-best CLCT differ in their time-bin field. `correlateLCTs` stores a
valid second-rank candidate at bin 5. -/
theorem second_candidate_counterexample :
    (noALCT.isValid = false ∧ (⟨false, 0, 0, 0, 0, 1⟩ : CSCCLCTDigi).isValid = false) ∧
    ((correlateLCTs { stdConfig with alct_trig_enable := 1 } stdConstants emptyState
        ⟨true, 1, false, 10, 5⟩ noALCT noCLCT ⟨false, 0, 0, 0, 0, 1⟩
        LCTType.ALCTONLY).secondLCT 5).isValid = true ∧
    ((correlateLCTs { stdConfig with alct_trig_enable := 1 } stdConstants emptyState
        ⟨true, 1, false, 10, 5⟩ noALCT noCLCT ⟨false, 0, 0, 0, 0, 1⟩
        LCTType.ALCTONLY).secondLCT 5).trknmb = 2 := by
  decide

/-- C12 (amended): a second-rank candidate is constructed only if, after the
substitutions, the second ALCT differs from the best ALCT or the second CLCT
differs from the best CLCT, and (alct_trig_enable and second ALCT valid) or
(clct_trig_enable and second CLCT valid) or (match_trig_enable and both seconds
valid); when that condition fails `secondLCT` is left unchanged. When both input
second-best primitives are invalid, a second-rank candidate is constructed
exactly when one side's best primitive is valid with its single-sided enable flag
set while the other side's best primitive is invalid and differs from its
second-best; so none is constructed or stored when on each side the best
primitive is valid or equal to the second-best. -/
theorem second_candidate_rule (cfg : Config) (k : CSCConstants) (st : MotherboardState)
    (bA sA : CSCALCTDigi) (bC sC : CSCCLCTDigi) (type : LCTType) :
    ((secondCandidate cfg k st.highMultiplicityBits_ bA sA bC sC type).isSome = true ↔
      (((substituteALCT bA sA).2 ≠ (substituteALCT bA sA).1 ∨
          (substituteCLCT bC sC).2 ≠ (substituteCLCT bC sC).1) ∧
        ((cfg.alct_trig_enable ≠ 0 ∧ (substituteALCT bA sA).2.isValid = true) ∨
         (cfg.clct_trig_enable ≠ 0 ∧ (substituteCLCT bC sC).2.isValid = true) ∨
         (cfg.match_trig_enable ≠ 0 ∧ (substituteALCT bA sA).2.isValid = true ∧
            (substituteCLCT bC sC).2.isValid = true)))) ∧
    ((secondCandidate cfg k st.highMultiplicityBits_ bA sA bC sC type).isSome = false →
      (correlateLCTs cfg k st bA sA bC sC type).secondLCT = st.secondLCT) ∧
    (sA.isValid = false → sC.isValid = false →
      ((secondCandidate cfg k st.highMultiplicityBits_ bA sA bC sC type).isSome = true ↔
        ((cfg.alct_trig_enable ≠ 0 ∧ bA.isValid = true ∧ bC.isValid = false ∧ sC ≠ bC) ∨
         (cfg.clct_trig_enable ≠ 0 ∧ bC.isValid = true ∧ bA.isValid = false ∧ sA ≠ bA)))) ∧
    (sA.isValid = false → sC.isValid = false →
      (bA.isValid = true ∨ bA = sA) → (bC.isValid = true ∨ bC = sC) →
      secondCandidate cfg k st.highMultiplicityBits_ bA sA bC sC type = none ∧
      (correlateLCTs cfg k st bA sA bC sC type).secondLCT = st.secondLCT) := by
  have hrule : (secondCandidate cfg k st.highMultiplicityBits_ bA sA bC sC type).isSome = true ↔
      (((substituteALCT bA sA).2 ≠ (substituteALCT bA sA).1 ∨
          (substituteCLCT bC sC).2 ≠ (substituteCLCT bC sC).1) ∧
        ((cfg.alct_trig_enable ≠ 0 ∧ (substituteALCT bA sA).2.isValid = true) ∨
         (cfg.clct_trig_enable ≠ 0 ∧ (substituteCLCT bC sC).2.isValid = true) ∨
         (cfg.match_trig_enable ≠ 0 ∧ (substituteALCT bA sA).2.isValid = true ∧
            (substituteCLCT bC sC).2.isValid = true))) := by
    unfold secondCandidate
    dsimp only
    split_ifs with h
    · simp only [Option.isSome_some, true_iff]; exact h
    · simp only [Option.isSome_none, Bool.false_eq_true, false_iff]; exact h
  have hstore : (secondCandidate cfg k st.highMultiplicityBits_ bA sA bC sC type).isSome = false →
      (correlateLCTs cfg k st bA sA bC sC type).secondLCT = st.secondLCT := by
    intro h
    rw [(correlateLCTs_store cfg k st bA sA bC sC type).2.1]
    cases h2 : secondCandidate cfg k st.highMultiplicityBits_ bA sA bC sC type with
    | none => rfl
    | some l => rw [h2] at h; cases h
  have hpart : sA.isValid = false → sC.isValid = false →
      ((secondCandidate cfg k st.highMultiplicityBits_ bA sA bC sC type).isSome = true ↔
        ((cfg.alct_trig_enable ≠ 0 ∧ bA.isValid = true ∧ bC.isValid = false ∧ sC ≠ bC) ∨
         (cfg.clct_trig_enable ≠ 0 ∧ bC.isValid = true ∧ bA.isValid = false ∧ sA ≠ bA))) := by
    intro hsA hsC
    rw [hrule]
    cases hbA : bA.isValid with
    | true =>
      rw [(substituteALCT_cases bA sA).2.1 hbA hsA]
      cases hbC : bC.isValid with
      | true =>
        rw [(substituteCLCT_cases bC sC).2.1 hbC hsC]
        simp
      | false =>
        rw [(substituteCLCT_cases bC sC).2.2 (by rw [hbC, hsC])]
        simp [hbA, hsC]
        exact and_comm
    | false =>
      rw [(substituteALCT_cases bA sA).2.2 (by rw [hbA, hsA])]
      cases hbC : bC.isValid with
      | true =>
        rw [(substituteCLCT_cases bC sC).2.1 hbC hsC]
        simp [hbC, hsA]
        exact and_comm
      | false =>
        rw [(substituteCLCT_cases bC sC).2.2 (by rw [hbC, hsC])]
        simp [hsA, hsC]
  refine ⟨hrule, hstore, hpart, ?_⟩
  intro hsA hsC hA hC
  have hnone : (secondCandidate cfg k st.highMultiplicityBits_ bA sA bC sC type).isSome = false := by
    cases hsome : (secondCandidate cfg k st.highMultiplicityBits_ bA sA bC sC type).isSome with
    | false => rfl
    | true =>
      exfalso
      rcases (hpart hsA hsC).1 hsome with ⟨-, -, h3, h4⟩ | ⟨-, -, h3, h4⟩
      · rcases hC with h | h
        · rw [h] at h3; cases h3
        · exact h4 h.symm
      · rcases hA with h | h
        · rw [h] at h3; cases h3
        · exact h4 h.symm
  refine ⟨?_, hstore hnone⟩
  cases h2 : secondCandidate cfg k st.highMultiplicityBits_ bA sA bC sC type with
  | none => rfl
  | some l => rw [h2] at hnone; cases hnone

/-- Witness of C12 (amended): ALCT-only triggers enabled, a valid best ALCT and
an invalid best CLCT, with both second-best primitives invalid and equal to the
cleared primitive: no second-rank candidate is constructed and `secondLCT` is
unchanged. (With the second-best CLCT differing from the best one, a candidate
is constructed.) -/
theorem second_candidate_rule_witness :
    (noALCT.isValid = false ∧ noCLCT.isValid = false) ∧
    (secondCandidate { stdConfig with alct_trig_enable := 1 } stdConstants
        emptyState.highMultiplicityBits_ ⟨true, 1, false, 10, 5⟩ noALCT noCLCT noCLCT
        LCTType.ALCTONLY = none ∧
      (correlateLCTs { stdConfig with alct_trig_enable := 1 } stdConstants emptyState
        ⟨true, 1, false, 10, 5⟩ noALCT noCLCT noCLCT LCTType.ALCTONLY).secondLCT
        = emptyState.secondLCT) ∧
    (secondCandidate { stdConfig with alct_trig_enable := 1 } stdConstants
        emptyState.highMultiplicityBits_ ⟨true, 1, false, 10, 5⟩ noALCT noCLCT
        ⟨false, 0, 0, 0, 0, 1⟩ LCTType.ALCTONLY).isSome = true :=
  ⟨⟨rfl, rfl⟩,
   (second_candidate_rule { stdConfig with alct_trig_enable := 1 } stdConstants emptyState
      ⟨true, 1, false, 10, 5⟩ noALCT noCLCT noCLCT LCTType.ALCTONLY).2.2.2 rfl rfl
      (Or.inl rfl) (Or.inr rfl),
   ((second_candidate_rule { stdConfig with alct_trig_enable := 1 } stdConstants emptyState
      ⟨true, 1, false, 10, 5⟩ noALCT noCLCT ⟨false, 0, 0, 0, 0, 1⟩ LCTType.ALCTONLY).2.2.1
      rfl rfl).2 (Or.inl ⟨by decide, rfl, rfl, by decide⟩)⟩

/-- C13: promotion in `correlateLCTs`. On each side independently: an invalid
best with a valid second-best is replaced by the second-best; an invalid
second-best with a valid best is replaced by the best; when both are valid or
both are invalid they are used unchanged. The first-rank candidate, when
constructed, is built from the two best primitives after substitution, and the
second-rank candidate from the two second-best primitives after substitution. -/
theorem promotion (cfg : Config) (k : CSCConstants) (hmb : Nat)
    (bA sA : CSCALCTDigi) (bC sC : CSCCLCTDigi) (type : LCTType) :
    ((bA.isValid = false → sA.isValid = true → substituteALCT bA sA = (sA, sA)) ∧
      (bA.isValid = true → sA.isValid = false → substituteALCT bA sA = (bA, bA)) ∧
      (bA.isValid = sA.isValid → substituteALCT bA sA = (bA, sA))) ∧
    ((bC.isValid = false → sC.isValid = true → substituteCLCT bC sC = (sC, sC)) ∧
      (bC.isValid = true → sC.isValid = false → substituteCLCT bC sC = (bC, bC)) ∧
      (bC.isValid = sC.isValid → substituteCLCT bC sC = (bC, sC))) ∧
    (∀ lct, firstCandidate cfg k hmb bA sA bC sC type = some lct →
      lct = constructLCTs cfg k hmb (substituteALCT bA sA).1 (substituteCLCT bC sC).1 type 1) ∧
    (∀ lct, secondCandidate cfg k hmb bA sA bC sC type = some lct →
      lct = constructLCTs cfg k hmb (substituteALCT bA sA).2 (substituteCLCT bC sC).2 type 2) := by
  refine ⟨substituteALCT_cases bA sA, substituteCLCT_cases bC sC, ?_, ?_⟩
  · intro lct h
    unfold firstCandidate at h
    dsimp only at h
    split_ifs at h
    exact (Option.some_inj.1 h).symm
  · intro lct h
    unfold secondCandidate at h
    dsimp only at h
    split_ifs at h
    exact (Option.some_inj.1 h).symm

/-- Witness of C13: matched triggers enabled, an invalid best ALCT with a valid
second-best ALCT at bin 5 and a valid best CLCT with an invalid second-best: the
anode side uses the second-best twice, the cathode side the best twice, and the
first-rank candidate carries the wire group of the second-best ALCT. -/
theorem promotion_witness :
    substituteALCT noALCT ⟨true, 1, false, 33, 5⟩
      = (⟨true, 1, false, 33, 5⟩, ⟨true, 1, false, 33, 5⟩) ∧
    substituteCLCT ⟨true, 4, 10, 0, 20, 6⟩ noCLCT
      = (⟨true, 4, 10, 0, 20, 6⟩, ⟨true, 4, 10, 0, 20, 6⟩) ∧
    substituteALCT noALCT noALCT = (noALCT, noALCT) ∧
    constructLCTs stdConfig stdConstants 0 ⟨true, 1, false, 33, 5⟩ ⟨true, 4, 10, 0, 20, 6⟩
        LCTType.ALCTCLCT 1
      = constructLCTs stdConfig stdConstants 0
          (substituteALCT noALCT ⟨true, 1, false, 33, 5⟩).1
          (substituteCLCT ⟨true, 4, 10, 0, 20, 6⟩ noCLCT).1 LCTType.ALCTCLCT 1 :=
  ⟨(promotion stdConfig stdConstants 0 noALCT ⟨true, 1, false, 33, 5⟩ ⟨true, 4, 10, 0, 20, 6⟩
      noCLCT LCTType.ALCTCLCT).1.1 rfl rfl,
   (promotion stdConfig stdConstants 0 noALCT ⟨true, 1, false, 33, 5⟩ ⟨true, 4, 10, 0, 20, 6⟩
      noCLCT LCTType.ALCTCLCT).2.1.2.1 rfl rfl,
   (promotion stdConfig stdConstants 0 noALCT noALCT noCLCT noCLCT LCTType.ALCTCLCT).1.2.2 rfl,
   (promotion stdConfig stdConstants 0 noALCT ⟨true, 1, false, 33, 5⟩ ⟨true, 4, 10, 0, 20, 6⟩
      noCLCT LCTType.ALCTCLCT).2.2.1 _ (by decide)⟩

/-- C14: the candidate built by `constructLCTs` has the ALCT's time bin if the
ALCT is valid and the CLCT's time bin otherwise; its sync-error field is 0, its
rank is the `trknmb` argument, its wire group is the ALCT's key wire group, and
its strip and bend are the CLCT's key strip and bend. It is valid, carries the
quality of `findQuality` and the given provenance tag. -/
theorem constructLCTs_fields (cfg : Config) (k : CSCConstants) (hmb : Nat)
    (aLCT : CSCALCTDigi) (cLCT : CSCCLCTDigi) (type : LCTType) (trknmb : Nat) :
    (constructLCTs cfg k hmb aLCT cLCT type trknmb).getBX
      = (if aLCT.isValid = true then aLCT.getBX else cLCT.getBX) ∧
    (constructLCTs cfg k hmb aLCT cLCT type trknmb).syncErr = 0 ∧
    (constructLCTs cfg k hmb aLCT cLCT type trknmb).trknmb = trknmb ∧
    (constructLCTs cfg k hmb aLCT cLCT type trknmb).keywire = aLCT.getKeyWG ∧
    (constructLCTs cfg k hmb aLCT cLCT type trknmb).strip = cLCT.getKeyStrip ∧
    (constructLCTs cfg k hmb aLCT cLCT type trknmb).bend = cLCT.getBend ∧
    (constructLCTs cfg k hmb aLCT cLCT type trknmb).isValid = true ∧
    (constructLCTs cfg k hmb aLCT cLCT type trknmb).quality = findQuality aLCT cLCT ∧
    (constructLCTs cfg k hmb aLCT cLCT type trknmb).type = type := by
  unfold constructLCTs CSCCorrelatedLCTDigi.getBX CSCCorrelatedLCTDigi.isValid
  dsimp only
  cases cfg.use_run3_patterns_ <;> cases cfg.useHighMultiplicityBits_ <;> simp

theorem encodePattern_eq_mod (p : Int) : encodePattern p = Int.natAbs p % 16 := by
  unfold encodePattern
  exact Nat.and_pow_two_sub_one_eq_mod (Int.natAbs p) 4

/-- C15: the pattern code. The candidate's pattern is 0 when
`use_run3_patterns_` is set and `encodePattern` of the CLCT pattern otherwise;
`encodePattern p` is |p| mod 16, so it lies in [0, 15], is even in p, and is p
itself for 0 <= p <= 15. -/
theorem pattern_code (cfg : Config) (k : CSCConstants) (hmb : Nat)
    (aLCT : CSCALCTDigi) (cLCT : CSCCLCTDigi) (type : LCTType) (trknmb : Nat) (p : Int) :
    (cfg.use_run3_patterns_ = true →
      (constructLCTs cfg k hmb aLCT cLCT type trknmb).pattern = 0) ∧
    (cfg.use_run3_patterns_ = false →
      (constructLCTs cfg k hmb aLCT cLCT type trknmb).pattern = encodePattern cLCT.getPattern) ∧
    encodePattern p = Int.natAbs p % 16 ∧
    encodePattern p ≤ 15 ∧
    encodePattern p = encodePattern (-p) ∧
    (0 ≤ p → p ≤ 15 → (encodePattern p : Int) = p) := by
  refine ⟨?_, ?_, encodePattern_eq_mod p, ?_, ?_, ?_⟩
  · intro h
    unfold constructLCTs
    dsimp only
    cases cfg.useHighMultiplicityBits_ <;> simp [h]
  · intro h
    unfold constructLCTs
    dsimp only
    simp [h]
  · rw [encodePattern_eq_mod]; omega
  · rw [encodePattern_eq_mod, encodePattern_eq_mod, Int.natAbs_neg]
  · intro h0 h15
    rw [encodePattern_eq_mod]
    omega

/-- Witness of C15: a Run-3 configuration gives pattern 0, the default one gives
the encoded CLCT pattern, and `encodePattern` is the identity on 10. -/
theorem pattern_code_witness :
    (constructLCTs { stdConfig with use_run3_patterns_ := true } stdConstants 0
        ⟨true, 1, false, 33, 5⟩ ⟨true, 4, 10, 0, 20, 6⟩ LCTType.ALCTCLCT 1).pattern = 0 ∧
    (constructLCTs stdConfig stdConstants 0
        ⟨true, 1, false, 33, 5⟩ ⟨true, 4, 10, 0, 20, 6⟩ LCTType.ALCTCLCT 1).pattern
      = encodePattern 10 ∧
    ((encodePattern 10 : Nat) : Int) = 10 :=
  ⟨(pattern_code { stdConfig with use_run3_patterns_ := true } stdConstants 0
      ⟨true, 1, false, 33, 5⟩ ⟨true, 4, 10, 0, 20, 6⟩ LCTType.ALCTCLCT 1 10).1 rfl,
   (pattern_code stdConfig stdConstants 0
      ⟨true, 1, false, 33, 5⟩ ⟨true, 4, 10, 0, 20, 6⟩ LCTType.ALCTCLCT 1 10).2.1 rfl,
   (pattern_code stdConfig stdConstants 0
      ⟨true, 1, false, 33, 5⟩ ⟨true, 4, 10, 0, 20, 6⟩ LCTType.ALCTCLCT 1 10).2.2.2.2.2
      (by decide) (by decide)⟩

/-- C16: the per-kind BX shift. `getBXShiftedALCT` returns its argument with the
time bin lowered by LCT_CENTRAL_BX - tmb_l1a_window_size / 2 and every other
field unchanged; `getBXShiftedCLCT` returns its argument with the time bin
lowered by alctClctOffset_ and every other field unchanged; the candidate built
by `constructLCTs` embeds exactly these two copies. -/
theorem bx_shift (cfg : Config) (k : CSCConstants) (hmb : Nat)
    (aLCT : CSCALCTDigi) (cLCT : CSCCLCTDigi) (type : LCTType) (trknmb : Nat) :
    getBXShiftedALCT cfg k aLCT
      = ⟨aLCT.isValid, aLCT.getQuality, aLCT.getAccelerator, aLCT.getKeyWG,
          aLCT.getBX - (k.LCT_CENTRAL_BX - ((cfg.tmb_l1a_window_size / 2 : Nat) : Int))⟩ ∧
    getBXShiftedCLCT cfg cLCT
      = ⟨cLCT.isValid, cLCT.getQuality, cLCT.getPattern, cLCT.getBend, cLCT.getKeyStrip,
          cLCT.getBX - cfg.alctClctOffset_⟩ ∧
    (constructLCTs cfg k hmb aLCT cLCT type trknmb).alct = getBXShiftedALCT cfg k aLCT ∧
    (constructLCTs cfg k hmb aLCT cLCT type trknmb).clct = getBXShiftedCLCT cfg cLCT := by
  refine ⟨rfl, rfl, ?_, ?_⟩
  · unfold constructLCTs
    dsimp only
  · unfold constructLCTs
    dsimp only

/-- C17: out-of-range candidates are dropped. In `correlateLCTs` a constructed
first-rank candidate with time bin bx is written to `firstLCT[bx]` and to no
other entry if 0 <= bx < MAX_LCT_TBINS, and otherwise `firstLCT` is unchanged;
with no first-rank candidate `firstLCT` is unchanged. The same holds for the
second-rank candidate and `secondLCT`. -/
theorem out_of_range_dropped (cfg : Config) (k : CSCConstants) (st : MotherboardState)
    (bA sA : CSCALCTDigi) (bC sC : CSCCLCTDigi) (type : LCTType) :
    (∀ lct, firstCandidate cfg k st.highMultiplicityBits_ bA sA bC sC type = some lct →
      ((0 ≤ lct.getBX ∧ lct.getBX < (k.MAX_LCT_TBINS : Int)) →
        (correlateLCTs cfg k st bA sA bC sC type).firstLCT lct.getBX = lct ∧
        ∀ i, i ≠ lct.getBX →
          (correlateLCTs cfg k st bA sA bC sC type).firstLCT i = st.firstLCT i) ∧
      (¬ (0 ≤ lct.getBX ∧ lct.getBX < (k.MAX_LCT_TBINS : Int)) →
        (correlateLCTs cfg k st bA sA bC sC type).firstLCT = st.firstLCT)) ∧
    (firstCandidate cfg k st.highMultiplicityBits_ bA sA bC sC type = none →
      (correlateLCTs cfg k st bA sA bC sC type).firstLCT = st.firstLCT) ∧
    (∀ lct, secondCandidate cfg k st.highMultiplicityBits_ bA sA bC sC type = some lct →
      ((0 ≤ lct.getBX ∧ lct.getBX < (k.MAX_LCT_TBINS : Int)) →
        (correlateLCTs cfg k st bA sA bC sC type).secondLCT lct.getBX = lct ∧
        ∀ i, i ≠ lct.getBX →
          (correlateLCTs cfg k st bA sA bC sC type).secondLCT i = st.secondLCT i) ∧
      (¬ (0 ≤ lct.getBX ∧ lct.getBX < (k.MAX_LCT_TBINS : Int)) →
        (correlateLCTs cfg k st bA sA bC sC type).secondLCT = st.secondLCT)) ∧
    (secondCandidate cfg k st.highMultiplicityBits_ bA sA bC sC type = none →
      (correlateLCTs cfg k st bA sA bC sC type).secondLCT = st.secondLCT) := by
  obtain ⟨h1, h2, -⟩ := correlateLCTs_store cfg k st bA sA bC sC type
  refine ⟨?_, ?_, ?_, ?_⟩
  · intro lct hl
    rw [h1, hl]
    simp only [CSCCorrelatedLCTDigi.getBX]
    constructor
    · intro hr
      rw [if_pos ⟨hr.1, hr.2⟩]
      exact ⟨by simp [writeLCT], fun i hi => by simp [writeLCT, hi]⟩
    · intro hr
      rw [if_neg (fun h => hr ⟨h.1, h.2⟩)]
  · intro hl
    rw [h1, hl]
  · intro lct hl
    rw [h2, hl]
    simp only [CSCCorrelatedLCTDigi.getBX]
    constructor
    · intro hr
      rw [if_pos ⟨hr.1, hr.2⟩]
      exact ⟨by simp [writeLCT], fun i hi => by simp [writeLCT, hi]⟩
    · intro hr
      rw [if_neg (fun h => hr ⟨h.1, h.2⟩)]
  · intro hl
    rw [h2, hl]

/-- Witness of C17: matched triggers enabled and a valid CLCT at bin 6. With a
valid ALCT at bin 5 the first-rank candidate is written to `firstLCT[5]`; with a
valid ALCT whose time bin is 16 (the buffer depth) or -1 the candidate is dropped
and `firstLCT` is unchanged. -/
theorem out_of_range_dropped_witness :
    (correlateLCTs stdConfig stdConstants emptyState ⟨true, 1, false, 33, 5⟩ noALCT
        ⟨true, 4, 10, 0, 20, 6⟩ noCLCT LCTType.ALCTCLCT).firstLCT 5
      = constructLCTs stdConfig stdConstants 0 ⟨true, 1, false, 33, 5⟩
          ⟨true, 4, 10, 0, 20, 6⟩ LCTType.ALCTCLCT 1 ∧
    (correlateLCTs stdConfig stdConstants emptyState ⟨true, 1, false, 33, 16⟩ noALCT
        ⟨true, 4, 10, 0, 20, 6⟩ noCLCT LCTType.ALCTCLCT).firstLCT = emptyState.firstLCT ∧
    (correlateLCTs stdConfig stdConstants emptyState ⟨true, 1, false, 33, -1⟩ noALCT
        ⟨true, 4, 10, 0, 20, 6⟩ noCLCT LCTType.ALCTCLCT).firstLCT = emptyState.firstLCT ∧
    (correlateLCTs stdConfig stdConstants emptyState ⟨true, 1, false, 33, 5⟩ noALCT
        ⟨true, 4, 10, 0, 20, 6⟩ noCLCT LCTType.ALCTCLCT).secondLCT = emptyState.secondLCT :=
  ⟨(((out_of_range_dropped stdConfig stdConstants emptyState ⟨true, 1, false, 33, 5⟩ noALCT
        ⟨true, 4, 10, 0, 20, 6⟩ noCLCT LCTType.ALCTCLCT).1
        (constructLCTs stdConfig stdConstants 0 ⟨true, 1, false, 33, 5⟩
          ⟨true, 4, 10, 0, 20, 6⟩ LCTType.ALCTCLCT 1) (by decide)).1 (by decide)).1,
   ((out_of_range_dropped stdConfig stdConstants emptyState ⟨true, 1, false, 33, 16⟩ noALCT
        ⟨true, 4, 10, 0, 20, 6⟩ noCLCT LCTType.ALCTCLCT).1
        (constructLCTs stdConfig stdConstants 0 ⟨true, 1, false, 33, 16⟩
          ⟨true, 4, 10, 0, 20, 6⟩ LCTType.ALCTCLCT 1) (by decide)).2 (by decide),
   ((out_of_range_dropped stdConfig stdConstants emptyState ⟨true, 1, false, 33, -1⟩ noALCT
        ⟨true, 4, 10, 0, 20, 6⟩ noCLCT LCTType.ALCTCLCT).1
        (constructLCTs stdConfig stdConstants 0 ⟨true, 1, false, 33, -1⟩
          ⟨true, 4, 10, 0, 20, 6⟩ LCTType.ALCTCLCT 1) (by decide)).2 (by decide),
   (out_of_range_dropped stdConfig stdConstants emptyState ⟨true, 1, false, 33, 5⟩ noALCT
        ⟨true, 4, 10, 0, 20, 6⟩ noCLCT LCTType.ALCTCLCT).2.2.2 (by decide)⟩

/-! ## The store across a pass -/

theorem constructLCTs_trknmb (cfg : Config) (k : CSCConstants) (hmb : Nat)
    (aLCT : CSCALCTDigi) (cLCT : CSCCLCTDigi) (type : LCTType) (trknmb : Nat) :
    (constructLCTs cfg k hmb aLCT cLCT type trknmb).trknmb = trknmb := by
  unfold constructLCTs
  dsimp only
  cases cfg.use_run3_patterns_ <;> cases cfg.useHighMultiplicityBits_ <;> simp

theorem firstCandidate_fields (cfg : Config) (k : CSCConstants) (hmb : Nat)
    (bA sA : CSCALCTDigi) (bC sC : CSCCLCTDigi) (type : LCTType) (lct : CSCCorrelatedLCTDigi)
    (h : firstCandidate cfg k hmb bA sA bC sC type = some lct) : lct.trknmb = 1 := by
  unfold firstCandidate at h
  dsimp only at h
  split_ifs at h
  rw [← Option.some_inj.1 h]
  exact constructLCTs_trknmb cfg k hmb _ _ type 1

theorem secondCandidate_fields (cfg : Config) (k : CSCConstants) (hmb : Nat)
    (bA sA : CSCALCTDigi) (bC sC : CSCCLCTDigi) (type : LCTType) (lct : CSCCorrelatedLCTDigi)
    (h : secondCandidate cfg k hmb bA sA bC sC type = some lct) : lct.trknmb = 2 := by
  unfold secondCandidate at h
  dsimp only at h
  split_ifs at h
  rw [← Option.some_inj.1 h]
  exact constructLCTs_trknmb cfg k hmb _ _ type 2

theorem correlateLCTs_invariant (cfg : Config) (k : CSCConstants) (st : MotherboardState)
    (bA sA : CSCALCTDigi) (bC sC : CSCCLCTDigi) (type : LCTType)
    (h : StoreInvariant k st) : StoreInvariant k (correlateLCTs cfg k st bA sA bC sC type) := by
  obtain ⟨h1, h2, -⟩ := correlateLCTs_store cfg k st bA sA bC sC type
  intro i hi0 hi1
  rw [h1, h2]
  constructor
  · cases hc : firstCandidate cfg k st.highMultiplicityBits_ bA sA bC sC type with
    | none => exact (h i hi0 hi1).1
    | some lct =>
      dsimp only
      split_ifs with hr
      · simp only [writeLCT]
        by_cases hib : i = lct.bx
        · rw [if_pos hib]
          intro _
          exact ⟨firstCandidate_fields cfg k _ bA sA bC sC type lct hc, hib.symm⟩
        · rw [if_neg hib]; exact (h i hi0 hi1).1
      · exact (h i hi0 hi1).1
  · cases hc : secondCandidate cfg k st.highMultiplicityBits_ bA sA bC sC type with
    | none => exact (h i hi0 hi1).2
    | some lct =>
      dsimp only
      split_ifs with hr
      · simp only [writeLCT]
        by_cases hib : i = lct.bx
        · rw [if_pos hib]
          intro _
          exact ⟨secondCandidate_fields cfg k _ bA sA bC sC type lct hc, hib.symm⟩
        · rw [if_neg hib]; exact (h i hi0 hi1).2
      · exact (h i hi0 hi1).2

theorem applyCall_invariant (cfg : Config) (k : CSCConstants) (a : CSCAnodeLCTProcessor)
    (c : CSCCathodeLCTProcessor) (st : MotherboardState) (call : Option CorrelateCall)
    (h : StoreInvariant k st) : StoreInvariant k (applyCall cfg k a c st call) := by
  cases call with
  | none => exact h
  | some call => exact correlateLCTs_invariant cfg k st _ _ _ _ _ h

theorem foldl_applyCall_invariant (cfg : Config) (k : CSCConstants) (a : CSCAnodeLCTProcessor)
    (c : CSCCathodeLCTProcessor) (calls : List (Option CorrelateCall)) (st : MotherboardState)
    (h : StoreInvariant k st) : StoreInvariant k (calls.foldl (applyCall cfg k a c) st) := by
  induction calls generalizing st with
  | nil => exact h
  | cons call rest ih =>
    rw [List.foldl_cons]
    exact ih _ (applyCall_invariant cfg k a c st call h)

theorem clear_invalid (k : CSCConstants) (st : MotherboardState) (i : Int)
    (h0 : 0 ≤ i) (h1 : i < (k.MAX_LCT_TBINS : Int)) :
    (clear k st).firstLCT i = clearedLCT ∧ (clear k st).secondLCT i = clearedLCT := by
  simp [clear, h0, h1]

theorem clear_invariant (k : CSCConstants) (st : MotherboardState) :
    StoreInvariant k (clear k st) := by
  intro i h0 h1
  rw [(clear_invalid k st i h0 h1).1, (clear_invalid k st i h0 h1).2]
  constructor <;> intro h <;> exact absurd h (by decide)

theorem run_invariant (cfg : Config) (k : CSCConstants) (st : MotherboardState)
    (alctProc : Option CSCAnodeLCTProcessor) (clctProc : Option CSCCathodeLCTProcessor)
    (alctV : List CSCALCTDigi) (clctV : List CSCCLCTDigi) (alctBits : Nat) :
    StoreInvariant k (run cfg k st alctProc clctProc alctV clctV alctBits) := by
  unfold run
  cases alctProc with
  | none => exact clear_invariant k st
  | some a =>
    cases clctProc with
    | none => exact clear_invariant k st
    | some c =>
      dsimp only
      split_ifs
      · exact clear_invariant k st
      · apply foldl_applyCall_invariant
        exact clear_invariant k st

/-- C18: the store invariant. After `clear()` and after every `run`, for every
bin i in [0, MAX_LCT_TBINS), a valid `firstLCT[i]` has rank 1 and time bin i and a
valid `secondLCT[i]` has rank 2 and time bin i; hence two valid first-rank (or two
valid second-rank) entries of the store never share a time bin. -/
theorem store_invariant (cfg : Config) (k : CSCConstants) (st : MotherboardState)
    (alctProc : Option CSCAnodeLCTProcessor) (clctProc : Option CSCCathodeLCTProcessor)
    (alctV : List CSCALCTDigi) (clctV : List CSCCLCTDigi) (alctBits : Nat) :
    StoreInvariant k (clear k st) ∧
    StoreInvariant k (run cfg k st alctProc clctProc alctV clctV alctBits) ∧
    (∀ i j : Int, 0 ≤ i → i < (k.MAX_LCT_TBINS : Int) → 0 ≤ j → j < (k.MAX_LCT_TBINS : Int) →
      ((run cfg k st alctProc clctProc alctV clctV alctBits).firstLCT i).isValid = true →
      ((run cfg k st alctProc clctProc alctV clctV alctBits).firstLCT j).isValid = true →
      ((run cfg k st alctProc clctProc alctV clctV alctBits).firstLCT i).getBX
        = ((run cfg k st alctProc clctProc alctV clctV alctBits).firstLCT j).getBX → i = j) ∧
    (∀ i j : Int, 0 ≤ i → i < (k.MAX_LCT_TBINS : Int) → 0 ≤ j → j < (k.MAX_LCT_TBINS : Int) →
      ((run cfg k st alctProc clctProc alctV clctV alctBits).secondLCT i).isValid = true →
      ((run cfg k st alctProc clctProc alctV clctV alctBits).secondLCT j).isValid = true →
      ((run cfg k st alctProc clctProc alctV clctV alctBits).secondLCT i).getBX
        = ((run cfg k st alctProc clctProc alctV clctV alctBits).secondLCT j).getBX → i = j) := by
  have hinv := run_invariant cfg k st alctProc clctProc alctV clctV alctBits
  refine ⟨clear_invariant k st, hinv, ?_, ?_⟩
  · intro i j hi0 hi1 hj0 hj1 hvi hvj hbx
    rw [((hinv i hi0 hi1).1 hvi).2, ((hinv j hj0 hj1).1 hvj).2] at hbx
    exact hbx
  · intro i j hi0 hi1 hj0 hj1 hvi hvj hbx
    rw [((hinv i hi0 hi1).2 hvi).2, ((hinv j hj0 hj1).2 hvj).2] at hbx
    exact hbx

/-- Witness of C18: window size 7, ALCT at bin 5 and CLCT at bin 6, CLCTs
driving, starting from a stale store. After `run`, `firstLCT[5]` is valid with
rank 1 and time bin 5. -/
theorem store_invariant_witness :
    ((run stdConfig stdConstants staleState someAlct5 someClct6
        [⟨true, 1, false, 10, 5⟩] [⟨true, 4, 10, 0, 20, 6⟩] 0).firstLCT 5).isValid = true ∧
    ((run stdConfig stdConstants staleState someAlct5 someClct6
        [⟨true, 1, false, 10, 5⟩] [⟨true, 4, 10, 0, 20, 6⟩] 0).firstLCT 5).trknmb = 1 ∧
    ((run stdConfig stdConstants staleState someAlct5 someClct6
        [⟨true, 1, false, 10, 5⟩] [⟨true, 4, 10, 0, 20, 6⟩] 0).firstLCT 5).getBX = 5 :=
  ⟨by decide,
   ((store_invariant stdConfig stdConstants staleState someAlct5 someClct6
      [⟨true, 1, false, 10, 5⟩] [⟨true, 4, 10, 0, 20, 6⟩] 0).2.1 5 (by decide) (by decide)).1
      (by decide)⟩

/-! ## `getLCTs` -/

theorem getLCTsLoop_eq (cfg : Config) (k : CSCConstants) (st : MotherboardState) (n b : Nat)
    (tmpV : List CSCCorrelatedLCTDigi) :
    getLCTsLoop cfg k st n (b : Int) tmpV
      = tmpV ++ ((List.range' b n).flatMap
          (fun i : Nat => [st.firstLCT i, st.secondLCT i])).filter (getLCTsKeeps cfg k) := by
  induction n generalizing b tmpV with
  | zero => simp [getLCTsLoop]
  | succ n ih =>
    have c1 : ((b : Int) + 1) = ((b + 1 : Nat) : Int) := by push_cast; rfl
    rw [getLCTsLoop, c1, ih (b + 1), List.range'_succ, List.flatMap_cons, List.filter_append]
    have hf : ∀ l : CSCCorrelatedLCTDigi, getLCTsKeeps cfg k l = true ↔
        (l.isValid = true ∧ (cfg.mpc_block_me1a = 0 ∨
          (cfg.isME11_ = false ∨ l.getStrip ≤ k.MAX_HALF_STRIP_ME1B))) := by
      intro l
      simp [getLCTsKeeps]
    by_cases h1 : getLCTsKeeps cfg k (st.firstLCT b) = true <;>
      by_cases h2 : getLCTsKeeps cfg k (st.secondLCT b) = true
    · have g1 := (hf _).1 h1
      have g2 := (hf _).1 h2
      simp [List.filter_cons, h1, h2, g1.1, g1.2, g2.1, g2.2]
    · have g1 := (hf _).1 h1
      have g2 : ¬ ((st.secondLCT b).isValid = true ∧ (cfg.mpc_block_me1a = 0 ∨
          (cfg.isME11_ = false ∨ (st.secondLCT b).getStrip ≤ k.MAX_HALF_STRIP_ME1B))) :=
        fun h => h2 ((hf _).2 h)
      by_cases hv : (st.secondLCT b).isValid = true
      · have g3 : ¬ (cfg.mpc_block_me1a = 0 ∨
            (cfg.isME11_ = false ∨ (st.secondLCT b).getStrip ≤ k.MAX_HALF_STRIP_ME1B)) :=
          fun h => g2 ⟨hv, h⟩
        simp [List.filter_cons, h1, h2, g1.1, g1.2, hv, g3]
      · simp [List.filter_cons, h1, h2, g1.1, g1.2, hv]
    · have g2 := (hf _).1 h2
      have g1 : ¬ ((st.firstLCT b).isValid = true ∧ (cfg.mpc_block_me1a = 0 ∨
          (cfg.isME11_ = false ∨ (st.firstLCT b).getStrip ≤ k.MAX_HALF_STRIP_ME1B))) :=
        fun h => h1 ((hf _).2 h)
      by_cases hv : (st.firstLCT b).isValid = true
      · have g3 : ¬ (cfg.mpc_block_me1a = 0 ∨
            (cfg.isME11_ = false ∨ (st.firstLCT b).getStrip ≤ k.MAX_HALF_STRIP_ME1B)) :=
          fun h => g1 ⟨hv, h⟩
        simp [List.filter_cons, h1, h2, g2.1, g2.2, hv, g3]
      · simp [List.filter_cons, h1, h2, g2.1, g2.2, hv]
    · have g1 : ¬ ((st.firstLCT b).isValid = true ∧ (cfg.mpc_block_me1a = 0 ∨
          (cfg.isME11_ = false ∨ (st.firstLCT b).getStrip ≤ k.MAX_HALF_STRIP_ME1B))) :=
        fun h => h1 ((hf _).2 h)
      have g2 : ¬ ((st.secondLCT b).isValid = true ∧ (cfg.mpc_block_me1a = 0 ∨
          (cfg.isME11_ = false ∨ (st.secondLCT b).getStrip ≤ k.MAX_HALF_STRIP_ME1B))) :=
        fun h => h2 ((hf _).2 h)
      by_cases hv1 : (st.firstLCT b).isValid = true <;>
        by_cases hv2 : (st.secondLCT b).isValid = true
      · have g3 : ¬ (cfg.mpc_block_me1a = 0 ∨
            (cfg.isME11_ = false ∨ (st.firstLCT b).getStrip ≤ k.MAX_HALF_STRIP_ME1B)) :=
          fun h => g1 ⟨hv1, h⟩
        have g4 : ¬ (cfg.mpc_block_me1a = 0 ∨
            (cfg.isME11_ = false ∨ (st.secondLCT b).getStrip ≤ k.MAX_HALF_STRIP_ME1B)) :=
          fun h => g2 ⟨hv2, h⟩
        simp [List.filter_cons, h1, h2, hv1, hv2, g3, g4]
      · have g3 : ¬ (cfg.mpc_block_me1a = 0 ∨
            (cfg.isME11_ = false ∨ (st.firstLCT b).getStrip ≤ k.MAX_HALF_STRIP_ME1B)) :=
          fun h => g1 ⟨hv1, h⟩
        simp [List.filter_cons, h1, h2, hv1, hv2, g3]
      · have g4 : ¬ (cfg.mpc_block_me1a = 0 ∨
            (cfg.isME11_ = false ∨ (st.secondLCT b).getStrip ≤ k.MAX_HALF_STRIP_ME1B)) :=
          fun h => g2 ⟨hv2, h⟩
        simp [List.filter_cons, h1, h2, hv1, hv2, g4]
      · simp [List.filter_cons, h1, h2, hv1, hv2]

theorem getLCTs_eq_filter (cfg : Config) (k : CSCConstants) (st : MotherboardState) :
    getLCTs cfg k st = (storeEntries k st).filter (getLCTsKeeps cfg k) := by
  have h := getLCTsLoop_eq cfg k st k.MAX_LCT_TBINS 0 []
  simp only [Nat.cast_zero, List.nil_append] at h
  unfold getLCTs storeEntries
  rw [h, List.range_eq_range']

/-- C20: `getLCTs` returns the store entries in order of increasing bin,
`firstLCT[bx]` before `secondLCT[bx]`, keeping exactly the valid entries that are
not blocked: when `mpc_block_me1a` is 0 or the chamber is not ME1/1 every valid
entry is returned, and when `mpc_block_me1a` is nonzero and the chamber is ME1/1
the valid entries with strip at most MAX_HALF_STRIP_ME1B are returned. The store
is an argument that `getLCTs` only reads. -/
theorem getLCTs_spec (cfg : Config) (k : CSCConstants) (st : MotherboardState) :
    getLCTs cfg k st
      = ((List.range k.MAX_LCT_TBINS).flatMap
          (fun i : Nat => [st.firstLCT i, st.secondLCT i])).filter
          (fun l => l.isValid &&
            (decide (cfg.mpc_block_me1a = 0) ||
              (!cfg.isME11_ || decide (l.getStrip ≤ k.MAX_HALF_STRIP_ME1B)))) ∧
    ((cfg.mpc_block_me1a = 0 ∨ cfg.isME11_ = false) →
      getLCTs cfg k st
        = ((List.range k.MAX_LCT_TBINS).flatMap
            (fun i : Nat => [st.firstLCT i, st.secondLCT i])).filter (fun l => l.isValid)) ∧
    ((cfg.mpc_block_me1a ≠ 0 ∧ cfg.isME11_ = true) →
      getLCTs cfg k st
        = ((List.range k.MAX_LCT_TBINS).flatMap
            (fun i : Nat => [st.firstLCT i, st.secondLCT i])).filter
            (fun l => l.isValid && decide (l.getStrip ≤ k.MAX_HALF_STRIP_ME1B))) := by
  have h := getLCTs_eq_filter cfg k st
  unfold storeEntries at h
  refine ⟨h, ?_, ?_⟩
  · intro hc
    rw [h]
    apply List.filter_congr
    intro l _
    rcases hc with hc | hc <;> simp [getLCTsKeeps, hc]
  · rintro ⟨hc1, hc2⟩
    rw [h]
    apply List.filter_congr
    intro l _
    simp [getLCTsKeeps, hc1, hc2]

/-- Witness of C20: a store with a valid candidate of strip 200 in every
`firstLCT` entry. Without blocking each of the 16 entries is returned; with
`mpc_block_me1a` set on an ME1/1 chamber none is. -/
theorem getLCTs_spec_witness :
    (getLCTs stdConfig stdConstants staleState).length = 16 ∧
    getLCTs { stdConfig with mpc_block_me1a := 1, isME11_ := true } stdConstants staleState
      = [] :=
  ⟨by
    rw [(getLCTs_spec stdConfig stdConstants staleState).2.1 (Or.inl rfl)]
    decide,
   by
    rw [(getLCTs_spec { stdConfig with mpc_block_me1a := 1, isME11_ := true } stdConstants
      staleState).2.2 ⟨by decide, rfl⟩]
    decide⟩

/-! ## No cross-pass memory -/

theorem getLCTs_congr (cfg : Config) (k : CSCConstants) (s1 s2 : MotherboardState)
    (h : SameStore k s1 s2) : getLCTs cfg k s1 = getLCTs cfg k s2 := by
  rw [getLCTs_eq_filter, getLCTs_eq_filter]
  unfold storeEntries
  congr 1
  apply List.flatMap_congr
  intro i hi
  rw [List.mem_range] at hi
  have := h i (by omega) (by exact_mod_cast hi)
  rw [this.1, this.2]

theorem correlateLCTs_sameStore (cfg : Config) (k : CSCConstants) (s1 s2 : MotherboardState)
    (bA sA : CSCALCTDigi) (bC sC : CSCCLCTDigi) (type : LCTType)
    (h : SameStore k s1 s2) (hh : s1.highMultiplicityBits_ = s2.highMultiplicityBits_) :
    SameStore k (correlateLCTs cfg k s1 bA sA bC sC type)
      (correlateLCTs cfg k s2 bA sA bC sC type) ∧
    (correlateLCTs cfg k s1 bA sA bC sC type).highMultiplicityBits_
      = (correlateLCTs cfg k s2 bA sA bC sC type).highMultiplicityBits_ := by
  obtain ⟨a1, a2, a3⟩ := correlateLCTs_store cfg k s1 bA sA bC sC type
  obtain ⟨b1, b2, b3⟩ := correlateLCTs_store cfg k s2 bA sA bC sC type
  refine ⟨fun i h0 h1 => ?_, by rw [a3, b3, hh]⟩
  rw [a1, a2, b1, b2, hh]
  constructor
  · cases firstCandidate cfg k s2.highMultiplicityBits_ bA sA bC sC type with
    | none => exact (h i h0 h1).1
    | some lct =>
      dsimp only
      split_ifs
      · simp only [writeLCT, (h i h0 h1).1]
      · exact (h i h0 h1).1
  · cases secondCandidate cfg k s2.highMultiplicityBits_ bA sA bC sC type with
    | none => exact (h i h0 h1).2
    | some lct =>
      dsimp only
      split_ifs
      · simp only [writeLCT, (h i h0 h1).2]
      · exact (h i h0 h1).2

theorem foldl_applyCall_sameStore (cfg : Config) (k : CSCConstants) (a : CSCAnodeLCTProcessor)
    (c : CSCCathodeLCTProcessor) (calls : List (Option CorrelateCall))
    (s1 s2 : MotherboardState) (h : SameStore k s1 s2)
    (hh : s1.highMultiplicityBits_ = s2.highMultiplicityBits_) :
    SameStore k (calls.foldl (applyCall cfg k a c) s1) (calls.foldl (applyCall cfg k a c) s2) := by
  induction calls generalizing s1 s2 with
  | nil => exact h
  | cons call rest ih =>
    rw [List.foldl_cons, List.foldl_cons]
    cases call with
    | none => exact ih s1 s2 h hh
    | some call =>
      have := correlateLCTs_sameStore cfg k s1 s2 (a.getBestALCT call.bx_alct)
        (a.getSecondALCT call.bx_alct) (c.getBestCLCT call.bx_clct)
        (c.getSecondCLCT call.bx_clct) call.type h hh
      exact ih _ _ this.1 this.2

theorem clear_sameStore (k : CSCConstants) (s1 s2 : MotherboardState) :
    SameStore k (clear k s1) (clear k s2) := by
  intro i h0 h1
  rw [(clear_invalid k s1 i h0 h1).1, (clear_invalid k s1 i h0 h1).2,
    (clear_invalid k s2 i h0 h1).1, (clear_invalid k s2 i h0 h1).2]
  exact ⟨rfl, rfl⟩

theorem getLCTs_clear (cfg : Config) (k : CSCConstants) (st : MotherboardState) :
    getLCTs cfg k (clear k st) = [] := by
  rw [getLCTs_eq_filter, List.filter_eq_nil_iff]
  intro l hl
  unfold storeEntries at hl
  rw [List.mem_flatMap] at hl
  obtain ⟨i, hi, hl⟩ := hl
  rw [List.mem_range] at hi
  have hc := clear_invalid k st i (by omega) (by exact_mod_cast hi)
  rw [hc.1, hc.2] at hl
  have : l = clearedLCT := by
    simp only [List.mem_cons, List.mem_singleton, List.not_mem_nil, or_false, or_self] at hl
    exact hl
  rw [this]
  simp [getLCTsKeeps, CSCCorrelatedLCTDigi.isValid, clearedLCT]

/-- C19: no cross-pass memory. For any two initial states, the same
configuration and the same primitives, `run` leaves the same candidate in every
entry of `firstLCT` and `secondLCT`, and `getLCTs` returns the same vector. When
`run` returns early (a finder is missing, or both primitive vectors are empty)
every entry of the two arrays is invalid and `getLCTs` returns the empty
vector. -/
theorem no_cross_pass_memory (cfg : Config) (k : CSCConstants) (st1 st2 : MotherboardState)
    (alctProc : Option CSCAnodeLCTProcessor) (clctProc : Option CSCCathodeLCTProcessor)
    (alctV : List CSCALCTDigi) (clctV : List CSCCLCTDigi) (alctBits : Nat) :
    SameStore k (run cfg k st1 alctProc clctProc alctV clctV alctBits)
      (run cfg k st2 alctProc clctProc alctV clctV alctBits) ∧
    getLCTs cfg k (run cfg k st1 alctProc clctProc alctV clctV alctBits)
      = getLCTs cfg k (run cfg k st2 alctProc clctProc alctV clctV alctBits) ∧
    ((alctProc = none ∨ clctProc = none ∨ (alctV = [] ∧ clctV = [])) →
      (∀ i : Int, 0 ≤ i → i < (k.MAX_LCT_TBINS : Int) →
        ((run cfg k st1 alctProc clctProc alctV clctV alctBits).firstLCT i).isValid = false ∧
        ((run cfg k st1 alctProc clctProc alctV clctV alctBits).secondLCT i).isValid = false) ∧
      getLCTs cfg k (run cfg k st1 alctProc clctProc alctV clctV alctBits) = []) := by
  have hsame : SameStore k (run cfg k st1 alctProc clctProc alctV clctV alctBits)
      (run cfg k st2 alctProc clctProc alctV clctV alctBits) := by
    unfold run
    cases alctProc with
    | none => exact clear_sameStore k st1 st2
    | some a =>
      cases clctProc with
      | none => exact clear_sameStore k st1 st2
      | some c =>
        dsimp only
        split_ifs
        · exact clear_sameStore k st1 st2
        · apply foldl_applyCall_sameStore
          · exact clear_sameStore k st1 st2
          · rfl
  refine ⟨hsame, getLCTs_congr cfg k _ _ hsame, ?_⟩
  intro hearly
  have hrun : run cfg k st1 alctProc clctProc alctV clctV alctBits = clear k st1 := by
    unfold run
    cases alctProc with
    | none => rfl
    | some a =>
      cases clctProc with
      | none => rfl
      | some c =>
        rcases hearly with h | h | ⟨h1, h2⟩
        · cases h
        · cases h
        · dsimp only
          rw [if_pos (by simp [h1, h2])]
  rw [hrun]
  refine ⟨fun i h0 h1 => ?_, getLCTs_clear cfg k st1⟩
  rw [(clear_invalid k st1 i h0 h1).1, (clear_invalid k st1 i h0 h1).2]
  exact ⟨by decide, by decide⟩

/-- Witness of C19: a pass over no primitives at all (both vectors empty), run
from a stale store that holds a valid candidate in every bin: afterwards bin 5 is
invalid and `getLCTs` returns nothing; and a pass with a missing cathode
finder. -/
theorem no_cross_pass_memory_witness :
    ((run stdConfig stdConstants staleState someAlct5 someClct6 [] [] 0).firstLCT 5).isValid
      = false ∧
    getLCTs stdConfig stdConstants
      (run stdConfig stdConstants staleState someAlct5 someClct6 [] [] 0) = [] ∧
    getLCTs stdConfig stdConstants
      (run stdConfig stdConstants staleState someAlct5 none
        [⟨true, 1, false, 10, 5⟩] [] 0) = [] :=
  ⟨(((no_cross_pass_memory stdConfig stdConstants staleState emptyState someAlct5 someClct6
      [] [] 0).2.2 (Or.inr (Or.inr ⟨rfl, rfl⟩))).1 5 (by decide) (by decide)).1,
   ((no_cross_pass_memory stdConfig stdConstants staleState emptyState someAlct5 someClct6
      [] [] 0).2.2 (Or.inr (Or.inr ⟨rfl, rfl⟩))).2,
   ((no_cross_pass_memory stdConfig stdConstants staleState emptyState someAlct5 none
      [⟨true, 1, false, 10, 5⟩] [] 0).2.2 (Or.inr (Or.inl rfl))).2⟩

/-! ## The readout selection -/

theorem late_tbins_eq (cfg : Config) (k : CSCConstants) :
    late_tbins cfg k
      = min (cfg.early_tbins + (cfg.tmb_l1a_window_size : Int)) ((k.MAX_LCT_TBINS : Int) - 1) := by
  unfold late_tbins
  dsimp only
  split_ifs with h
  · rw [min_eq_right (by omega)]
  · rw [min_eq_left (by omega)]

theorem inReadoutWindow_eq (cfg : Config) (k : CSCConstants) (lct : CSCCorrelatedLCTDigi) :
    inReadoutWindow cfg k lct = windowTest cfg (late_tbins cfg k) lct := by
  unfold inReadoutWindow windowTest
  rw [late_tbins_eq]
  have : (cfg.early_tbins + 1 ≤ lct.getBX) ↔ (cfg.early_tbins < lct.getBX) := by omega
  simp only [this]

theorem windowTest_iff (cfg : Config) (late : Int) (c : CSCCorrelatedLCTDigi) :
    windowTest cfg late c = true ↔
      (c.isValid = true ∧ cfg.early_tbins < c.getBX ∧ c.getBX ≤ late) := by
  simp [windowTest, and_assoc]

theorem readoutLoop_cons_skip (cfg : Config) (late r : Int) (c : CSCCorrelatedLCTDigi)
    (rest : List CSCCorrelatedLCTDigi) (h : windowTest cfg late c = false) :
    readoutLoop cfg late r (c :: rest) = readoutLoop cfg late r rest := by
  have h' : ¬ (c.isValid = true ∧ cfg.early_tbins < c.getBX ∧ c.getBX ≤ late) := by
    rw [← windowTest_iff, h]; simp
  rw [readoutLoop]
  by_cases h1 : c.isValid = false
  · rw [if_pos h1]
  · rw [if_neg h1]
    by_cases h2 : c.getBX ≤ cfg.early_tbins
    · rw [if_pos h2]
    · rw [if_neg h2]
      by_cases h3 : c.getBX > late
      · rw [if_pos h3]
      · exfalso
        apply h'
        refine ⟨by simpa using h1, by omega, by omega⟩

theorem readoutLoop_cons_pass (cfg : Config) (late r : Int) (c : CSCCorrelatedLCTDigi)
    (rest : List CSCCorrelatedLCTDigi) (h : windowTest cfg late c = true) :
    readoutLoop cfg late r (c :: rest) =
      (if cfg.readout_earliest_2 = true then
        if r = -1 ∨ c.getBX = r then
          c :: readoutLoop cfg late (if r = -1 then c.getBX else r) rest
        else readoutLoop cfg late r rest
      else c :: readoutLoop cfg late r rest) := by
  obtain ⟨h1, h2, h3⟩ := (windowTest_iff cfg late c).1 h
  rw [readoutLoop, if_neg (by simp [h1]), if_neg (by omega), if_neg (by omega)]

/-- With the earliest-two policy off the loop is a filter. -/
theorem readoutLoop_off (cfg : Config) (late r : Int) (l : List CSCCorrelatedLCTDigi)
    (hoff : cfg.readout_earliest_2 = false) :
    readoutLoop cfg late r l = l.filter (windowTest cfg late) := by
  induction l with
  | nil => rfl
  | cons c rest ih =>
    cases h : windowTest cfg late c with
    | false => rw [readoutLoop_cons_skip cfg late r c rest h, ih, List.filter_cons, h]; simp
    | true =>
      rw [readoutLoop_cons_pass cfg late r c rest h, if_neg (by simp [hoff]), ih,
        List.filter_cons, h]
      simp

/-- The readout loop applied to its own result returns it unchanged. -/
theorem readoutLoop_idem (cfg : Config) (late : Int) (l : List CSCCorrelatedLCTDigi) :
    ∀ r : Int, readoutLoop cfg late r (readoutLoop cfg late r l) = readoutLoop cfg late r l := by
  induction l with
  | nil => intro r; rfl
  | cons c rest ih =>
    intro r
    cases h : windowTest cfg late c with
    | false => rw [readoutLoop_cons_skip cfg late r c rest h]; exact ih r
    | true =>
      rw [readoutLoop_cons_pass cfg late r c rest h]
      by_cases he : cfg.readout_earliest_2 = true
      · rw [if_pos he]
        by_cases hr : r = -1 ∨ c.getBX = r
        · rw [if_pos hr, readoutLoop_cons_pass cfg late r c _ h, if_pos he, if_pos hr, ih]
        · rw [if_neg hr]; exact ih r
      · rw [if_neg he, readoutLoop_cons_pass cfg late r c _ h, if_neg he, ih]

/-- C21: the readout window filter with the earliest-two policy off.
`readoutLCTs` returns, in the same order, exactly the candidates of `getLCTs`
that are valid and whose time bin bx satisfies
early_tbins + 1 <= bx <= min(early_tbins + tmb_l1a_window_size, MAX_LCT_TBINS - 1),
for every value of early_tbins and of the window size. -/
theorem readout_window_filter (cfg : Config) (k : CSCConstants) (st : MotherboardState)
    (hoff : cfg.readout_earliest_2 = false) :
    readoutLCTs cfg k st
      = (getLCTs cfg k st).filter (fun lct =>
          lct.isValid && decide (cfg.early_tbins + 1 ≤ lct.getBX) &&
            decide (lct.getBX ≤ min (cfg.early_tbins + (cfg.tmb_l1a_window_size : Int))
              ((k.MAX_LCT_TBINS : Int) - 1))) := by
  unfold readoutLCTs readoutSelect
  rw [readoutLoop_off cfg _ _ _ hoff]
  apply List.filter_congr
  intro c _
  rw [← inReadoutWindow_eq]
  rfl

/-- Witness of C21: the default configuration (early_tbins 4, window 7, buffer
depth 16, policy off) on a store with a valid candidate in every bin: the bins
5 to 11 are read out, seven candidates. -/
theorem readout_window_filter_witness :
    stdConfig.readout_earliest_2 = false ∧
    (readoutLCTs stdConfig stdConstants staleState).map (fun lct => lct.getBX)
      = [5, 6, 7, 8, 9, 10, 11] :=
  ⟨rfl, by
    rw [readout_window_filter stdConfig stdConstants staleState rfl]
    decide⟩

/-- C24: idempotence of the readout selection. For every list of candidates and
every configuration, the selection (validity test, window test, earliest-bin
rule) applied to the list it has produced returns that list unchanged. -/
theorem readout_idempotent (cfg : Config) (k : CSCConstants) (l : List CSCCorrelatedLCTDigi) :
    readoutSelect cfg k (readoutSelect cfg k l) = readoutSelect cfg k l := by
  unfold readoutSelect
  exact readoutLoop_idem cfg _ l (-1)

theorem getLCTs_valid (cfg : Config) (k : CSCConstants) (st : MotherboardState)
    (lct : CSCCorrelatedLCTDigi) (h : lct ∈ getLCTs cfg k st) : lct.isValid = true := by
  rw [getLCTs_eq_filter, List.mem_filter] at h
  have := h.2
  simp only [getLCTsKeeps, Bool.and_eq_true] at this
  exact this.1

/-- C22 (as stated, refuted): three passes with CLCTs driving, each leaving a
valid first-rank candidate in the store, read out with the earliest-two policy
off. With window size 0 the candidate at bin early_tbins + 1 = 5 is not returned.
With early_tbins = 15 the candidate at the clamped upper bound 15 is not
returned. With `mpc_block_me1a` set on an ME1/1 chamber the candidate at bin
early_tbins + 1 = 5, of strip 200, is not returned. -/
theorem readout_boundaries_counterexample :
    (((run { stdConfig with tmb_l1a_window_size := 0 } stdConstants emptyState someAlct5
          someClct6 [⟨true, 1, false, 10, 5⟩] [⟨true, 4, 10, 0, 20, 6⟩] 0).firstLCT 5).isValid
        = true ∧
      ((run { stdConfig with tmb_l1a_window_size := 0 } stdConstants emptyState someAlct5
          someClct6 [⟨true, 1, false, 10, 5⟩] [⟨true, 4, 10, 0, 20, 6⟩] 0).firstLCT 5).getBX
        = stdConfig.early_tbins + 1 ∧
      readoutLCTs { stdConfig with tmb_l1a_window_size := 0 } stdConstants
        (run { stdConfig with tmb_l1a_window_size := 0 } stdConstants emptyState someAlct5
          someClct6 [⟨true, 1, false, 10, 5⟩] [⟨true, 4, 10, 0, 20, 6⟩] 0) = []) ∧
    (((run { stdConfig with early_tbins := 15, match_trig_window_size := 15 } stdConstants
          emptyState (some (alctAt [15])) (some (clctAt [11]))
          [⟨true, 1, false, 10, 15⟩] [⟨true, 4, 10, 0, 20, 11⟩] 0).firstLCT 15).isValid = true ∧
      ((run { stdConfig with early_tbins := 15, match_trig_window_size := 15 } stdConstants
          emptyState (some (alctAt [15])) (some (clctAt [11]))
          [⟨true, 1, false, 10, 15⟩] [⟨true, 4, 10, 0, 20, 11⟩] 0).firstLCT 15).getBX
        = min ((15 : Int) + ((7 : Nat) : Int)) (((16 : Nat) : Int) - 1) ∧
      readoutLCTs { stdConfig with early_tbins := 15, match_trig_window_size := 15 }
        stdConstants
        (run { stdConfig with early_tbins := 15, match_trig_window_size := 15 } stdConstants
          emptyState (some (alctAt [15])) (some (clctAt [11]))
          [⟨true, 1, false, 10, 15⟩] [⟨true, 4, 10, 0, 20, 11⟩] 0) = []) ∧
    (((run { stdConfig with mpc_block_me1a := 1, isME11_ := true } stdConstants emptyState
          someAlct5 (some clctWide6)
          [⟨true, 1, false, 10, 5⟩] [⟨true, 4, 10, 0, 200, 6⟩] 0).firstLCT 5).isValid = true ∧
      ((run { stdConfig with mpc_block_me1a := 1, isME11_ := true } stdConstants emptyState
          someAlct5 (some clctWide6)
          [⟨true, 1, false, 10, 5⟩] [⟨true, 4, 10, 0, 200, 6⟩] 0).firstLCT 5).getBX
        = stdConfig.early_tbins + 1 ∧
      readoutLCTs { stdConfig with mpc_block_me1a := 1, isME11_ := true } stdConstants
        (run { stdConfig with mpc_block_me1a := 1, isME11_ := true } stdConstants emptyState
          someAlct5 (some clctWide6)
          [⟨true, 1, false, 10, 5⟩] [⟨true, 4, 10, 0, 200, 6⟩] 0) = []) := by
  refine ⟨⟨?_, ?_, ?_⟩, ⟨?_, ?_, ?_⟩, ⟨?_, ?_, ?_⟩⟩ <;> decide

/-- C22 (amended): readout window boundaries with the earliest-two policy off.
For every configuration, a candidate reported by `getLCTs` at bin early_tbins is
not returned by `readoutLCTs`, and one at the bin just above the clamped upper
bound min(early_tbins + tmb_l1a_window_size, MAX_LCT_TBINS - 1) is not returned.
When the window is not empty (early_tbins is below the clamped upper bound), a
candidate reported by `getLCTs` at bin exactly early_tbins + 1 is returned, and
one at the clamped upper bound is returned. -/
theorem readout_boundaries (cfg : Config) (k : CSCConstants) (st : MotherboardState)
    (hoff : cfg.readout_earliest_2 = false) (lct : CSCCorrelatedLCTDigi)
    (hl : lct ∈ getLCTs cfg k st) :
    (lct.getBX = cfg.early_tbins → lct ∉ readoutLCTs cfg k st) ∧
    (lct.getBX = min (cfg.early_tbins + (cfg.tmb_l1a_window_size : Int))
        ((k.MAX_LCT_TBINS : Int) - 1) + 1 → lct ∉ readoutLCTs cfg k st) ∧
    (cfg.early_tbins < min (cfg.early_tbins + (cfg.tmb_l1a_window_size : Int))
        ((k.MAX_LCT_TBINS : Int) - 1) →
      (lct.getBX = cfg.early_tbins + 1 → lct ∈ readoutLCTs cfg k st) ∧
      (lct.getBX = min (cfg.early_tbins + (cfg.tmb_l1a_window_size : Int))
        ((k.MAX_LCT_TBINS : Int) - 1) → lct ∈ readoutLCTs cfg k st)) := by
  have hv := getLCTs_valid cfg k st lct hl
  have hmem : lct ∈ readoutLCTs cfg k st ↔
      (cfg.early_tbins < lct.getBX ∧ lct.getBX ≤ late_tbins cfg k) := by
    unfold readoutLCTs readoutSelect
    rw [readoutLoop_off cfg _ _ _ hoff, List.mem_filter, windowTest_iff]
    constructor
    · rintro ⟨-, -, h1, h2⟩; exact ⟨h1, h2⟩
    · rintro ⟨h1, h2⟩; exact ⟨hl, hv, h1, h2⟩
  rw [hmem, late_tbins_eq]
  refine ⟨fun h => by omega, fun h => by omega, fun hne => ⟨fun h => by omega, fun h => by omega⟩⟩

/-- Witness of C22 (amended): the default configuration (early_tbins 4, window
7) on a store with a valid candidate in every bin: the candidates at bins 5 and
11 are returned, those at bins 4 and 12 are not. -/
theorem readout_boundaries_witness :
    (stdConfig.readout_earliest_2 = false ∧
      staleState.firstLCT 5 ∈ getLCTs stdConfig stdConstants staleState) ∧
    staleState.firstLCT 5 ∈ readoutLCTs stdConfig stdConstants staleState ∧
    staleState.firstLCT 11 ∈ readoutLCTs stdConfig stdConstants staleState ∧
    staleState.firstLCT 4 ∉ readoutLCTs stdConfig stdConstants staleState ∧
    staleState.firstLCT 12 ∉ readoutLCTs stdConfig stdConstants staleState :=
  ⟨⟨rfl, by decide⟩,
   ((readout_boundaries stdConfig stdConstants staleState rfl (staleState.firstLCT 5)
      (by decide)).2.2 (by decide)).1 rfl,
   ((readout_boundaries stdConfig stdConstants staleState rfl (staleState.firstLCT 11)
      (by decide)).2.2 (by decide)).2 (by decide),
   (readout_boundaries stdConfig stdConstants staleState rfl (staleState.firstLCT 4)
      (by decide)).1 rfl,
   (readout_boundaries stdConfig stdConstants staleState rfl (staleState.firstLCT 12)
      (by decide)).2.1 (by decide)⟩

/-! ## The earliest-two policy -/

theorem storeEntries_pairwise (cfg : Config) (k : CSCConstants) (st : MotherboardState)
    (hinv : StoreInvariant k st) (n b : Nat) (hb : b + n ≤ k.MAX_LCT_TBINS) :
    List.Pairwise BinOrder
        (((List.range' b n).flatMap (fun i : Nat => [st.firstLCT i, st.secondLCT i])).filter
          (getLCTsKeeps cfg k)) ∧
      ∀ x ∈ ((List.range' b n).flatMap (fun i : Nat => [st.firstLCT i, st.secondLCT i])).filter
          (getLCTsKeeps cfg k), (b : Int) ≤ x.getBX := by
  induction n generalizing b with
  | zero => simp
  | succ n ih =>
    obtain ⟨ih1, ih2⟩ := ih (b + 1) (by omega)
    have hi := hinv (b : Int) (by omega) (by exact_mod_cast (by omega : b < k.MAX_LCT_TBINS))
    rw [List.range'_succ, List.flatMap_cons, List.filter_append]
    have hfirst : ∀ x ∈ List.filter (getLCTsKeeps cfg k) [st.firstLCT b, st.secondLCT b],
        x.getBX = (b : Int) ∧ ((x = st.firstLCT b ∧ x.trknmb = 1) ∨
          (x = st.secondLCT b ∧ x.trknmb = 2)) := by
      intro x hx
      rw [List.mem_filter] at hx
      obtain ⟨hx1, hx2⟩ := hx
      have hval : x.isValid = true := by
        simp only [getLCTsKeeps, Bool.and_eq_true] at hx2
        exact hx2.1
      simp only [List.mem_cons, List.mem_singleton, List.not_mem_nil, or_false] at hx1
      rcases hx1 with h | h
      · rw [h] at hval ⊢
        exact ⟨(hi.1 hval).2, Or.inl ⟨rfl, (hi.1 hval).1⟩⟩
      · rw [h] at hval ⊢
        exact ⟨(hi.2 hval).2, Or.inr ⟨rfl, (hi.2 hval).1⟩⟩
    constructor
    · rw [List.pairwise_append]
      refine ⟨?_, ih1, ?_⟩
      · by_cases k1 : getLCTsKeeps cfg k (st.firstLCT b) = true <;>
          by_cases k2 : getLCTsKeeps cfg k (st.secondLCT b) = true
        · have v1 : (st.firstLCT b).isValid = true := by
            simp only [getLCTsKeeps, Bool.and_eq_true] at k1; exact k1.1
          have v2 : (st.secondLCT b).isValid = true := by
            simp only [getLCTsKeeps, Bool.and_eq_true] at k2; exact k2.1
          simp only [List.filter_cons, k1, k2, if_true, List.filter_nil, List.pairwise_cons,
            List.mem_singleton, forall_eq, List.not_mem_nil, false_implies, implies_true,
            List.Pairwise.nil, and_true]
          right
          exact ⟨by rw [(hi.1 v1).2, (hi.2 v2).2], (hi.1 v1).1, (hi.2 v2).1⟩
        · simp [List.filter_cons, k1, k2]
        · simp [List.filter_cons, k1, k2]
        · simp [List.filter_cons, k1, k2]
      · intro x hx y hy
        left
        have h1 := (hfirst x hx).1
        have h2 := ih2 y hy
        push_cast at h2
        omega
    · intro x hx
      rw [List.mem_append] at hx
      rcases hx with hx | hx
      · rw [(hfirst x hx).1]
      · have := ih2 x hx
        push_cast at this
        omega

/-- After a pass the vector of `getLCTs` is ordered by time bin, first rank before
second rank, and holds no negative time bin. -/
theorem getLCTs_pairwise (cfg : Config) (k : CSCConstants) (st : MotherboardState)
    (hinv : StoreInvariant k st) :
    List.Pairwise BinOrder (getLCTs cfg k st) ∧ ∀ x ∈ getLCTs cfg k st, 0 ≤ x.getBX := by
  have h := storeEntries_pairwise cfg k st hinv k.MAX_LCT_TBINS 0 (by omega)
  rw [getLCTs_eq_filter]
  unfold storeEntries
  rw [List.range_eq_range']
  exact ⟨h.1, fun x hx => by simpa using h.2 x hx⟩

theorem readoutLoop_filter (cfg : Config) (late : Int) (l : List CSCCorrelatedLCTDigi) :
    ∀ r : Int, readoutLoop cfg late r l
      = readoutLoop cfg late r (l.filter (windowTest cfg late)) := by
  induction l with
  | nil => intro r; rfl
  | cons c rest ih =>
    intro r
    cases h : windowTest cfg late c with
    | false =>
      rw [readoutLoop_cons_skip cfg late r c rest h, List.filter_cons, h]
      simpa using ih r
    | true =>
      rw [List.filter_cons, h, if_pos rfl, readoutLoop_cons_pass cfg late r c rest h,
        readoutLoop_cons_pass cfg late r c _ h, ih, ih r]

theorem readoutLoop_fixed (cfg : Config) (late r : Int) (l : List CSCCorrelatedLCTDigi)
    (he : cfg.readout_earliest_2 = true) (hr : r ≠ -1)
    (hall : ∀ c ∈ l, windowTest cfg late c = true) :
    readoutLoop cfg late r l = l.filter (fun c => decide (c.getBX = r)) := by
  induction l with
  | nil => rfl
  | cons c rest ih =>
    have hc := hall c (List.mem_cons_self _ _)
    have ih' := ih (fun x hx => hall x (List.mem_cons_of_mem _ hx))
    rw [readoutLoop_cons_pass cfg late r c rest hc, if_pos he]
    by_cases hb : c.getBX = r
    · rw [if_pos (Or.inr hb), if_neg hr, ih', List.filter_cons]
      simp [hb]
    · rw [if_neg (by rintro (h | h); exact hr h; exact hb h), ih', List.filter_cons]
      simp [hb]

theorem readoutLoop_first (cfg : Config) (late : Int) (c : CSCCorrelatedLCTDigi)
    (rest : List CSCCorrelatedLCTDigi) (he : cfg.readout_earliest_2 = true)
    (hc : c.getBX ≠ -1) (hall : ∀ x ∈ c :: rest, windowTest cfg late x = true) :
    readoutLoop cfg late (-1) (c :: rest)
      = c :: rest.filter (fun x => decide (x.getBX = c.getBX)) := by
  rw [readoutLoop_cons_pass cfg late (-1) c rest (hall c (List.mem_cons_self _ _)), if_pos he,
    if_pos (Or.inl rfl), if_pos rfl,
    readoutLoop_fixed cfg late c.getBX rest he hc
      (fun x hx => hall x (List.mem_cons_of_mem _ hx))]

theorem pairwise_same_bin_length (c : CSCCorrelatedLCTDigi) (l : List CSCCorrelatedLCTDigi)
    (hp : List.Pairwise BinOrder (c :: l)) :
    (l.filter (fun x => decide (x.getBX = c.getBX))).length ≤ 1 ∧
    ∀ y ∈ l.filter (fun x => decide (x.getBX = c.getBX)), c.trknmb = 1 ∧ y.trknmb = 2 := by
  rw [List.pairwise_cons] at hp
  obtain ⟨hc, hl⟩ := hp
  have hy : ∀ y ∈ l.filter (fun x => decide (x.getBX = c.getBX)), c.trknmb = 1 ∧ y.trknmb = 2 := by
    intro y hy
    rw [List.mem_filter] at hy
    have hbx : y.getBX = c.getBX := by simpa using hy.2
    rcases hc y hy.1 with h | h
    · omega
    · exact h.2
  refine ⟨?_, hy⟩
  have hpf : List.Pairwise BinOrder (l.filter (fun x => decide (x.getBX = c.getBX))) :=
    List.Pairwise.filter _ hl
  cases hf : l.filter (fun x => decide (x.getBX = c.getBX)) with
  | nil => simp
  | cons a t =>
    cases t with
    | nil => simp
    | cons b t' =>
      exfalso
      rw [hf] at hpf hy
      have ha := hy a (by simp)
      have hb := hy b (by simp)
      have hab : BinOrder a b := (List.pairwise_cons.1 hpf).1 b (by simp)
      have hfa : a ∈ l.filter (fun x => decide (x.getBX = c.getBX)) := by rw [hf]; simp
      have hfb : b ∈ l.filter (fun x => decide (x.getBX = c.getBX)) := by rw [hf]; simp
      have ea : a.getBX = c.getBX := by simpa using (List.mem_filter.1 hfa).2
      have eb : b.getBX = c.getBX := by simpa using (List.mem_filter.1 hfb).2
      rcases hab with h | h
      · omega
      · have := h.2.1
        omega

/-- The shape of the read-out with the earliest-two policy on a store that
satisfies the store invariant: the first in-window candidate and the later
in-window candidates of the same time bin. -/
theorem readout_earliest_shape (cfg : Config) (k : CSCConstants) (st : MotherboardState)
    (hinv : StoreInvariant k st) (he : cfg.readout_earliest_2 = true) :
    List.Pairwise BinOrder ((getLCTs cfg k st).filter (inReadoutWindow cfg k)) ∧
    (((getLCTs cfg k st).filter (inReadoutWindow cfg k) = [] ∧ readoutLCTs cfg k st = []) ∨
      ∃ c rest, (getLCTs cfg k st).filter (inReadoutWindow cfg k) = c :: rest ∧
        readoutLCTs cfg k st = c :: rest.filter (fun x => decide (x.getBX = c.getBX))) := by
  obtain ⟨hpw, hnn⟩ := getLCTs_pairwise cfg k st hinv
  have hW : (getLCTs cfg k st).filter (inReadoutWindow cfg k)
      = (getLCTs cfg k st).filter (windowTest cfg (late_tbins cfg k)) :=
    List.filter_congr (fun x _ => inReadoutWindow_eq cfg k x)
  rw [hW]
  refine ⟨List.Pairwise.filter _ hpw, ?_⟩
  have hR : readoutLCTs cfg k st = readoutLoop cfg (late_tbins cfg k) (-1)
      ((getLCTs cfg k st).filter (windowTest cfg (late_tbins cfg k))) := by
    unfold readoutLCTs readoutSelect
    exact readoutLoop_filter cfg _ _ (-1)
  cases hf : (getLCTs cfg k st).filter (windowTest cfg (late_tbins cfg k)) with
  | nil =>
    left
    rw [hR, hf]
    exact ⟨rfl, rfl⟩
  | cons c rest =>
    right
    refine ⟨c, rest, rfl, ?_⟩
    rw [hR, hf]
    have hall : ∀ x ∈ c :: rest, windowTest cfg (late_tbins cfg k) x = true := by
      intro x hx
      rw [← hf, List.mem_filter] at hx
      exact hx.2
    have hc : c ∈ getLCTs cfg k st := by
      have : c ∈ (getLCTs cfg k st).filter (windowTest cfg (late_tbins cfg k)) := by
        rw [hf]; simp
      exact (List.mem_filter.1 this).1
    have hc0 := hnn c hc
    exact readoutLoop_first cfg _ c rest he (by omega) hall

/-- C23: the earliest-two policy. With `readout_earliest_2` set, after any
`run`, `readoutLCTs` returns exactly the in-window valid candidates of `getLCTs`
whose time bin is the smallest time bin of an in-window valid candidate, and
nothing if there is none; the returned candidates share one time bin, there are
at most two of them, and when there are two the first has rank 1 and the second
rank 2. -/
theorem earliest_two (cfg : Config) (k : CSCConstants) (st : MotherboardState)
    (alctProc : Option CSCAnodeLCTProcessor) (clctProc : Option CSCCathodeLCTProcessor)
    (alctV : List CSCALCTDigi) (clctV : List CSCCLCTDigi) (alctBits : Nat)
    (he : cfg.readout_earliest_2 = true) :
    ((getLCTs cfg k (run cfg k st alctProc clctProc alctV clctV alctBits)).filter
        (inReadoutWindow cfg k) = [] →
      readoutLCTs cfg k (run cfg k st alctProc clctProc alctV clctV alctBits) = []) ∧
    (∀ b0 : Int,
      (∃ l ∈ (getLCTs cfg k (run cfg k st alctProc clctProc alctV clctV alctBits)).filter
        (inReadoutWindow cfg k), l.getBX = b0) →
      (∀ l ∈ (getLCTs cfg k (run cfg k st alctProc clctProc alctV clctV alctBits)).filter
        (inReadoutWindow cfg k), b0 ≤ l.getBX) →
      readoutLCTs cfg k (run cfg k st alctProc clctProc alctV clctV alctBits)
        = ((getLCTs cfg k (run cfg k st alctProc clctProc alctV clctV alctBits)).filter
            (inReadoutWindow cfg k)).filter (fun l => decide (l.getBX = b0))) ∧
    (∀ x ∈ readoutLCTs cfg k (run cfg k st alctProc clctProc alctV clctV alctBits),
      ∀ y ∈ readoutLCTs cfg k (run cfg k st alctProc clctProc alctV clctV alctBits),
        x.getBX = y.getBX) ∧
    (readoutLCTs cfg k (run cfg k st alctProc clctProc alctV clctV alctBits)).length ≤ 2 ∧
    (∀ x y, readoutLCTs cfg k (run cfg k st alctProc clctProc alctV clctV alctBits) = [x, y] →
      x.trknmb = 1 ∧ y.trknmb = 2) := by
  have hinv := run_invariant cfg k st alctProc clctProc alctV clctV alctBits
  obtain ⟨hpw, hshape⟩ := readout_earliest_shape cfg k _ hinv he
  rcases hshape with ⟨hW, hR⟩ | ⟨c, rest, hW, hR⟩
  · rw [hW, hR]
    refine ⟨fun _ => rfl, ?_, ?_, by simp, ?_⟩
    · rintro b0 ⟨l, hl, -⟩
      cases hl
    · intro x hx; cases hx
    · intro x y h; cases h
  · rw [hW] at hpw ⊢
    rw [hR]
    obtain ⟨hlen, hrank⟩ := pairwise_same_bin_length c rest hpw
    have hbin : ∀ x ∈ c :: rest.filter (fun x => decide (x.getBX = c.getBX)),
        x.getBX = c.getBX := by
      intro x hx
      rw [List.mem_cons] at hx
      rcases hx with h | h
      · rw [h]
      · simpa using (List.mem_filter.1 h).2
    refine ⟨fun h => List.noConfusion h, ?_, ?_, ?_, ?_⟩
    · rintro b0 ⟨l, hl, hlb⟩ hmin
      have h1 : b0 ≤ c.getBX := hmin c (by simp)
      have h2 : c.getBX ≤ b0 := by
        rw [List.mem_cons] at hl
        rcases hl with h | h
        · rw [← hlb, h]
        · rcases (List.pairwise_cons.1 hpw).1 l h with h3 | h3
          · omega
          · omega
      have hb : b0 = c.getBX := by omega
      rw [hb, List.filter_cons]
      simp
    · intro x hx y hy
      rw [hbin x hx, hbin y hy]
    · simp only [List.length_cons]
      omega
    · intro x y h
      have hx : x = c := by
        have := congrArg List.head? h
        simpa using this.symm
      have hy : y ∈ rest.filter (fun x => decide (x.getBX = c.getBX)) := by
        have := congrArg List.tail h
        simp only [List.tail_cons] at this
        rw [this]; simp
      rw [hx]
      exact hrank y hy

/-- Witness of C23: the default window (bins 5 to 11) with the earliest-two
policy set; ALCTs and CLCTs at bins 6 and 9 leave valid candidates at bins 6 and
9, and only the candidate of bin 6 is read out. -/
theorem earliest_two_witness :
    ((getLCTs { stdConfig with readout_earliest_2 := true } stdConstants
        (run { stdConfig with readout_earliest_2 := true } stdConstants emptyState
          (some (alctAt [6, 9])) (some (clctAt [6, 9]))
          [⟨true, 1, false, 10, 6⟩] [⟨true, 4, 10, 0, 20, 6⟩] 0)).filter
        (inReadoutWindow { stdConfig with readout_earliest_2 := true } stdConstants)).map
        (fun l => l.getBX) = [6, 9] ∧
    (readoutLCTs { stdConfig with readout_earliest_2 := true } stdConstants
        (run { stdConfig with readout_earliest_2 := true } stdConstants emptyState
          (some (alctAt [6, 9])) (some (clctAt [6, 9]))
          [⟨true, 1, false, 10, 6⟩] [⟨true, 4, 10, 0, 20, 6⟩] 0)).map
        (fun l => l.getBX) = [6] ∧
    (readoutLCTs { stdConfig with readout_earliest_2 := true } stdConstants
        (run { stdConfig with readout_earliest_2 := true } stdConstants emptyState
          (some (alctAt [6, 9])) (some (clctAt [6, 9]))
          [⟨true, 1, false, 10, 6⟩] [⟨true, 4, 10, 0, 20, 6⟩] 0)).length ≤ 2 :=
  ⟨by decide,
   by
    rw [(earliest_two { stdConfig with readout_earliest_2 := true } stdConstants emptyState
      (some (alctAt [6, 9])) (some (clctAt [6, 9]))
      [⟨true, 1, false, 10, 6⟩] [⟨true, 4, 10, 0, 20, 6⟩] 0 rfl).2.1 6
      (by decide) (by decide)]
    decide,
   (earliest_two { stdConfig with readout_earliest_2 := true } stdConstants emptyState
      (some (alctAt [6, 9])) (some (clctAt [6, 9]))
      [⟨true, 1, false, 10, 6⟩] [⟨true, 4, 10, 0, 20, 6⟩] 0 rfl).2.2.2.1⟩

/-! ## A pass with one matched pair -/

/-- After a matched driving bin that is the only valid driving bin, the loop
state no longer changes. -/
theorem centricState_after_lone (d : Direction) (b : Nat) (x : Int)
    (hdrv : ∀ i : Int, d.drivingValid i = true ↔ i = b)
    (hm : (centricStep d (centricState d b) b).2 = some (Decision.matched x)) (n : Nat) :
    centricState d (b + 1 + n) = ⟨bumpMask (centricState d b).used_mask x, x⟩ := by
  induction n with
  | zero =>
    simp only [Nat.add_zero, centricState]
    exact (centricStep_matched_inv d _ _ x hm).2.2
  | succ n ih =>
    have hinv : d.drivingValid ((b + 1 + n : Nat) : Int) = false := by
      cases hv : d.drivingValid ((b + 1 + n : Nat) : Int) with
      | false => rfl
      | true =>
        have := (hdrv _).1 hv
        push_cast at this
        omega
    have : b + 1 + (n + 1) = (b + 1 + n) + 1 := by omega
    rw [this]
    simp only [centricState]
    rw [centricStep_of_invalid d _ _ hinv]
    exact ih

/-- With one valid driving bin `b`, matched to the only valid bin `x` of the
other stream, and `x` later than `b - half`, every other driving bin makes no
call. -/
theorem centricStep_lone_others (d : Direction) (b : Nat) (x : Int)
    (hdrv : ∀ i : Int, d.drivingValid i = true ↔ i = b)
    (hoth : ∀ i : Int, d.otherValid i = true ↔ i = x)
    (hm : (centricStep d (centricState d b) b).2 = some (Decision.matched x))
    (hx : (b : Int) < x + d.half) (i : Nat) (hi : i ≠ b) :
    (centricStep d (centricState d i) i).2 = none := by
  have hinv : d.drivingValid (i : Int) = false := by
    cases hv : d.drivingValid (i : Int) with
    | false => rfl
    | true =>
      have := (hdrv _).1 hv
      exact absurd (by exact_mod_cast this) hi
  rw [centricStep_of_invalid d _ _ hinv]
  dsimp only
  rw [if_neg]
  rintro ⟨-, h2, h3, -⟩
  have h4 := (hoth _).1 h3
  have hlt : b < i := by omega
  obtain ⟨n, hn⟩ : ∃ n, i = b + 1 + n := ⟨i - (b + 1), by omega⟩
  rw [hn, centricState_after_lone d b x hdrv hm n] at h2
  rw [hn] at h4
  dsimp only at h2
  omega

theorem foldl_applyCall_none (cfg : Config) (k : CSCConstants) (a : CSCAnodeLCTProcessor)
    (c : CSCCathodeLCTProcessor) (calls : List (Option CorrelateCall)) (st : MotherboardState)
    (h : ∀ x ∈ calls, x = none) : calls.foldl (applyCall cfg k a c) st = st := by
  induction calls generalizing st with
  | nil => rfl
  | cons x rest ih =>
    rw [List.foldl_cons, h x (List.mem_cons_self _ _)]
    exact ih st (fun y hy => h y (List.mem_cons_of_mem _ hy))

/-- A pass whose matching loop makes a call at the driving bin `b` only applies
`correlateLCTs` once. -/
theorem foldl_applyCall_single (cfg : Config) (k : CSCConstants) (a : CSCAnodeLCTProcessor)
    (c : CSCCathodeLCTProcessor) (f : Nat → Option CorrelateCall) (n b : Nat) (hb : b < n)
    (hf : ∀ i, i ≠ b → f i = none) (st : MotherboardState) :
    ((List.range' 0 n).map f).foldl (applyCall cfg k a c) st = applyCall cfg k a c st (f b) := by
  have hsplit : List.range' 0 n = List.range' 0 b ++ (b :: List.range' (b + 1) (n - (b + 1))) := by
    have h1 : n - (b + 1) + 1 + b = n := by omega
    have h2 := List.range'_append 0 b ((n - (b + 1)) + 1) 1
    simp only [Nat.zero_add, Nat.one_mul] at h2
    rw [List.range'_succ, h1] at h2
    exact h2.symm
  rw [hsplit, List.map_append, List.foldl_append, List.map_cons, List.foldl_cons,
    foldl_applyCall_none cfg k a c _ st, foldl_applyCall_none cfg k a c _ _]
  · intro x hx
    rw [List.mem_map] at hx
    obtain ⟨i, hi, hx⟩ := hx
    rw [List.mem_range'_1] at hi
    rw [← hx]
    exact hf i (by omega)
  · intro x hx
    rw [List.mem_map] at hx
    obtain ⟨i, hi, hx⟩ := hx
    rw [List.mem_range'_1] at hi
    rw [← hx]
    exact hf i (by omega)

/-- In the scenario of one ALCT at bin 5 and one CLCT at bin 6 with window size
7 and offset 0, the CLCT-centric pass is one `correlateLCTs` call, for the pair
(5, 6), on the cleared store. -/
theorem run_lone_pair (cfg : Config) (k : CSCConstants) (st : MotherboardState)
    (alctV : List CSCALCTDigi) (clctV : List CSCCLCTDigi) (alctBits : Nat)
    (hW : cfg.match_trig_window_size = 7) (ho : cfg.alctClctOffset_ = 0)
    (hdir : cfg.clct_to_alct = true)
    (hk1 : 6 < k.MAX_CLCT_TBINS) (hk2 : 5 < k.MAX_ALCT_TBINS)
    (hV : ¬ (alctV = [] ∧ clctV = [])) :
    (runClctCentric cfg k (alctAt [5]) (clctAt [6]))[6]?
      = some (some ⟨5, 6, LCTType.CLCTALCT⟩) ∧
    run cfg k st (some (alctAt [5])) (some (clctAt [6])) alctV clctV alctBits
      = correlateLCTs cfg k (encodeHighMultiplicityBits (clear k st) alctBits)
          ⟨true, 1, false, 10, 5⟩ noALCT ⟨true, 4, 10, 0, 20, 6⟩ noCLCT LCTType.CLCTALCT := by
  have hdrv : ∀ i : Int, (clctDirection cfg k (alctAt [5]) (clctAt [6])).drivingValid i = true
      ↔ i = ((6 : Nat) : Int) := fun i => clctAt_valid_iff 6 i
  have hoth : ∀ i : Int, (clctDirection cfg k (alctAt [5]) (clctAt [6])).otherValid i = true
      ↔ i = 5 := fun i => alctAt_valid_iff 5 i
  have hhalf : (clctDirection cfg k (alctAt [5]) (clctAt [6])).half = 3 := by
    simp [clctDirection, hW]
  have hoff : (clctDirection cfg k (alctAt [5]) (clctAt [6])).offset = 0 := ho
  have hmax : (clctDirection cfg k (alctAt [5]) (clctAt [6])).maxOther = k.MAX_ALCT_TBINS := rfl
  have hm := centricStep_lone_pair (clctDirection cfg k (alctAt [5]) (clctAt [6])) 6 5 hdrv hoth
    (by rw [hhalf, hoff]; norm_num) (by rw [hhalf, hoff]; norm_num) (by norm_num)
    (by rw [hmax]; exact_mod_cast hk2)
  have hothers := centricStep_lone_others (clctDirection cfg k (alctAt [5]) (clctAt [6])) 6 5
    hdrv hoth hm (by rw [hhalf]; norm_num)
  constructor
  · rw [runClctCentric_entry cfg k _ _ 6 hk1, hm]
    rfl
  · unfold run
    dsimp only
    have hempty : ¬ (alctV.isEmpty = true ∧ clctV.isEmpty = true) := by
      simpa [List.isEmpty_iff] using hV
    rw [if_neg hempty]
    unfold runMatching
    rw [if_pos hdir, runClctCentric_eq_map,
      foldl_applyCall_single cfg k _ _ _ k.MAX_CLCT_TBINS 6 hk1
        (fun i hi => by rw [hothers i hi]; rfl), hm]
    rfl

/-- C25: the scenario. Window size 7, offset 0, CLCTs driving, matched triggers
enabled, the ALCT stream valid only at bin 5 and the CLCT stream only at bin 6,
second-bests invalid, each primitive's time bin equal to its bin index. The
window scanned for driving bin 6 is [3, 9], the ALCT at bin 5 is matched, and the
store holds exactly one valid candidate: `firstLCT[5]`, of rank 1, time bin 5,
tagged CLCTALCT (the matched tag of the CLCT-centric branch), whose embedded ALCT
copy has time bin 5 - (LCT_CENTRAL_BX - tmb_l1a_window_size / 2). Every other
entry of `firstLCT` and every entry of `secondLCT` is invalid. -/
theorem scenario_match (cfg : Config) (k : CSCConstants) (st : MotherboardState)
    (alctV : List CSCALCTDigi) (clctV : List CSCCLCTDigi) (alctBits : Nat)
    (hW : cfg.match_trig_window_size = 7) (ho : cfg.alctClctOffset_ = 0)
    (hdir : cfg.clct_to_alct = true) (hen : cfg.match_trig_enable ≠ 0)
    (hk1 : 6 < k.MAX_CLCT_TBINS) (hk2 : 5 < k.MAX_ALCT_TBINS) (hk3 : 5 < k.MAX_LCT_TBINS)
    (hV : ¬ (alctV = [] ∧ clctV = [])) :
    (bx_alct_start cfg 6 = 3 ∧ bx_alct_stop cfg 6 = 9) ∧
    (runClctCentric cfg k (alctAt [5]) (clctAt [6]))[6]?
      = some (some ⟨5, 6, LCTType.CLCTALCT⟩) ∧
    ((run cfg k st (some (alctAt [5])) (some (clctAt [6])) alctV clctV alctBits).firstLCT 5
      = constructLCTs cfg k alctBits ⟨true, 1, false, 10, 5⟩ ⟨true, 4, 10, 0, 20, 6⟩
          LCTType.CLCTALCT 1) ∧
    (((run cfg k st (some (alctAt [5])) (some (clctAt [6])) alctV clctV
          alctBits).firstLCT 5).isValid = true ∧
      ((run cfg k st (some (alctAt [5])) (some (clctAt [6])) alctV clctV
          alctBits).firstLCT 5).trknmb = 1 ∧
      ((run cfg k st (some (alctAt [5])) (some (clctAt [6])) alctV clctV
          alctBits).firstLCT 5).getBX = 5 ∧
      ((run cfg k st (some (alctAt [5])) (some (clctAt [6])) alctV clctV
          alctBits).firstLCT 5).type = LCTType.CLCTALCT ∧
      ((run cfg k st (some (alctAt [5])) (some (clctAt [6])) alctV clctV
          alctBits).firstLCT 5).alct.getBX
        = 5 - (k.LCT_CENTRAL_BX - ((cfg.tmb_l1a_window_size / 2 : Nat) : Int))) ∧
    (∀ i : Int, 0 ≤ i → i < (k.MAX_LCT_TBINS : Int) → i ≠ 5 →
      ((run cfg k st (some (alctAt [5])) (some (clctAt [6])) alctV clctV
          alctBits).firstLCT i).isValid = false) ∧
    (∀ i : Int, 0 ≤ i → i < (k.MAX_LCT_TBINS : Int) →
      ((run cfg k st (some (alctAt [5])) (some (clctAt [6])) alctV clctV
          alctBits).secondLCT i).isValid = false) := by
  obtain ⟨htrace, hrun⟩ := run_lone_pair cfg k st alctV clctV alctBits hW ho hdir hk1 hk2 hV
  obtain ⟨h1, h2, -⟩ := correlateLCTs_store cfg k (encodeHighMultiplicityBits (clear k st) alctBits)
    ⟨true, 1, false, 10, 5⟩ noALCT ⟨true, 4, 10, 0, 20, 6⟩ noCLCT LCTType.CLCTALCT
  have hfc : firstCandidate cfg k alctBits ⟨true, 1, false, 10, 5⟩ noALCT
      ⟨true, 4, 10, 0, 20, 6⟩ noCLCT LCTType.CLCTALCT
      = some (constructLCTs cfg k alctBits ⟨true, 1, false, 10, 5⟩ ⟨true, 4, 10, 0, 20, 6⟩
          LCTType.CLCTALCT 1) := by
    simp [firstCandidate, substituteALCT, substituteCLCT, noALCT, noCLCT, hen]
  have hsc : secondCandidate cfg k alctBits ⟨true, 1, false, 10, 5⟩ noALCT
      ⟨true, 4, 10, 0, 20, 6⟩ noCLCT LCTType.CLCTALCT = none := by
    simp [secondCandidate, substituteALCT, substituteCLCT, noALCT, noCLCT]
  have hbx : (constructLCTs cfg k alctBits ⟨true, 1, false, 10, 5⟩ ⟨true, 4, 10, 0, 20, 6⟩
      LCTType.CLCTALCT 1).bx = 5 := by
    unfold constructLCTs
    dsimp only
    cases cfg.use_run3_patterns_ <;> cases cfg.useHighMultiplicityBits_ <;> simp
  have hfirst : (run cfg k st (some (alctAt [5])) (some (clctAt [6])) alctV clctV
      alctBits).firstLCT = writeLCT (clear k st).firstLCT 5
        (constructLCTs cfg k alctBits ⟨true, 1, false, 10, 5⟩ ⟨true, 4, 10, 0, 20, 6⟩
          LCTType.CLCTALCT 1) := by
    rw [hrun, h1]
    simp only [encodeHighMultiplicityBits]
    rw [hfc]
    dsimp only
    rw [hbx, if_pos ⟨by norm_num, by exact_mod_cast hk3⟩]
  have hsecond : (run cfg k st (some (alctAt [5])) (some (clctAt [6])) alctV clctV
      alctBits).secondLCT = (clear k st).secondLCT := by
    rw [hrun, h2]
    simp only [encodeHighMultiplicityBits]
    rw [hsc]
  have hentry : (run cfg k st (some (alctAt [5])) (some (clctAt [6])) alctV clctV
      alctBits).firstLCT 5 = constructLCTs cfg k alctBits ⟨true, 1, false, 10, 5⟩
        ⟨true, 4, 10, 0, 20, 6⟩ LCTType.CLCTALCT 1 := by
    rw [hfirst]; simp [writeLCT]
  refine ⟨⟨by simp [bx_alct_start, hW, ho], by simp [bx_alct_stop, hW, ho]⟩, htrace, hentry,
    ?_, ?_, ?_⟩
  · rw [hentry]
    unfold constructLCTs CSCCorrelatedLCTDigi.isValid CSCCorrelatedLCTDigi.getBX getBXShiftedALCT
    dsimp only
    cases cfg.use_run3_patterns_ <;> cases cfg.useHighMultiplicityBits_ <;> simp
  · intro i h0 h1' hne
    rw [hfirst]
    simp only [writeLCT, if_neg hne]
    rw [(clear_invalid k st i h0 h1').1]
    rfl
  · intro i h0 h1'
    rw [hsecond, (clear_invalid k st i h0 h1').2]
    rfl

/-- Witness of C25: the default configuration and buffer depths, started from a
stale store. -/
theorem scenario_match_witness :
    (runClctCentric stdConfig stdConstants (alctAt [5]) (clctAt [6]))[6]?
      = some (some ⟨5, 6, LCTType.CLCTALCT⟩) ∧
    ((run stdConfig stdConstants staleState (some (alctAt [5])) (some (clctAt [6]))
        [⟨true, 1, false, 10, 5⟩] [⟨true, 4, 10, 0, 20, 6⟩] 0).firstLCT 5).alct.getBX
      = 5 - (stdConstants.LCT_CENTRAL_BX - ((stdConfig.tmb_l1a_window_size / 2 : Nat) : Int)) ∧
    ((run stdConfig stdConstants staleState (some (alctAt [5])) (some (clctAt [6]))
        [⟨true, 1, false, 10, 5⟩] [⟨true, 4, 10, 0, 20, 6⟩] 0).firstLCT 7).isValid = false ∧
    ((run stdConfig stdConstants staleState (some (alctAt [5])) (some (clctAt [6]))
        [⟨true, 1, false, 10, 5⟩] [⟨true, 4, 10, 0, 20, 6⟩] 0).secondLCT 5).isValid = false :=
  ⟨(scenario_match stdConfig stdConstants staleState [⟨true, 1, false, 10, 5⟩]
      [⟨true, 4, 10, 0, 20, 6⟩] 0 rfl rfl rfl (by decide) (by decide) (by decide) (by decide)
      (by simp)).2.1,
   (scenario_match stdConfig stdConstants staleState [⟨true, 1, false, 10, 5⟩]
      [⟨true, 4, 10, 0, 20, 6⟩] 0 rfl rfl rfl (by decide) (by decide) (by decide) (by decide)
      (by simp)).2.2.2.1.2.2.2.2,
   (scenario_match stdConfig stdConstants staleState [⟨true, 1, false, 10, 5⟩]
      [⟨true, 4, 10, 0, 20, 6⟩] 0 rfl rfl rfl (by decide) (by decide) (by decide) (by decide)
      (by simp)).2.2.2.2.1 7 (by decide) (by decide) (by decide),
   (scenario_match stdConfig stdConstants staleState [⟨true, 1, false, 10, 5⟩]
      [⟨true, 4, 10, 0, 20, 6⟩] 0 rfl rfl rfl (by decide) (by decide) (by decide) (by decide)
      (by simp)).2.2.2.2.2 5 (by decide) (by decide)⟩

/-! ## Properties of every stored candidate -/

theorem firstCandidate_some (cfg : Config) (k : CSCConstants) (hmb : Nat)
    (bA sA : CSCALCTDigi) (bC sC : CSCCLCTDigi) (type : LCTType) (lct : CSCCorrelatedLCTDigi)
    (h : firstCandidate cfg k hmb bA sA bC sC type = some lct) :
    lct = constructLCTs cfg k hmb (substituteALCT bA sA).1 (substituteCLCT bC sC).1 type 1 ∧
    ((cfg.alct_trig_enable ≠ 0 ∧ (substituteALCT bA sA).1.isValid = true) ∨
      (cfg.clct_trig_enable ≠ 0 ∧ (substituteCLCT bC sC).1.isValid = true) ∨
      (cfg.match_trig_enable ≠ 0 ∧ (substituteALCT bA sA).1.isValid = true ∧
        (substituteCLCT bC sC).1.isValid = true)) := by
  unfold firstCandidate at h
  dsimp only at h
  split_ifs at h with hc
  exact ⟨(Option.some_inj.1 h).symm, hc⟩

theorem secondCandidate_some (cfg : Config) (k : CSCConstants) (hmb : Nat)
    (bA sA : CSCALCTDigi) (bC sC : CSCCLCTDigi) (type : LCTType) (lct : CSCCorrelatedLCTDigi)
    (h : secondCandidate cfg k hmb bA sA bC sC type = some lct) :
    lct = constructLCTs cfg k hmb (substituteALCT bA sA).2 (substituteCLCT bC sC).2 type 2 ∧
    ((cfg.alct_trig_enable ≠ 0 ∧ (substituteALCT bA sA).2.isValid = true) ∨
      (cfg.clct_trig_enable ≠ 0 ∧ (substituteCLCT bC sC).2.isValid = true) ∨
      (cfg.match_trig_enable ≠ 0 ∧ (substituteALCT bA sA).2.isValid = true ∧
        (substituteCLCT bC sC).2.isValid = true)) := by
  unfold secondCandidate at h
  dsimp only at h
  split_ifs at h with hc
  exact ⟨(Option.some_inj.1 h).symm, hc.2⟩

/-- The embedded copies and the high-multiplicity field of a constructed
candidate. -/
theorem constructLCTs_copies (cfg : Config) (k : CSCConstants) (hmb : Nat)
    (aLCT : CSCALCTDigi) (cLCT : CSCCLCTDigi) (type : LCTType) (trknmb : Nat) :
    (constructLCTs cfg k hmb aLCT cLCT type trknmb).alct = getBXShiftedALCT cfg k aLCT ∧
    (constructLCTs cfg k hmb aLCT cLCT type trknmb).clct = getBXShiftedCLCT cfg cLCT ∧
    (constructLCTs cfg k hmb aLCT cLCT type trknmb).type = type ∧
    (constructLCTs cfg k hmb aLCT cLCT type trknmb).hmt
      = (if cfg.use_run3_patterns_ = true ∧ cfg.useHighMultiplicityBits_ = true then hmb
         else 0) := by
  unfold constructLCTs
  dsimp only
  cases cfg.use_run3_patterns_ <;> cases cfg.useHighMultiplicityBits_ <;> simp [clearedLCT]

/-- A property of candidates that holds of every entry of the store and of the
candidates that a `correlateLCTs` call constructs holds of every entry after the
call. -/
theorem correlateLCTs_entries (cfg : Config) (k : CSCConstants)
    (P : CSCCorrelatedLCTDigi → Prop) (st : MotherboardState)
    (bA sA : CSCALCTDigi) (bC sC : CSCCLCTDigi) (type : LCTType)
    (hf : ∀ lct, firstCandidate cfg k st.highMultiplicityBits_ bA sA bC sC type = some lct → P lct)
    (hs : ∀ lct, secondCandidate cfg k st.highMultiplicityBits_ bA sA bC sC type = some lct → P lct)
    (h : ∀ i : Int, 0 ≤ i → i < (k.MAX_LCT_TBINS : Int) →
      P (st.firstLCT i) ∧ P (st.secondLCT i)) :
    ∀ i : Int, 0 ≤ i → i < (k.MAX_LCT_TBINS : Int) →
      P ((correlateLCTs cfg k st bA sA bC sC type).firstLCT i) ∧
      P ((correlateLCTs cfg k st bA sA bC sC type).secondLCT i) := by
  obtain ⟨h1, h2, -⟩ := correlateLCTs_store cfg k st bA sA bC sC type
  intro i hi0 hi1
  rw [h1, h2]
  constructor
  · cases hc : firstCandidate cfg k st.highMultiplicityBits_ bA sA bC sC type with
    | none => exact (h i hi0 hi1).1
    | some lct =>
      dsimp only
      split_ifs with hr
      · simp only [writeLCT]
        by_cases hib : i = lct.bx
        · rw [if_pos hib]; exact hf lct hc
        · rw [if_neg hib]; exact (h i hi0 hi1).1
      · exact (h i hi0 hi1).1
  · cases hc : secondCandidate cfg k st.highMultiplicityBits_ bA sA bC sC type with
    | none => exact (h i hi0 hi1).2
    | some lct =>
      dsimp only
      split_ifs with hr
      · simp only [writeLCT]
        by_cases hib : i = lct.bx
        · rw [if_pos hib]; exact hs lct hc
        · rw [if_neg hib]; exact (h i hi0 hi1).2
      · exact (h i hi0 hi1).2

theorem foldl_applyCall_entries (cfg : Config) (k : CSCConstants) (a : CSCAnodeLCTProcessor)
    (c : CSCCathodeLCTProcessor) (P : CSCCorrelatedLCTDigi → Prop) (hmb : Nat)
    (hP : ∀ (x y : Int) (type : LCTType) (lct : CSCCorrelatedLCTDigi),
      (firstCandidate cfg k hmb (a.getBestALCT x) (a.getSecondALCT x) (c.getBestCLCT y)
          (c.getSecondCLCT y) type = some lct ∨
        secondCandidate cfg k hmb (a.getBestALCT x) (a.getSecondALCT x) (c.getBestCLCT y)
          (c.getSecondCLCT y) type = some lct) → P lct)
    (calls : List (Option CorrelateCall)) (st : MotherboardState)
    (hst : st.highMultiplicityBits_ = hmb)
    (h : ∀ i : Int, 0 ≤ i → i < (k.MAX_LCT_TBINS : Int) →
      P (st.firstLCT i) ∧ P (st.secondLCT i)) :
    ∀ i : Int, 0 ≤ i → i < (k.MAX_LCT_TBINS : Int) →
      P ((calls.foldl (applyCall cfg k a c) st).firstLCT i) ∧
      P ((calls.foldl (applyCall cfg k a c) st).secondLCT i) := by
  induction calls generalizing st with
  | nil => exact h
  | cons call rest ih =>
    rw [List.foldl_cons]
    cases call with
    | none => exact ih st hst h
    | some call =>
      apply ih
      · show (correlateLCTs cfg k st _ _ _ _ _).highMultiplicityBits_ = hmb
        rw [(correlateLCTs_store cfg k st _ _ _ _ _).2.2, hst]
      · show ∀ i : Int, 0 ≤ i → i < (k.MAX_LCT_TBINS : Int) →
          P ((correlateLCTs cfg k st _ _ _ _ _).firstLCT i) ∧
          P ((correlateLCTs cfg k st _ _ _ _ _).secondLCT i)
        apply correlateLCTs_entries cfg k P st
        · intro lct hl
          rw [hst] at hl
          exact hP _ _ _ lct (Or.inl hl)
        · intro lct hl
          rw [hst] at hl
          exact hP _ _ _ lct (Or.inr hl)
        · exact h

/-- A property that holds of a cleared entry and of every candidate that a call
on the finders of the pass can construct holds of every entry of the store after
`run`. -/
theorem run_entries (cfg : Config) (k : CSCConstants) (st : MotherboardState)
    (alctProc : Option CSCAnodeLCTProcessor) (clctProc : Option CSCCathodeLCTProcessor)
    (alctV : List CSCALCTDigi) (clctV : List CSCCLCTDigi) (alctBits : Nat)
    (P : CSCCorrelatedLCTDigi → Prop) (hc : P clearedLCT)
    (hP : ∀ a c, alctProc = some a → clctProc = some c →
      ∀ (x y : Int) (type : LCTType) (lct : CSCCorrelatedLCTDigi),
      (firstCandidate cfg k alctBits (a.getBestALCT x) (a.getSecondALCT x) (c.getBestCLCT y)
          (c.getSecondCLCT y) type = some lct ∨
        secondCandidate cfg k alctBits (a.getBestALCT x) (a.getSecondALCT x) (c.getBestCLCT y)
          (c.getSecondCLCT y) type = some lct) → P lct) :
    ∀ i : Int, 0 ≤ i → i < (k.MAX_LCT_TBINS : Int) →
      P ((run cfg k st alctProc clctProc alctV clctV alctBits).firstLCT i) ∧
      P ((run cfg k st alctProc clctProc alctV clctV alctBits).secondLCT i) := by
  have hclear : ∀ i : Int, 0 ≤ i → i < (k.MAX_LCT_TBINS : Int) →
      P ((clear k st).firstLCT i) ∧ P ((clear k st).secondLCT i) := by
    intro i h0 h1
    rw [(clear_invalid k st i h0 h1).1, (clear_invalid k st i h0 h1).2]
    exact ⟨hc, hc⟩
  unfold run
  cases alctProc with
  | none => exact hclear
  | some a =>
    cases clctProc with
    | none => exact hclear
    | some c =>
      dsimp only
      split_ifs
      · exact hclear
      · exact foldl_applyCall_entries cfg k a c P alctBits (hP a c rfl rfl) _ _ rfl hclear

/-- C26: enable-flag gating. In either driving direction, if `alct_trig_enable`
and `clct_trig_enable` are both 0, every valid entry of the store after `run` has
both its embedded ALCT and its embedded CLCT valid; if `match_trig_enable` is 0 as
well, no entry of the store is valid; and if the anode finder has no valid
primitive in any bin, no entry of the store is valid either. -/
theorem enable_gating (cfg : Config) (k : CSCConstants) (st : MotherboardState)
    (alctProc : Option CSCAnodeLCTProcessor) (clctProc : Option CSCCathodeLCTProcessor)
    (alctV : List CSCALCTDigi) (clctV : List CSCCLCTDigi) (alctBits : Nat)
    (hA : cfg.alct_trig_enable = 0) (hC : cfg.clct_trig_enable = 0) :
    (∀ i : Int, 0 ≤ i → i < (k.MAX_LCT_TBINS : Int) →
      (((run cfg k st alctProc clctProc alctV clctV alctBits).firstLCT i).isValid = true →
        ((run cfg k st alctProc clctProc alctV clctV alctBits).firstLCT i).alct.isValid = true ∧
        ((run cfg k st alctProc clctProc alctV clctV alctBits).firstLCT i).clct.isValid = true) ∧
      (((run cfg k st alctProc clctProc alctV clctV alctBits).secondLCT i).isValid = true →
        ((run cfg k st alctProc clctProc alctV clctV alctBits).secondLCT i).alct.isValid = true ∧
        ((run cfg k st alctProc clctProc alctV clctV alctBits).secondLCT i).clct.isValid = true)) ∧
    (cfg.match_trig_enable = 0 →
      ∀ i : Int, 0 ≤ i → i < (k.MAX_LCT_TBINS : Int) →
        ((run cfg k st alctProc clctProc alctV clctV alctBits).firstLCT i).isValid = false ∧
        ((run cfg k st alctProc clctProc alctV clctV alctBits).secondLCT i).isValid = false) ∧
    ((∀ a, alctProc = some a →
        ∀ bx : Int, (a.getBestALCT bx).isValid = false ∧ (a.getSecondALCT bx).isValid = false) →
      ∀ i : Int, 0 ≤ i → i < (k.MAX_LCT_TBINS : Int) →
        ((run cfg k st alctProc clctProc alctV clctV alctBits).firstLCT i).isValid = false ∧
        ((run cfg k st alctProc clctProc alctV clctV alctBits).secondLCT i).isValid = false) := by
  refine ⟨?_, ?_, ?_⟩
  · apply run_entries cfg k st alctProc clctProc alctV clctV alctBits
      (fun lct => lct.isValid = true → lct.alct.isValid = true ∧ lct.clct.isValid = true)
    · intro h; exact absurd h (by decide)
    · intro a c _ _ x y type lct hl _
      rcases hl with hl | hl
      · obtain ⟨he, hc⟩ := firstCandidate_some cfg k alctBits _ _ _ _ type lct hl
        rw [he, (constructLCTs_copies cfg k alctBits _ _ type 1).1,
          (constructLCTs_copies cfg k alctBits _ _ type 1).2.1]
        rcases hc with hc | hc | hc
        · exact absurd hA hc.1
        · exact absurd hC hc.1
        · exact ⟨hc.2.1, hc.2.2⟩
      · obtain ⟨he, hc⟩ := secondCandidate_some cfg k alctBits _ _ _ _ type lct hl
        rw [he, (constructLCTs_copies cfg k alctBits _ _ type 2).1,
          (constructLCTs_copies cfg k alctBits _ _ type 2).2.1]
        rcases hc with hc | hc | hc
        · exact absurd hA hc.1
        · exact absurd hC hc.1
        · exact ⟨hc.2.1, hc.2.2⟩
  · intro hM
    apply run_entries cfg k st alctProc clctProc alctV clctV alctBits
      (fun lct => lct.isValid = false)
    · rfl
    · intro a c _ _ x y type lct hl
      rcases hl with hl | hl
      · rcases (firstCandidate_some cfg k alctBits _ _ _ _ type lct hl).2 with hc | hc | hc
        · exact absurd hA hc.1
        · exact absurd hC hc.1
        · exact absurd hM hc.1
      · rcases (secondCandidate_some cfg k alctBits _ _ _ _ type lct hl).2 with hc | hc | hc
        · exact absurd hA hc.1
        · exact absurd hC hc.1
        · exact absurd hM hc.1
  · intro hno
    apply run_entries cfg k st alctProc clctProc alctV clctV alctBits
      (fun lct => lct.isValid = false)
    · rfl
    · intro a c ha _ x y type lct hl
      have hsub : substituteALCT (a.getBestALCT x) (a.getSecondALCT x)
          = (a.getBestALCT x, a.getSecondALCT x) :=
        (substituteALCT_cases _ _).2.2 (by rw [(hno a ha x).1, (hno a ha x).2])
      rcases hl with hl | hl
      · rcases (firstCandidate_some cfg k alctBits _ _ _ _ type lct hl).2 with hc | hc | hc
        · exact absurd hA hc.1
        · exact absurd hC hc.1
        · rw [hsub] at hc
          have := hc.2.1
          rw [(hno a ha x).1] at this
          exact absurd this (by decide)
      · rcases (secondCandidate_some cfg k alctBits _ _ _ _ type lct hl).2 with hc | hc | hc
        · exact absurd hA hc.1
        · exact absurd hC hc.1
        · rw [hsub] at hc
          have := hc.2.1
          rw [(hno a ha x).2] at this
          exact absurd this (by decide)

/-- Witness of C26: no ALCT in any bin, a CLCT valid at bin 4 only, ALCT-only and
CLCT-only triggers off, matched triggers on. No candidate is stored at bin 4, and
`getLCTs` reports nothing. -/
theorem enable_gating_witness :
    stdConfig.alct_trig_enable = 0 ∧ stdConfig.clct_trig_enable = 0 ∧
    stdConfig.match_trig_enable = 1 ∧
    ((run stdConfig stdConstants staleState (some (alctAt [])) (some (clctAt [4])) []
        [⟨true, 4, 10, 0, 20, 4⟩] 0).firstLCT 4).isValid = false ∧
    ((run stdConfig stdConstants staleState (some (alctAt [])) (some (clctAt [4])) []
        [⟨true, 4, 10, 0, 20, 4⟩] 0).secondLCT 4).isValid = false ∧
    getLCTs stdConfig stdConstants
      (run stdConfig stdConstants staleState (some (alctAt [])) (some (clctAt [4])) []
        [⟨true, 4, 10, 0, 20, 4⟩] 0) = [] :=
  ⟨rfl, rfl, rfl,
   ((enable_gating stdConfig stdConstants staleState (some (alctAt [])) (some (clctAt [4])) []
      [⟨true, 4, 10, 0, 20, 4⟩] 0 rfl rfl).2.2
      (fun a ha bx => by
        rw [← Option.some_inj.1 ha]
        exact ⟨rfl, rfl⟩) 4 (by decide) (by decide)).1,
   ((enable_gating stdConfig stdConstants staleState (some (alctAt [])) (some (clctAt [4])) []
      [⟨true, 4, 10, 0, 20, 4⟩] 0 rfl rfl).2.2
      (fun a ha bx => by
        rw [← Option.some_inj.1 ha]
        exact ⟨rfl, rfl⟩) 4 (by decide) (by decide)).2,
   by decide⟩

/-! ## Provenance tags and high-multiplicity bits -/

/-- C27 (the code at the failing input): a chamber of station 3, ring 2, CLCTs
driving, only matched triggers enabled, an ALCT at bin 5 and a CLCT at bin 6.
`readoutLCTs` returns one candidate; its tag is CLCTALCT, and the provenance
checks of `checkValid` count two errors for it. -/
theorem provenance_tag_failing_input :
    (stdConfig.theStation, stdConfig.theRing) = (3, 2) ∧
    (readoutLCTs stdConfig stdConstants
        (run stdConfig stdConstants emptyState someAlct5 someClct6
          [⟨true, 1, false, 10, 5⟩] [⟨true, 4, 10, 0, 20, 6⟩] 0)).map
      (fun lct => (lct.getBX, lct.type, checkValidTypeErrors stdConfig lct))
      = [(5, LCTType.CLCTALCT, 2)] := by
  decide

/-- C28 (as stated, refuted): `useHighMultiplicityBits_` is enabled and
`use_run3_patterns_` is not; the anode finder reports the bits 3 in one pass and 5
in another. The member `highMultiplicityBits_` holds the bits of the pass, and
the candidate stored at bin 5 is valid with HMT field 0 in both passes. -/
theorem hmt_relay_counterexample :
    hmtOnlyConfig.useHighMultiplicityBits_ = true ∧
    (run hmtOnlyConfig stdConstants emptyState someAlct5 someClct6
        [⟨true, 1, false, 10, 5⟩] [⟨true, 4, 10, 0, 20, 6⟩] 3).highMultiplicityBits_ = 3 ∧
    ((run hmtOnlyConfig stdConstants emptyState someAlct5 someClct6
        [⟨true, 1, false, 10, 5⟩] [⟨true, 4, 10, 0, 20, 6⟩] 3).firstLCT 5).isValid = true ∧
    ((run hmtOnlyConfig stdConstants emptyState someAlct5 someClct6
        [⟨true, 1, false, 10, 5⟩] [⟨true, 4, 10, 0, 20, 6⟩] 3).firstLCT 5).hmt = 0 ∧
    ((run hmtOnlyConfig stdConstants emptyState someAlct5 someClct6
        [⟨true, 1, false, 10, 5⟩] [⟨true, 4, 10, 0, 20, 6⟩] 5).firstLCT 5).isValid = true ∧
    ((run hmtOnlyConfig stdConstants emptyState someAlct5 someClct6
        [⟨true, 1, false, 10, 5⟩] [⟨true, 4, 10, 0, 20, 6⟩] 5).firstLCT 5).hmt = 0 := by
  decide

/-- C28 (amended): when `use_run3_patterns_` and `useHighMultiplicityBits_` are
both enabled, `encodeHighMultiplicityBits` stores its argument unchanged,
`constructLCTs` copies the stored value into the HMT field of the candidate, and
every valid entry of the store after `run` carries as its HMT field the bits
`alctBits` reported by the anode finder for that pass. -/
theorem hmt_relay (cfg : Config) (k : CSCConstants) (st : MotherboardState)
    (alctProc : Option CSCAnodeLCTProcessor) (clctProc : Option CSCCathodeLCTProcessor)
    (alctV : List CSCALCTDigi) (clctV : List CSCCLCTDigi) (alctBits : Nat)
    (h3 : cfg.use_run3_patterns_ = true) (hH : cfg.useHighMultiplicityBits_ = true) :
    (encodeHighMultiplicityBits st alctBits).highMultiplicityBits_ = alctBits ∧
    (∀ (hmb : Nat) (aLCT : CSCALCTDigi) (cLCT : CSCCLCTDigi) (type : LCTType) (trknmb : Nat),
      (constructLCTs cfg k hmb aLCT cLCT type trknmb).hmt = hmb) ∧
    (∀ i : Int, 0 ≤ i → i < (k.MAX_LCT_TBINS : Int) →
      (((run cfg k st alctProc clctProc alctV clctV alctBits).firstLCT i).isValid = true →
        ((run cfg k st alctProc clctProc alctV clctV alctBits).firstLCT i).hmt = alctBits) ∧
      (((run cfg k st alctProc clctProc alctV clctV alctBits).secondLCT i).isValid = true →
        ((run cfg k st alctProc clctProc alctV clctV alctBits).secondLCT i).hmt = alctBits)) := by
  have hcopy : ∀ (hmb : Nat) (aLCT : CSCALCTDigi) (cLCT : CSCCLCTDigi) (type : LCTType)
      (trknmb : Nat), (constructLCTs cfg k hmb aLCT cLCT type trknmb).hmt = hmb := by
    intro hmb aLCT cLCT type trknmb
    rw [(constructLCTs_copies cfg k hmb aLCT cLCT type trknmb).2.2.2, if_pos ⟨h3, hH⟩]
  refine ⟨rfl, hcopy, ?_⟩
  apply run_entries cfg k st alctProc clctProc alctV clctV alctBits
    (fun lct => lct.isValid = true → lct.hmt = alctBits)
  · intro h; exact absurd h (by decide)
  · intro a c _ _ x y type lct hl _
    rcases hl with hl | hl
    · rw [(firstCandidate_some cfg k alctBits _ _ _ _ type lct hl).1]
      exact hcopy _ _ _ _ _
    · rw [(secondCandidate_some cfg k alctBits _ _ _ _ type lct hl).1]
      exact hcopy _ _ _ _ _

/-- Witness of C28: Run-3 patterns and high-multiplicity bits enabled, an ALCT at
bin 5 and a CLCT at bin 6, the anode finder reporting the bits 3. The candidate
stored at bin 5 is valid and its HMT field is 3. -/
theorem hmt_relay_witness :
    hmtConfig.use_run3_patterns_ = true ∧ hmtConfig.useHighMultiplicityBits_ = true ∧
    ((run hmtConfig stdConstants staleState someAlct5 someClct6
        [⟨true, 1, false, 10, 5⟩] [⟨true, 4, 10, 0, 20, 6⟩] 3).firstLCT 5).isValid = true ∧
    ((run hmtConfig stdConstants staleState someAlct5 someClct6
        [⟨true, 1, false, 10, 5⟩] [⟨true, 4, 10, 0, 20, 6⟩] 3).firstLCT 5).hmt = 3 :=
  ⟨rfl, rfl, by decide,
   ((hmt_relay hmtConfig stdConstants staleState someAlct5 someClct6
      [⟨true, 1, false, 10, 5⟩] [⟨true, 4, 10, 0, 20, 6⟩] 3 rfl rfl).2.2 5 (by decide)
      (by decide)).1 (by decide)⟩

/-! ## The single-sided fallbacks at their failing inputs -/

/-- C29 (the code at the failing input): CLCTs driving, window size 7, offset
0, used ALCTs dropped, matched and CLCT-only triggers enabled, an ALCT at bin 6
and CLCTs at bins 5 and 6. The CLCT at bin 5 is matched to the ALCT at bin 6; the
CLCT at bin 6 finds no unused ALCT, and the call made for it looks up the ALCT at
bin 6, which is valid. The candidate stored at bin 6 is tagged CLCTONLY, holds a
valid ALCT, and has quality 15. -/
theorem fallback_dummy_failing_input :
    (runClctCentric clctOnlyConfig stdConstants (alctAt [6]) (clctAt [5, 6]))[5]?
      = some (some ⟨6, 5, LCTType.CLCTALCT⟩) ∧
    (runClctCentric clctOnlyConfig stdConstants (alctAt [6]) (clctAt [5, 6]))[6]?
      = some (some ⟨6, 6, LCTType.CLCTONLY⟩) ∧
    ((alctAt [6]).getBestALCT 6).isValid = true ∧
    (getLCTs clctOnlyConfig stdConstants
        (run clctOnlyConfig stdConstants emptyState (some (alctAt [6])) (some (clctAt [5, 6]))
          [⟨true, 1, false, 10, 6⟩] [⟨true, 4, 10, 0, 20, 5⟩, ⟨true, 4, 10, 0, 20, 6⟩] 0)).map
      (fun lct => (lct.getBX, lct.type, lct.quality, lct.alct.isValid, lct.clct.isValid))
      = [(6, LCTType.CLCTONLY, 15, true, true)] := by
  decide

/-- C30 (the code at the failing input): ALCTs driving, window size 7, offset
1, matched and CLCT-only triggers enabled, a CLCT at bin 2 and an ALCT at bin 6.
At the invalid driving bin 5 the fallback emits the CLCT of bin 2 as a
single-sided candidate; at driving bin 6 the window [2, 8] contains bin 2, and the
same CLCT is matched to the ALCT of bin 6. Both candidates are in the store. -/
theorem later_match_failing_input :
    ((alctAt [6]).getBestALCT 5).isValid = false ∧
    (runAlctCentric offsetConfig stdConstants (alctAt [6]) (clctAt [2]))[5]?
      = some (some ⟨5, 2, LCTType.CLCTONLY⟩) ∧
    (bx_clct_start offsetConfig 6, bx_clct_stop offsetConfig 6) = (2, 8) ∧
    (runAlctCentric offsetConfig stdConstants (alctAt [6]) (clctAt [2]))[6]?
      = some (some ⟨6, 2, LCTType.ALCTCLCT⟩) ∧
    (getLCTs offsetConfig stdConstants
        (run offsetConfig stdConstants emptyState (some (alctAt [6])) (some (clctAt [2]))
          [⟨true, 1, false, 10, 6⟩] [⟨true, 4, 10, 0, 20, 2⟩] 0)).map
      (fun lct => (lct.getBX, lct.type, lct.alct.isValid, lct.clct.isValid))
      = [(2, LCTType.CLCTONLY, false, true), (6, LCTType.ALCTCLCT, true, true)] := by
  decide

/-! ## The last-matched marker -/

/-- The marker on entry to a driving bin is 0 or the bin matched at an earlier
driving bin. -/
theorem centricState_marker_origin (d : Direction) (b : Nat) :
    (centricState d b).bx_matched = 0 ∨
      ∃ b1 : Nat, b1 < b ∧ (centricStep d (centricState d b1) b1).2
        = some (Decision.matched (centricState d b).bx_matched) := by
  induction b with
  | zero => left; rfl
  | succ n ih =>
    simp only [centricState]
    rcases centricStep_state_cases d (centricState d n) n with h | ⟨x, h⟩
    · rw [h]
      rcases ih with h0 | ⟨b1, hb1, hm⟩
      · left; exact h0
      · right; exact ⟨b1, by omega, hm⟩
    · right
      refine ⟨n, by omega, ?_⟩
      rw [(centricStep_matched_inv d _ _ x h).2.2]
      exact h

theorem centricState_marker_nonneg (d : Direction) (b : Nat) :
    0 ≤ (centricState d b).bx_matched := by
  rcases centricState_marker_origin d b with h0 | ⟨b1, -, hm⟩
  · rw [h0]
  · exact (centricStep_matched_inv d _ _ _ hm).2.1.1

theorem centricState_mask_nonneg (d : Direction) (b : Nat) (x : Int) :
    0 ≤ (centricState d b).used_mask x :=
  centricState_mask_mono d x 0 b (Nat.zero_le b)

/-- The marker never decreases from one driving bin to the next. -/
theorem centricState_marker_step (d : Direction) (b : Nat) :
    (centricState d b).bx_matched ≤ (centricState d (b + 1)).bx_matched := by
  simp only [centricState]
  rcases centricStep_state_cases d (centricState d b) b with h | ⟨x, h⟩
  · rw [h]
  · obtain ⟨hv, hel, hst⟩ := centricStep_matched_inv d _ _ x h
    rw [hst]
    show (centricState d b).bx_matched ≤ x
    rcases centricState_marker_origin d b with h0 | ⟨b1, hb1, hm⟩
    · rw [h0]; exact hel.1
    · by_contra hlt
      obtain ⟨hv1, -, -⟩ := centricStep_matched_inv d _ _ _ hm
      have w1 := (centricStep_matched_iff d _ b1 _ hv1).1 hm
      have w2 := (centricStep_matched_iff d _ b x hv).1 h
      have hb : (b1 : Int) < (b : Int) := by exact_mod_cast hb1
      apply w1.2.2.2 x (by omega) (by omega)
      refine ⟨hel.1, hel.2.1, hel.2.2.1, fun hd => ?_⟩
      have hz := hel.2.2.2 hd
      have hmono := centricState_mask_mono d x b1 b (by omega)
      have hnn := centricState_mask_nonneg d b1 x
      omega

theorem centricState_marker_mono (d : Direction) (b1 b2 : Nat) (h : b1 ≤ b2) :
    (centricState d b1).bx_matched ≤ (centricState d b2).bx_matched := by
  induction b2 with
  | zero =>
    have : b1 = 0 := by omega
    rw [this]
  | succ n ih =>
    by_cases hb : b1 = n + 1
    · rw [hb]
    · exact le_trans (ih (by omega)) (centricState_marker_step d n)

/-- The bin emitted by the invalid-driving-bin fallback is above the marker,
hence above 0. -/
theorem centricStep_opposite_pos (d : Direction) (b : Nat) (x : Int)
    (h : (centricStep d (centricState d b) b).2 = some (Decision.oppositeOnly x)) :
    (centricState d b).bx_matched < x ∧ 0 < x := by
  have hgt : (centricState d b).bx_matched < x := by
    cases hv : d.drivingValid b with
    | false =>
      rw [centricStep_of_invalid d _ _ hv] at h
      split_ifs at h with hc
      have hx : (b : Int) - d.half = x := by simpa using h
      rw [← hx]
      exact hc.2.1
    | true =>
      cases hs : windowScan d (centricState d b).used_mask
          (((b : Int) + d.half + d.offset) - ((b : Int) - d.half + d.offset) + 1).toNat
          ((b : Int) - d.half + d.offset) with
      | none =>
        rw [centricStep_of_scan_none d _ _ hv hs] at h
        (split_ifs at h; simp at h)
      | some x' =>
        rw [centricStep_of_scan_some d _ _ x' hv hs] at h
        simp at h
  exact ⟨hgt, lt_of_le_of_lt (centricState_marker_nonneg d b) hgt⟩

theorem clctCall_opposite (b : Int) (r : Option Decision) (c : CorrelateCall)
    (h : Option.map (clctCall b) r = some c) (ht : c.type = LCTType.ALCTONLY) :
    r = some (Decision.oppositeOnly c.bx_alct) := by
  cases r with
  | none => simp at h
  | some dec =>
    cases dec with
    | matched x => simp [clctCall] at h; rw [← h] at ht; simp at ht
    | drivingOnly => simp [clctCall] at h; rw [← h] at ht; simp at ht
    | oppositeOnly x => simp [clctCall] at h; rw [← h]

theorem alctCall_opposite (b : Int) (r : Option Decision) (c : CorrelateCall)
    (h : Option.map (alctCall b) r = some c) (ht : c.type = LCTType.CLCTONLY) :
    r = some (Decision.oppositeOnly c.bx_clct) := by
  cases r with
  | none => simp at h
  | some dec =>
    cases dec with
    | matched x => simp [alctCall] at h; rw [← h] at ht; simp at ht
    | drivingOnly => simp [alctCall] at h; rw [← h] at ht; simp at ht
    | oppositeOnly x => simp [alctCall] at h; rw [← h]

/-- C31: the last-matched marker. In both driving directions the marker starts at
0 and never decreases over the driving bins of a pass, and the bin of the
opposite stream that the invalid-driving-bin fallback emits (the call tagged
ALCTONLY when CLCTs drive, CLCTONLY when ALCTs drive) is strictly above the marker
of that driving bin and therefore never bin 0, whatever the primitives and the
enable flags. -/
theorem marker_excludes_bin_zero (cfg : Config) (k : CSCConstants)
    (alctProc : CSCAnodeLCTProcessor) (clctProc : CSCCathodeLCTProcessor) :
    ((clctCentricState cfg k alctProc clctProc 0).bx_matched = 0 ∧
      (alctCentricState cfg k alctProc clctProc 0).bx_matched = 0) ∧
    (∀ b1 b2 : Nat, b1 ≤ b2 →
      (clctCentricState cfg k alctProc clctProc b1).bx_matched
        ≤ (clctCentricState cfg k alctProc clctProc b2).bx_matched) ∧
    (∀ b1 b2 : Nat, b1 ≤ b2 →
      (alctCentricState cfg k alctProc clctProc b1).bx_matched
        ≤ (alctCentricState cfg k alctProc clctProc b2).bx_matched) ∧
    (∀ (b : Nat) (c : CorrelateCall),
      (runClctCentric cfg k alctProc clctProc)[b]? = some (some c) →
      c.type = LCTType.ALCTONLY →
        (clctCentricState cfg k alctProc clctProc b).bx_matched < c.bx_alct ∧ 0 < c.bx_alct) ∧
    (∀ (b : Nat) (c : CorrelateCall),
      (runAlctCentric cfg k alctProc clctProc)[b]? = some (some c) →
      c.type = LCTType.CLCTONLY →
        (alctCentricState cfg k alctProc clctProc b).bx_matched < c.bx_clct ∧ 0 < c.bx_clct) := by
  refine ⟨⟨rfl, rfl⟩, ?_, ?_, ?_, ?_⟩
  · intro b1 b2 h
    rw [clctCentricState_eq, clctCentricState_eq]
    exact centricState_marker_mono _ b1 b2 h
  · intro b1 b2 h
    rw [alctCentricState_eq, alctCentricState_eq]
    exact centricState_marker_mono _ b1 b2 h
  · intro b c h ht
    have hb : b < k.MAX_CLCT_TBINS := by
      have := lt_length_of_getElem?_eq_some _ _ _ h
      rwa [runClctCentric_length] at this
    rw [runClctCentric_entry cfg k alctProc clctProc b hb] at h
    rw [clctCentricState_eq]
    exact centricStep_opposite_pos _ b c.bx_alct
      (clctCall_opposite b _ c (Option.some_inj.1 h) ht)
  · intro b c h ht
    have hb : b < k.MAX_ALCT_TBINS := by
      have := lt_length_of_getElem?_eq_some _ _ _ h
      rwa [runAlctCentric_length] at this
    rw [runAlctCentric_entry cfg k alctProc clctProc b hb] at h
    rw [alctCentricState_eq]
    exact centricStep_opposite_pos _ b c.bx_clct
      (alctCall_opposite b _ c (Option.some_inj.1 h) ht)

/-- Witness of C31: CLCTs driving, window size 7, ALCT-only triggers enabled, no
CLCT at all. A valid ALCT at bin 0 is emitted at no driving bin (the whole trace
is empty, driving bin 3 included), while a valid ALCT at bin 1 is emitted at
driving bin 4. -/
theorem marker_excludes_bin_zero_witness :
    ((alctAt [0]).getBestALCT 0).isValid = true ∧ alctOnlyConfig.alct_trig_enable = 1 ∧
    runClctCentric alctOnlyConfig stdConstants (alctAt [0]) (clctAt [])
      = List.replicate 12 none ∧
    (runClctCentric alctOnlyConfig stdConstants (alctAt [1]) (clctAt []))[4]?
      = some (some ⟨1, 4, LCTType.ALCTONLY⟩) ∧
    (0 : Int) < (CorrelateCall.mk 1 4 LCTType.ALCTONLY).bx_alct :=
  ⟨by decide, rfl, by decide, by decide,
   ((marker_excludes_bin_zero alctOnlyConfig stdConstants (alctAt [1]) (clctAt [])).2.2.2.1 4
      ⟨1, 4, LCTType.ALCTONLY⟩ (by decide) rfl).2⟩

/-! ## Unsigned arithmetic in the window bounds -/

/-- C32: unsigned arithmetic is harmless. For every driving bin b in [0, 16),
every window size W <= 16 and every offset o with |o| < 2^16, the five
expressions b - W/2 + o, b + W/2 + o, b - W/2 - o, b + W/2 - o and b - W/2,
evaluated modulo 2^32 and converted to a signed 32-bit int, equal the exact
integers used by the embedding of the matching loops; in particular a window
start below bin 0 is negative after the conversion. -/
theorem unsigned_harmless (cfg : Config) (b : Int)
    (hb0 : 0 ≤ b) (hb1 : b < 16) (hW : cfg.match_trig_window_size ≤ 16)
    (ho0 : -65536 < cfg.alctClctOffset_) (ho1 : cfg.alctClctOffset_ < 65536) :
    bx_alct_start32 cfg b = bx_alct_start cfg b ∧
    bx_alct_stop32 cfg b = bx_alct_stop cfg b ∧
    bx_clct_start32 cfg b = bx_clct_start cfg b ∧
    bx_clct_stop32 cfg b = bx_clct_stop cfg b ∧
    fallback_bx32 cfg b = b - ((cfg.match_trig_window_size / 2 : Nat) : Int) ∧
    (bx_alct_start cfg b < 0 → bx_alct_start32 cfg b < 0) ∧
    (bx_clct_start cfg b < 0 → bx_clct_start32 cfg b < 0) := by
  have e1 : bx_alct_start32 cfg b = bx_alct_start cfg b := by
    simp only [bx_alct_start32, bx_alct_start, toI32, addU32, subU32, toU32, halfWindowU32]
    split_ifs <;> omega
  have e3 : bx_clct_start32 cfg b = bx_clct_start cfg b := by
    simp only [bx_clct_start32, bx_clct_start, toI32, addU32, subU32, toU32, halfWindowU32]
    split_ifs <;> omega
  refine ⟨e1, ?_, e3, ?_, ?_, fun h => by rw [e1]; exact h, fun h => by rw [e3]; exact h⟩
  · simp only [bx_alct_stop32, bx_alct_stop, toI32, addU32, subU32, toU32, halfWindowU32]
    split_ifs <;> omega
  · simp only [bx_clct_stop32, bx_clct_stop, toI32, addU32, subU32, toU32, halfWindowU32]
    split_ifs <;> omega
  · simp only [fallback_bx32, toI32, addU32, subU32, toU32, halfWindowU32]
    split_ifs <;> omega

/-- Witness of C32: the default configuration (window size 7, offset 0) at
driving bin 0. The window start 0 - 3 + 0 wraps to 2^32 - 3 as an unsigned value
and is -3 after the conversion to `int`. -/
theorem unsigned_harmless_witness :
    stdConfig.match_trig_window_size ≤ 16 ∧
    addU32 (subU32 (toU32 0) (halfWindowU32 stdConfig)) (toU32 stdConfig.alctClctOffset_)
      = 4294967293 ∧
    bx_alct_start stdConfig 0 = -3 ∧
    bx_alct_start32 stdConfig 0 = bx_alct_start stdConfig 0 ∧
    bx_alct_start32 stdConfig 0 < 0 :=
  ⟨by decide, by decide, by decide,
   (unsigned_harmless stdConfig 0 (by decide) (by decide) (by decide) (by decide)
      (by decide)).1,
   (unsigned_harmless stdConfig 0 (by decide) (by decide) (by decide) (by decide)
      (by decide)).2.2.2.2.2.1 (by decide)⟩

/-! ## Index ranges of the accesses of `run` -/

theorem Access.within_mono (a1 c1 m1 l1 a2 c2 m2 l2 : Int) (ha : a1 ≤ a2) (hc : c1 ≤ c2)
    (hm : m1 ≤ m2) (hl : l1 ≤ l2) (x : Access) (h : x.within a1 c1 m1 l1 = true) :
    x.within a2 c2 m2 l2 = true := by
  cases x <;> simp only [Access.within, decide_eq_true_eq] at h ⊢ <;> omega

/-- The inner loop of the CLCT-centric branch reads the mask and the anode
finder only at bins that passed its range test. -/
theorem scanAlctWindowAccesses_within (cfg : Config) (k : CSCConstants)
    (alctProc : CSCAnodeLCTProcessor) (mask : Int → Int) (maxC maxLct : Int) (n : Nat) :
    ∀ (bx : Int), ∀ x ∈ scanAlctWindowAccesses cfg k alctProc mask n bx,
      x.within (k.MAX_ALCT_TBINS : Int) maxC (k.MAX_ALCT_TBINS : Int) maxLct = true := by
  induction n with
  | zero => intro bx x hx; simp [scanAlctWindowAccesses] at hx
  | succ n ih =>
    intro bx x hx
    unfold scanAlctWindowAccesses at hx
    split_ifs at hx with h1 h2 h3 h4 h5 h6
    all_goals first
      | exact ih _ x hx
      | (simp only [List.mem_append, List.mem_cons, List.mem_singleton, List.not_mem_nil,
          List.nil_append, false_or, or_false] at hx
         rcases hx with hx | hx | hx
         all_goals first
           | exact ih _ x hx
           | (rw [hx]; simp only [Access.within, decide_eq_true_eq]; omega))
      | (simp only [List.mem_append, List.mem_cons, List.mem_singleton, List.not_mem_nil,
          List.nil_append, false_or, or_false] at hx
         rcases hx with hx | hx
         all_goals first
           | exact ih _ x hx
           | (rw [hx]; simp only [Access.within, decide_eq_true_eq]; omega))
      | (simp only [List.mem_append, List.mem_cons, List.mem_singleton, List.not_mem_nil,
          List.nil_append, false_or, or_false] at hx
         rw [hx]; simp only [Access.within, decide_eq_true_eq]; omega)

/-- The inner loop of the ALCT-centric branch reads the mask and the cathode
finder only at bins that passed its range test. -/
theorem scanClctWindowAccesses_within (cfg : Config) (k : CSCConstants)
    (clctProc : CSCCathodeLCTProcessor) (mask : Int → Int) (maxA maxLct : Int) (n : Nat) :
    ∀ (bx : Int), ∀ x ∈ scanClctWindowAccesses cfg k clctProc mask n bx,
      x.within maxA (k.MAX_CLCT_TBINS : Int) (k.MAX_CLCT_TBINS : Int) maxLct = true := by
  induction n with
  | zero => intro bx x hx; simp [scanClctWindowAccesses] at hx
  | succ n ih =>
    intro bx x hx
    unfold scanClctWindowAccesses at hx
    split_ifs at hx with h1 h2 h3 h4 h5 h6
    all_goals first
      | exact ih _ x hx
      | (simp only [List.mem_append, List.mem_cons, List.mem_singleton, List.not_mem_nil,
          List.nil_append, false_or, or_false] at hx
         rcases hx with hx | hx | hx
         all_goals first
           | exact ih _ x hx
           | (rw [hx]; simp only [Access.within, decide_eq_true_eq]; omega))
      | (simp only [List.mem_append, List.mem_cons, List.mem_singleton, List.not_mem_nil,
          List.nil_append, false_or, or_false] at hx
         rcases hx with hx | hx
         all_goals first
           | exact ih _ x hx
           | (rw [hx]; simp only [Access.within, decide_eq_true_eq]; omega))
      | (simp only [List.mem_append, List.mem_cons, List.mem_singleton, List.not_mem_nil,
          List.nil_append, false_or, or_false] at hx
         rw [hx]; simp only [Access.within, decide_eq_true_eq]; omega)

/-- The writes of `correlateLCTs` are inside the store. -/
theorem correlateLCTsWrites_within (cfg : Config) (k : CSCConstants) (hmb : Nat)
    (bA sA : CSCALCTDigi) (bC sC : CSCCLCTDigi) (type : LCTType) (maxA maxC maxMask : Int) :
    ∀ x ∈ correlateLCTsWrites cfg k hmb bA sA bC sC type,
      x.within maxA maxC maxMask (k.MAX_LCT_TBINS : Int) = true := by
  intro x hx
  unfold correlateLCTsWrites at hx
  rw [List.mem_append] at hx
  rcases hx with hx | hx
  · cases hf : firstCandidate cfg k hmb bA sA bC sC type with
    | none => rw [hf] at hx; simp at hx
    | some lct =>
      rw [hf] at hx
      dsimp only at hx
      split_ifs at hx with hr
      · rw [List.mem_singleton] at hx
        rw [hx]; simp only [Access.within, decide_eq_true_eq]; omega
      · simp at hx
  · cases hf : secondCandidate cfg k hmb bA sA bC sC type with
    | none => rw [hf] at hx; simp at hx
    | some lct =>
      rw [hf] at hx
      dsimp only at hx
      split_ifs at hx with hr
      · rw [List.mem_singleton] at hx
        rw [hx]; simp only [Access.within, decide_eq_true_eq]; omega
      · simp at hx

/-- The accesses of a `correlateLCTs(...)` statement whose two lookup bins are
in the ranges `maxA` and `maxC`. -/
theorem callAccesses_within (cfg : Config) (k : CSCConstants) (hmb : Nat)
    (alctProc : CSCAnodeLCTProcessor) (clctProc : CSCCathodeLCTProcessor) (call : CorrelateCall)
    (maxA maxC maxMask : Int) (ha : 0 ≤ call.bx_alct ∧ call.bx_alct < maxA)
    (hc : 0 ≤ call.bx_clct ∧ call.bx_clct < maxC) :
    ∀ x ∈ callAccesses cfg k hmb alctProc clctProc call,
      x.within maxA maxC maxMask (k.MAX_LCT_TBINS : Int) = true := by
  intro x hx
  unfold callAccesses at hx
  rw [List.mem_append] at hx
  rcases hx with hx | hx
  · simp only [List.mem_cons, List.mem_singleton, List.not_mem_nil, or_false] at hx
    rcases hx with hx | hx | hx | hx <;>
      (rw [hx]; simp only [Access.within, decide_eq_true_eq]; omega)
  · exact correlateLCTsWrites_within cfg k hmb _ _ _ _ _ maxA maxC maxMask x hx

theorem scanAlctWindow_range (cfg : Config) (k : CSCConstants) (alctProc : CSCAnodeLCTProcessor)
    (mask : Int → Int) (n : Nat) (s x : Int)
    (h : scanAlctWindow cfg k alctProc mask n s = some x) :
    0 ≤ x ∧ x < (k.MAX_ALCT_TBINS : Int) := by
  rw [scanAlctWindow_eq cfg k alctProc ⟨fun _ => noCLCT, fun _ => noCLCT⟩,
    windowScan_eq_some_iff] at h
  exact ⟨h.2.2.1.1, h.2.2.1.2.1⟩

theorem scanClctWindow_range (cfg : Config) (k : CSCConstants) (clctProc : CSCCathodeLCTProcessor)
    (mask : Int → Int) (n : Nat) (s x : Int)
    (h : scanClctWindow cfg k clctProc mask n s = some x) :
    0 ≤ x ∧ x < (k.MAX_CLCT_TBINS : Int) := by
  rw [scanClctWindow_eq cfg k ⟨fun _ => noALCT, fun _ => noALCT⟩ clctProc,
    windowScan_eq_some_iff] at h
  exact ⟨h.2.2.1.1, h.2.2.1.2.1⟩

/-- The accesses of one driving bin of the CLCT-centric loop: the lookups on the
cathode finder, the mask accesses and the store writes are in range; the lookups
on the anode finder are at bins below `M`, any bound that is at least both buffer
depths. -/
theorem clctCentricAccesses_within (cfg : Config) (k : CSCConstants) (hmb : Nat)
    (alctProc : CSCAnodeLCTProcessor) (clctProc : CSCCathodeLCTProcessor) (st : LoopState)
    (b M : Int) (hb0 : 0 ≤ b) (hb1 : b < (k.MAX_CLCT_TBINS : Int))
    (hA : (k.MAX_ALCT_TBINS : Int) ≤ M) (hC : (k.MAX_CLCT_TBINS : Int) ≤ M) :
    ∀ x ∈ clctCentricAccesses cfg k hmb alctProc clctProc st b,
      x.within M (k.MAX_CLCT_TBINS : Int) (k.MAX_ALCT_TBINS : Int) (k.MAX_LCT_TBINS : Int)
        = true := by
  intro x hx
  unfold clctCentricAccesses at hx
  rw [List.mem_cons] at hx
  rcases hx with hx | hx
  · rw [hx]; simp only [Access.within, decide_eq_true_eq]; omega
  · by_cases hv : (clctProc.getBestCLCT b).isValid = true
    · rw [if_pos hv, List.mem_append] at hx
      rcases hx with hx | hx
      · exact Access.within_mono _ _ _ _ _ _ _ _ hA le_rfl le_rfl le_rfl x
          (scanAlctWindowAccesses_within cfg k alctProc st.used_mask _ _ _ _ x hx)
      · cases hs : scanAlctWindow cfg k alctProc st.used_mask
            (bx_alct_stop cfg b - bx_alct_start cfg b + 1).toNat (bx_alct_start cfg b) with
        | none =>
          rw [hs] at hx
          try dsimp only at hx
          split_ifs at hx with he
          · exact callAccesses_within cfg k hmb alctProc clctProc _ _ _ _
              ⟨hb0, by show b < M; omega⟩ ⟨hb0, hb1⟩ x hx
          · simp at hx
        | some y =>
          rw [hs] at hx
          try dsimp only at hx
          have hy := scanAlctWindow_range cfg k alctProc _ _ _ y hs
          rw [List.mem_append] at hx
          rcases hx with hx | hx
          · exact callAccesses_within cfg k hmb alctProc clctProc _ _ _ _
              ⟨hy.1, by show y < M; omega⟩ ⟨hb0, hb1⟩ x hx
          · rw [List.mem_singleton] at hx
            rw [hx]; simp only [Access.within, decide_eq_true_eq]; exact hy
    · rw [if_neg hv] at hx
      dsimp only at hx
      split_ifs at hx with hr he
      · rw [List.mem_cons] at hx
        rcases hx with hx | hx
        · rw [hx]; simp only [Access.within, decide_eq_true_eq]; omega
        · exact callAccesses_within cfg k hmb alctProc clctProc _ _ _ _
            ⟨hr.1, by show b - _ < M; omega⟩ ⟨hb0, hb1⟩ x hx
      · rw [List.mem_cons] at hx
        rcases hx with hx | hx
        · rw [hx]; simp only [Access.within, decide_eq_true_eq]; omega
        · simp at hx
      · simp at hx

/-- The accesses of one driving bin of the ALCT-centric loop: the lookups on the
anode finder, the mask accesses and the store writes are in range; the lookups on
the cathode finder are at bins below `M`. -/
theorem alctCentricAccesses_within (cfg : Config) (k : CSCConstants) (hmb : Nat)
    (alctProc : CSCAnodeLCTProcessor) (clctProc : CSCCathodeLCTProcessor) (st : LoopState)
    (b M : Int) (hb0 : 0 ≤ b) (hb1 : b < (k.MAX_ALCT_TBINS : Int))
    (hA : (k.MAX_ALCT_TBINS : Int) ≤ M) (hC : (k.MAX_CLCT_TBINS : Int) ≤ M) :
    ∀ x ∈ alctCentricAccesses cfg k hmb alctProc clctProc st b,
      x.within (k.MAX_ALCT_TBINS : Int) M (k.MAX_CLCT_TBINS : Int) (k.MAX_LCT_TBINS : Int)
        = true := by
  intro x hx
  unfold alctCentricAccesses at hx
  rw [List.mem_cons] at hx
  rcases hx with hx | hx
  · rw [hx]; simp only [Access.within, decide_eq_true_eq]; omega
  · by_cases hv : (alctProc.getBestALCT b).isValid = true
    · rw [if_pos hv, List.mem_append] at hx
      rcases hx with hx | hx
      · exact Access.within_mono _ _ _ _ _ _ _ _ le_rfl hC le_rfl le_rfl x
          (scanClctWindowAccesses_within cfg k clctProc st.used_mask _ _ _ _ x hx)
      · cases hs : scanClctWindow cfg k clctProc st.used_mask
            (bx_clct_stop cfg b - bx_clct_start cfg b + 1).toNat (bx_clct_start cfg b) with
        | none =>
          rw [hs] at hx
          try dsimp only at hx
          split_ifs at hx with he
          · exact callAccesses_within cfg k hmb alctProc clctProc _ _ _ _
              ⟨hb0, hb1⟩ ⟨hb0, by show b < M; omega⟩ x hx
          · simp at hx
        | some y =>
          rw [hs] at hx
          try dsimp only at hx
          have hy := scanClctWindow_range cfg k clctProc _ _ _ y hs
          rw [List.mem_append] at hx
          rcases hx with hx | hx
          · exact callAccesses_within cfg k hmb alctProc clctProc _ _ _ _
              ⟨hb0, hb1⟩ ⟨hy.1, by show y < M; omega⟩ x hx
          · rw [List.mem_singleton] at hx
            rw [hx]; simp only [Access.within, decide_eq_true_eq]; exact hy
    · rw [if_neg hv] at hx
      dsimp only at hx
      split_ifs at hx with hr he
      · rw [List.mem_cons] at hx
        rcases hx with hx | hx
        · rw [hx]; simp only [Access.within, decide_eq_true_eq]; omega
        · exact callAccesses_within cfg k hmb alctProc clctProc _ _ _ _
            ⟨hb0, hb1⟩ ⟨hr.1, by show b - _ < M; omega⟩ x hx
      · rw [List.mem_cons] at hx
        rcases hx with hx | hx
        · rw [hx]; simp only [Access.within, decide_eq_true_eq]; omega
        · simp at hx
      · simp at hx

theorem maskInitAccesses_within (maxA maxC maxMask maxLct : Int) (h : 20 ≤ maxMask) :
    ∀ x ∈ maskInitAccesses, x.within maxA maxC maxMask maxLct = true := by
  intro x hx
  unfold maskInitAccesses at hx
  rw [List.mem_map] at hx
  obtain ⟨a, ha, rfl⟩ := hx
  rw [List.mem_range'_1] at ha
  simp only [Access.within, decide_eq_true_eq]
  omega

theorem clearAccesses_within (k : CSCConstants) (maxA maxC maxMask : Int) :
    ∀ x ∈ clearAccesses k, x.within maxA maxC maxMask (k.MAX_LCT_TBINS : Int) = true := by
  intro x hx
  unfold clearAccesses at hx
  rw [List.mem_flatMap] at hx
  obtain ⟨a, ha, hxa⟩ := hx
  rw [List.mem_range'_1] at ha
  simp only [List.mem_cons, List.mem_singleton, List.not_mem_nil, or_false, or_self] at hxa
  rw [hxa]
  simp only [Access.within, decide_eq_true_eq]
  omega

theorem runClctCentricAccesses_within (cfg : Config) (k : CSCConstants) (hmb : Nat)
    (alctProc : CSCAnodeLCTProcessor) (clctProc : CSCCathodeLCTProcessor) (M : Int)
    (hA : (k.MAX_ALCT_TBINS : Int) ≤ M) (hC : (k.MAX_CLCT_TBINS : Int) ≤ M)
    (h20 : k.MAX_ALCT_TBINS ≤ 20) :
    ∀ x ∈ runClctCentricAccesses cfg k hmb alctProc clctProc,
      x.within M (k.MAX_CLCT_TBINS : Int) 20 (k.MAX_LCT_TBINS : Int) = true := by
  intro x hx
  unfold runClctCentricAccesses at hx
  rw [List.mem_append] at hx
  rcases hx with hx | hx
  · exact maskInitAccesses_within _ _ _ _ le_rfl x hx
  · rw [List.mem_flatMap] at hx
    obtain ⟨b, hb, hxb⟩ := hx
    rw [List.mem_range'_1] at hb
    exact Access.within_mono _ _ _ _ _ _ _ _ le_rfl le_rfl (by exact_mod_cast h20) le_rfl x
      (clctCentricAccesses_within cfg k hmb alctProc clctProc _ (b : Int) M
        (by omega) (by omega) hA hC x hxb)

theorem runAlctCentricAccesses_within (cfg : Config) (k : CSCConstants) (hmb : Nat)
    (alctProc : CSCAnodeLCTProcessor) (clctProc : CSCCathodeLCTProcessor) (M : Int)
    (hA : (k.MAX_ALCT_TBINS : Int) ≤ M) (hC : (k.MAX_CLCT_TBINS : Int) ≤ M)
    (h20 : k.MAX_CLCT_TBINS ≤ 20) :
    ∀ x ∈ runAlctCentricAccesses cfg k hmb alctProc clctProc,
      x.within (k.MAX_ALCT_TBINS : Int) M 20 (k.MAX_LCT_TBINS : Int) = true := by
  intro x hx
  unfold runAlctCentricAccesses at hx
  rw [List.mem_append] at hx
  rcases hx with hx | hx
  · exact maskInitAccesses_within _ _ _ _ le_rfl x hx
  · rw [List.mem_flatMap] at hx
    obtain ⟨b, hb, hxb⟩ := hx
    rw [List.mem_range'_1] at hb
    exact Access.within_mono _ _ _ _ _ _ _ _ le_rfl le_rfl (by exact_mod_cast h20) le_rfl x
      (alctCentricAccesses_within cfg k hmb alctProc clctProc _ (b : Int) M
        (by omega) (by omega) hA hC x hxb)

/-- The part of index safety that holds. When the deeper of the two finder
buffers has at most 20 bins, every access of `run` to a reuse mask is at an index
in [0, 20), every write to the store is at an index in [0, MAX_LCT_TBINS), and
every lookup is at a bin in [0, M), where M is the larger of the two buffer
depths; the lookups on the driving finder are inside its own range, and those on
the other finder are too when it is the deeper one. -/
theorem runAccesses_within (cfg : Config) (k : CSCConstants)
    (alctProc : Option CSCAnodeLCTProcessor) (clctProc : Option CSCCathodeLCTProcessor)
    (alctV : List CSCALCTDigi) (clctV : List CSCCLCTDigi) (alctBits : Nat)
    (hA20 : k.MAX_ALCT_TBINS ≤ 20) (hC20 : k.MAX_CLCT_TBINS ≤ 20) :
    (∀ x ∈ runAccesses cfg k alctProc clctProc alctV clctV alctBits,
      x.within (max (k.MAX_ALCT_TBINS : Int) (k.MAX_CLCT_TBINS : Int))
        (max (k.MAX_ALCT_TBINS : Int) (k.MAX_CLCT_TBINS : Int)) 20 (k.MAX_LCT_TBINS : Int)
        = true) ∧
    (cfg.clct_to_alct = true → k.MAX_CLCT_TBINS ≤ k.MAX_ALCT_TBINS →
      ∀ x ∈ runAccesses cfg k alctProc clctProc alctV clctV alctBits, x.inRange k = true) ∧
    (cfg.clct_to_alct = false → k.MAX_ALCT_TBINS ≤ k.MAX_CLCT_TBINS →
      ∀ x ∈ runAccesses cfg k alctProc clctProc alctV clctV alctBits, x.inRange k = true) := by
  have key : ∀ (A C : Int),
      (cfg.clct_to_alct = true → (k.MAX_ALCT_TBINS : Int) ≤ A ∧ (k.MAX_CLCT_TBINS : Int) ≤ A ∧
        (k.MAX_CLCT_TBINS : Int) ≤ C) →
      (cfg.clct_to_alct = false → (k.MAX_ALCT_TBINS : Int) ≤ C ∧ (k.MAX_CLCT_TBINS : Int) ≤ C ∧
        (k.MAX_ALCT_TBINS : Int) ≤ A) →
      ∀ x ∈ runAccesses cfg k alctProc clctProc alctV clctV alctBits,
        x.within A C 20 (k.MAX_LCT_TBINS : Int) = true := by
    intro A C h1 h2 x hx
    unfold runAccesses at hx
    rw [List.mem_append] at hx
    rcases hx with hx | hx
    · exact clearAccesses_within k _ _ _ x hx
    · cases alctProc with
      | none => simp at hx
      | some a =>
        cases clctProc with
        | none => simp at hx
        | some c =>
          dsimp only at hx
          split_ifs at hx with he hd
          · simp at hx
          · obtain ⟨g1, g2, g3⟩ := h1 hd
            exact Access.within_mono _ _ _ _ _ _ _ _ le_rfl g3 le_rfl le_rfl x
              (runClctCentricAccesses_within cfg k alctBits a c A g1 g2 hA20 x hx)
          · obtain ⟨g1, g2, g3⟩ := h2 (by simpa using hd)
            exact Access.within_mono _ _ _ _ _ _ _ _ g3 le_rfl le_rfl le_rfl x
              (runAlctCentricAccesses_within cfg k alctBits a c C g1 g2 hC20 x hx)
  refine ⟨?_, ?_, ?_⟩
  · exact key _ _ (fun _ => ⟨le_max_left _ _, le_max_right _ _, le_max_right _ _⟩)
      (fun _ => ⟨le_max_left _ _, le_max_right _ _, le_max_left _ _⟩)
  · intro hd hle
    have hle2 : (k.MAX_CLCT_TBINS : Int) ≤ (k.MAX_ALCT_TBINS : Int) := by exact_mod_cast hle
    exact key _ _ (fun _ => ⟨le_rfl, hle2, le_rfl⟩)
      (fun h => by rw [hd] at h; exact absurd h (by decide))
  · intro hd hle
    have hle2 : (k.MAX_ALCT_TBINS : Int) ≤ (k.MAX_CLCT_TBINS : Int) := by exact_mod_cast hle
    exact key _ _ (fun h => by rw [hd] at h; exact absurd h (by decide))
      (fun _ => ⟨hle2, le_rfl, le_rfl⟩)

/-- C33 (the code at the failing inputs): buffer depths 16 (ALCT), 12 (CLCT)
and 16 (LCT), ALCTs driving, window size 7, offset 0. In the default
configuration with an ALCT at bin 5 and a CLCT at bin 6, the fallback of the
invalid driving bin 15 looks up the cathode finder at bin 12. With ALCT-only
triggers enabled and a lone ALCT at bin 13, the single-sided call of driving bin
13 looks up the cathode finder (best and second) at the driving bin 13 as well.
Bins 12 and 13 are outside [0, MAX_CLCT_TBINS); every other access of the two
passes is in range. -/
theorem index_safety_failing_input :
    stdConstants.MAX_CLCT_TBINS = 12 ∧
    (runAccesses alctDrivingConfig stdConstants someAlct5 someClct6
        [⟨true, 1, false, 10, 5⟩] [⟨true, 4, 10, 0, 20, 6⟩] 0).filter
      (fun a => !a.inRange stdConstants) = [Access.clctLookup 12] ∧
    (runAlctCentric alctDrivingOnlyConfig stdConstants (alctAt [13]) (clctAt []))[13]?
      = some (some ⟨13, 13, LCTType.ALCTONLY⟩) ∧
    (runAccesses alctDrivingOnlyConfig stdConstants (some (alctAt [13])) (some (clctAt []))
        [⟨true, 1, false, 10, 13⟩] [] 0).filter
      (fun a => !a.inRange stdConstants)
      = [Access.clctLookup 13, Access.clctLookup 13, Access.clctLookup 12] := by
  decide

end CSCMotherboard
